import Mathlib

/-!
# Ownership-scoped CRUD, comment parents and like toggling of the blogging API

A shallow embedding of the route handlers of `src/routes/projects.js`,
`src/routes/forums.js`, `src/routes/comments.js` and `src/routes/auth.js`
together with the Mongoose models of `src/models/`.  The MongoDB collections are lists of documents in
insertion order; a handler is a function from the request and the store to a
reply and the next store.  Two values come from the runtime and are explicit
inputs of every handler: `now`, the clock reading Mongoose uses for the
`timestamps: true` fields, and `newId`, the ObjectId that `new Model(...)`
generates for a document about to be saved.

Request bodies are parsed JSON objects whose known properties, when present,
carry a value of their declared type.  `populate` of the `owner` and `author`
paths only decorates the serialised copy of a document and is not modelled: a
reply carries the stored document.  `populate` of the `likes` path in the like
route of projects is modelled, because the route counts the populated array.

`String.prototype.toLowerCase` converts by the Unicode case tables of the
runtime.  The model takes the function as given (`JsRuntime`); the examples run
with a stand-in that converts the letters A to Z.
-/

namespace BlogApi

/-! ## Identifiers and strings -/

/-- An ObjectId, kept as the 96-bit number its 24 hexadecimal digits denote. -/
abbrev ObjectId := Nat

/-- Hexadecimal digit test on a character: 0-9, a-f, A-F. -/
def isHexDigit (c : Char) : Bool :=
  (48 ≤ c.toNat && c.toNat ≤ 57) || (97 ≤ c.toNat && c.toNat ≤ 102) ||
    (65 ≤ c.toNat && c.toNat ≤ 70)

/-- Value of a hexadecimal digit (0 for any other character). -/
def hexValue (c : Char) : Nat :=
  if 48 ≤ c.toNat ∧ c.toNat ≤ 57 then c.toNat - 48
  else if 97 ≤ c.toNat ∧ c.toNat ≤ 102 then c.toNat - 87
  else if 65 ≤ c.toNat ∧ c.toNat ≤ 70 then c.toNat - 55
  else 0

/-- The check `mongoose.Types.ObjectId.isValid` on a string: 24 hexadecimal
characters, the format `objectIdSchema` of `projectSchemas.js` spells out as
`^[0-9a-fA-F]{24}$`. -/
def isValidObjectId (s : String) : Bool :=
  s.data.length == 24 && s.data.all isHexDigit

/-- The pattern of `objectIdSchema` (`src/schemas/projectSchemas.js`), applied by
the request validation of the routes that declare a schema. -/
def objectIdSchema (s : String) : Bool :=
  s.data.length == 24 && s.data.all isHexDigit

/-- The cast Mongoose applies to an id string before a lookup: the number the
hexadecimal digits denote (letter case is irrelevant). -/
def castObjectId (s : String) : ObjectId :=
  s.data.foldl (fun acc c => 16 * acc + hexValue c) 0

/-- The white space and line terminator code points `String.prototype.trim`
removes. -/
def isJsWhiteSpace (c : Char) : Bool :=
  (9 ≤ c.toNat && c.toNat ≤ 13) || c.toNat == 32 || c.toNat == 160 ||
    c.toNat == 5760 || (8192 ≤ c.toNat && c.toNat ≤ 8202) || c.toNat == 8232 ||
    c.toNat == 8233 || c.toNat == 8239 || c.toNat == 8287 || c.toNat == 12288 ||
    c.toNat == 65279

/-- The setter of a `trim: true` string path: `String.prototype.trim`. -/
def jsTrim (s : String) : String :=
  String.mk ((s.data.dropWhile isJsWhiteSpace).reverse.dropWhile isJsWhiteSpace).reverse

/-- What the model takes from the JavaScript runtime as given: the function
`String.prototype.toLowerCase`. -/
class JsRuntime where
  toLowerCase : String → String

/-- The setter of a `lowercase: true` string path, and the call
`username.toLowerCase()` of the login route. -/
def jsToLowerCase [JsRuntime] (s : String) : String :=
  JsRuntime.toLowerCase s

/-- JavaScript truthiness of an optional string property: present and not the
empty string.  This is the test behind `!content`, `!projectId`, `projectId &&
forumId`. -/
def truthy (v : Option String) : Bool :=
  match v with
  | some x => !x.data.isEmpty
  | none => false

/-- The `required: true` validator of a string path, run on the value after the
setters: a missing value and the empty string both fail. -/
def requiredString (v : Option String) : Bool :=
  match v with
  | some x => !x.data.isEmpty
  | none => false

/-! ## Documents and the store -/

/-- A document of `models/User.js`. -/
structure User where
  _id : ObjectId
  username : String
  email : String
  password : String
  createdAt : Nat
  updatedAt : Nat
  deriving DecidableEq, Repr

/-- A document of `models/Project.js`. -/
structure Project where
  _id : ObjectId
  title : String
  description : String
  tags : List String
  repoUrl : Option String
  liveUrl : Option String
  owner : ObjectId
  likes : List ObjectId
  createdAt : Nat
  updatedAt : Nat
  deriving DecidableEq, Repr

/-- A document of `models/Forum.js`. -/
structure Forum where
  _id : ObjectId
  title : String
  description : String
  owner : ObjectId
  likes : List ObjectId
  createdAt : Nat
  updatedAt : Nat
  deriving DecidableEq, Repr

/-- A document of `models/Comment.js`: `project` and `forum` are the two
optional parent references. -/
structure Comment where
  _id : ObjectId
  content : String
  author : ObjectId
  project : Option ObjectId
  forum : Option ObjectId
  createdAt : Nat
  updatedAt : Nat
  deriving DecidableEq, Repr

/-- The four collections, each in insertion order. -/
structure Store where
  users : List User
  projects : List Project
  forums : List Forum
  comments : List Comment
  deriving DecidableEq, Repr

/-- The store before any request. -/
def Store.empty : Store :=
  { users := [], projects := [], forums := [], comments := [] }

/-- Documents have an `_id`. -/
class Document (α : Type) where
  oid : α → ObjectId

instance : Document User := ⟨User._id⟩
instance : Document Project := ⟨Project._id⟩
instance : Document Forum := ⟨Forum._id⟩
instance : Document Comment := ⟨Comment._id⟩

/-- The query `Model.findById(id)`: the document with that `_id`, if any. -/
def findById {α : Type} [Document α] (xs : List α) (id : ObjectId) : Option α :=
  match xs with
  | [] => none
  | x :: rest => if Document.oid x == id then some x else findById rest id

/-- The query `Model.findByIdAndUpdate(id, update, { new: true })`: the updated
document (or none when no document has that `_id`) and the collection after
the update. -/
def findByIdAndUpdate {α : Type} [Document α] (xs : List α) (id : ObjectId) (f : α → α) :
    Option α × List α :=
  match xs with
  | [] => (none, [])
  | x :: rest =>
    if Document.oid x == id then (some (f x), f x :: rest)
    else ((findByIdAndUpdate rest id f).1, x :: (findByIdAndUpdate rest id f).2)

/-- The query `Model.findByIdAndDelete(id)`: the collection without the document
of that `_id`. -/
def findByIdAndDelete {α : Type} [Document α] (xs : List α) (id : ObjectId) : List α :=
  match xs with
  | [] => []
  | x :: rest => if Document.oid x == id then rest else x :: findByIdAndDelete rest id

/-- The update operator `$pull` on an array of ids: every occurrence goes. -/
def pull (likes : List ObjectId) (userId : ObjectId) : List ObjectId :=
  likes.filter (fun like => !(like == userId))

/-- The update operator `$addToSet` on an array of ids: appended unless present. -/
def addToSet (likes : List ObjectId) (userId : ObjectId) : List ObjectId :=
  if likes.any (fun like => like == userId) then likes else likes ++ [userId]

/-! ## Replies -/

/-- A user document as a query returns it by default: the `password` path is
declared `select: false` and is left out. -/
structure UserView where
  _id : ObjectId
  username : String
  email : String
  createdAt : Nat
  updatedAt : Nat
  deriving DecidableEq, Repr

/-- What a reply carries. -/
inductive Payload where
  | empty
  | message (text : String)
  | validationError (text : String)
  | schemaError
  | project (doc : Project)
  | forum (doc : Forum)
  | comment (doc : Comment)
  | like (text : String) (likesCount : Nat)
  | comments (docs : List Comment)
  | projectPage (data : List Project) (currentPage totalPages totalProjects limit : Int)
  | forumPage (data : List Forum) (currentPage totalPages totalForums limit : Int)
  | registered (text : String) (userId : ObjectId)
  | token (token : String)
  | user (doc : UserView)
  | tags (tags : List String)
  | search (query : String) (projects : List Project) (totalProjects : Nat)
      (forums : List Forum) (totalForums : Nat) (requestedPage requestedLimit : Int)
      (totalApproximateResults : Nat)
  deriving DecidableEq, Repr

/-- A reply: HTTP status code and payload. -/
structure Reply where
  status : Nat
  body : Payload
  deriving DecidableEq, Repr

/-- The reply of `fastify.authenticate` (`plugins/auth.js`) when the token is
missing or does not verify; the route handler does not run. -/
def unauthenticated : Reply :=
  ⟨401, .message "Authentication required."⟩

/-- The reply of the framework when a request fails the schema of its route. -/
def schemaRejected : Reply :=
  ⟨400, .schemaError⟩

/-! ## Request bodies -/

/-- What a client may send under the name of a date path: a value that casts to
a date, given as the time it denotes, or a value that does not. -/
inductive DateInput where
  | date (time : Nat)
  | invalid
  deriving DecidableEq, Repr

/-- Body of a project request: what a client may send under the names of the
paths of the schema, `_id` and the two timestamps included.  `owner` and
`likes` stand for what a client may send under those names.  The version key
is not part of the documents of the model and is left out. -/
structure ProjectBody where
  title : Option String
  description : Option String
  tags : Option (List String)
  repoUrl : Option String
  liveUrl : Option String
  owner : Option String
  likes : Option (List String)
  _id : Option String
  createdAt : Option DateInput
  updatedAt : Option DateInput
  deriving DecidableEq, Repr

/-- Body of a forum request: what a client may send under the names of the
paths of the schema, `_id` and the two timestamps included. -/
structure ForumBody where
  title : Option String
  description : Option String
  owner : Option String
  likes : Option (List String)
  _id : Option String
  createdAt : Option DateInput
  updatedAt : Option DateInput
  deriving DecidableEq, Repr

/-- Body of a comment creation request. -/
structure CommentBody where
  content : Option String
  projectId : Option String
  forumId : Option String
  deriving DecidableEq, Repr

/-- Body of a comment update request. -/
structure CommentUpdateBody where
  content : Option String
  deriving DecidableEq, Repr

/-! ## Project routes (`src/routes/projects.js`) -/

/-- The cast of the `tags` path: every tag goes through the `lowercase` and
`trim` setters; a missing array is the empty array. -/
def castTags [JsRuntime] (tags : List String) : List String :=
  tags.map (fun t => jsTrim (jsToLowerCase t))

/-- Helper `checkProjectOwnership`: the reply already sent (404, 403) or the
project when the user owns it. -/
def checkProjectOwnership (userId : ObjectId) (projectId : String) (s : Store) :
    Except Reply Project :=
  match findById s.projects (castObjectId projectId) with
  | none => .error ⟨404, .message "Project not found."⟩
  | some project =>
    if !(project.owner == userId) then
      .error ⟨403, .message "Forbidden: You are not the owner of this project."⟩
    else .ok project

/-- The insert behind `save()` of a new document: the unique index on `_id`
rejects a document whose id is already in the collection (none: duplicate key
error). -/
def insertDoc {α : Type} [Document α] (xs : List α) (doc : α) : Option (List α) :=
  match findById xs (Document.oid doc) with
  | some _ => none
  | none => some (xs ++ [doc])

/-- Whether a value sent under the name `_id` casts to an ObjectId; a cast that
fails is reported by the validation of `save()`. -/
def castsToObjectId (v : Option String) : Bool :=
  match v with
  | some x => isValidObjectId x
  | none => true

/-- Whether a value sent under the name of a date path casts to a date. -/
def castsToDate (v : Option DateInput) : Bool :=
  match v with
  | some .invalid => false
  | _ => true

/-- The `_id` of a new document: the one the body carries, else the generated
one. -/
def documentId (newId : ObjectId) (v : Option String) : ObjectId :=
  match v with
  | some x => castObjectId x
  | none => newId

/-- The `createdAt` that the timestamps of `save()` leave on a new document: the
one the body carries, else the time of the save. -/
def createdTime (now : Nat) (v : Option DateInput) : Nat :=
  match v with
  | some (.date time) => time
  | _ => now

/-- The document `new Project({ ...request.body, owner: request.user.id, likes: [] })`
as `save()` stores it.  The spread passes every property of the body to the
constructor, which drops the names that are not paths of the schema; `owner`
and `likes` of the body are overridden.  An `_id` and a `createdAt` of the
body are kept, the string paths go through their setters, and `updatedAt` of
a new document is set to its `createdAt`. -/
def newProject [JsRuntime] (now : Nat) (newId userId : ObjectId) (body : ProjectBody) :
    Project :=
  { _id := documentId newId body._id
    title := jsTrim (body.title.getD "")
    description := jsTrim (body.description.getD "")
    tags := castTags (body.tags.getD [])
    repoUrl := body.repoUrl.map jsTrim
    liveUrl := body.liveUrl.map jsTrim
    owner := userId
    likes := []
    createdAt := createdTime now body.createdAt
    updatedAt := createdTime now body.createdAt }

/-- Validation of a new project by `save()`: `title` and `description` are
required (`owner` is always set by the route), and the `_id` and the
timestamps of the body, when present, must have cast. -/
def validateNewProject (body : ProjectBody) : Bool :=
  requiredString (body.title.map jsTrim) && requiredString (body.description.map jsTrim) &&
    castsToObjectId body._id && castsToDate body.createdAt && castsToDate body.updatedAt

/-- Route `POST /` of projects (no request schema is attached to it). -/
def projectCreate [JsRuntime] (now : Nat) (newId : ObjectId) (auth : Option ObjectId)
    (body : ProjectBody) (s : Store) : Reply × Store :=
  match auth with
  | none => (unauthenticated, s)
  | some userId =>
    if !validateNewProject body then (⟨400, .validationError "Validation Error"⟩, s)
    else
      match insertDoc s.projects (newProject now newId userId body) with
      | none => (⟨500, .message "Error creating project"⟩, s)
      | some projects =>
        match findById projects (newProject now newId userId body)._id with
        | some populatedProject =>
          (⟨201, .project populatedProject⟩, { s with projects := projects })
        | none => (⟨201, .empty⟩, { s with projects := projects })

/-- The update `{ $set: updates }` of the project route on a document, where
`updates` holds the allowed properties present in the body; Mongoose adds
`updatedAt`. -/
def applyProjectUpdates [JsRuntime] (now : Nat) (body : ProjectBody) (p : Project) :
    Project :=
  { p with
    title := match body.title with
      | some t => jsTrim t
      | none => p.title
    description := match body.description with
      | some d => jsTrim d
      | none => p.description
    tags := match body.tags with
      | some ts => castTags ts
      | none => p.tags
    repoUrl := match body.repoUrl with
      | some u => some (jsTrim u)
      | none => p.repoUrl
    liveUrl := match body.liveUrl with
      | some u => some (jsTrim u)
      | none => p.liveUrl
    updatedAt := now }

/-- The update validators (`runValidators: true`) on a `$set` of title and
description: a path that is set must pass its `required` validator. -/
def validateUpdates (title description : Option String) : Bool :=
  (match title with
    | some t => requiredString (some (jsTrim t))
    | none => true) &&
  (match description with
    | some d => requiredString (some (jsTrim d))
    | none => true)

/-- Route `PUT /:id` of projects. -/
def projectUpdate [JsRuntime] (now : Nat) (auth : Option ObjectId) (id : String)
    (body : ProjectBody) (s : Store) : Reply × Store :=
  match auth with
  | none => (unauthenticated, s)
  | some userId =>
    if !isValidObjectId id then (⟨400, .message "Invalid Project ID format."⟩, s)
    else
      match checkProjectOwnership userId id s with
      | .error reply => (reply, s)
      | .ok _ =>
        if !validateUpdates body.title body.description then
          (⟨400, .validationError "Validation Error"⟩, s)
        else
          match findByIdAndUpdate s.projects (castObjectId id) (applyProjectUpdates now body) with
          | (some updatedProject, projects) =>
            (⟨200, .project updatedProject⟩, { s with projects := projects })
          | (none, projects) =>
            (⟨404, .message "Project not found after update attempt."⟩,
              { s with projects := projects })

/-- Route `DELETE /:id` of projects. -/
def projectDelete (auth : Option ObjectId) (id : String) (s : Store) : Reply × Store :=
  match auth with
  | none => (unauthenticated, s)
  | some userId =>
    if !isValidObjectId id then (⟨400, .message "Invalid Project ID format."⟩, s)
    else
      match checkProjectOwnership userId id s with
      | .error reply => (reply, s)
      | .ok _ =>
        (⟨204, .empty⟩, { s with projects := findByIdAndDelete s.projects (castObjectId id) })

/-- The call `.populate('likes', 'username')` on a like array, as far as the
like route of projects uses the outcome: the ids that have a user document, in
order.  Populating drops an id for which no document is found. -/
def populateLikes (users : List User) (likes : List ObjectId) : List ObjectId :=
  likes.filter (fun id => (findById users id).isSome)

/-- Route `POST /:id/like` of projects.  The `likesCount` of the reply is the
length of the like array after `populate`. -/
def projectLike (now : Nat) (auth : Option ObjectId) (id : String) (s : Store) :
    Reply × Store :=
  match auth with
  | none => (unauthenticated, s)
  | some userId =>
    if !isValidObjectId id then (⟨400, .message "Invalid Project ID format."⟩, s)
    else
      match findById s.projects (castObjectId id) with
      | none => (⟨404, .message "Project not found."⟩, s)
      | some project =>
        if project.likes.any (fun like => like == userId) then
          match findByIdAndUpdate s.projects (castObjectId id)
              (fun p => { p with likes := pull p.likes userId, updatedAt := now }) with
          | (some updatedProject, projects) =>
            (⟨200, .like "Project unliked" (populateLikes s.users updatedProject.likes).length⟩,
              { s with projects := projects })
          | (none, projects) =>
            (⟨500, .message "Error liking project"⟩, { s with projects := projects })
        else
          match findByIdAndUpdate s.projects (castObjectId id)
              (fun p => { p with likes := addToSet p.likes userId, updatedAt := now }) with
          | (some updatedProject, projects) =>
            (⟨200, .like "Project liked" (populateLikes s.users updatedProject.likes).length⟩,
              { s with projects := projects })
          | (none, projects) =>
            (⟨500, .message "Error liking project"⟩, { s with projects := projects })

/-! ## Forum routes (`src/routes/forums.js`)

Every forum route declares a schema of `src/schemas/forumSchemas.js`; the
framework validates the request against it before the `preHandler` hooks, so
before `fastify.authenticate`. -/

/-- Number of properties of a forum body, for `minProperties`. -/
def ForumBody.propertyCount (body : ForumBody) : Nat :=
  (if body.title.isSome then 1 else 0) + (if body.description.isSome then 1 else 0) +
    (if body.owner.isSome then 1 else 0) + (if body.likes.isSome then 1 else 0) +
    (if body._id.isSome then 1 else 0) + (if body.createdAt.isSome then 1 else 0) +
    (if body.updatedAt.isSome then 1 else 0)

/-- The body part of `createForumSchema`: `title` and `description` required,
of length at least 3 and 10. -/
def createForumSchema (body : ForumBody) : Bool :=
  match body.title, body.description with
  | some t, some d => decide (3 ≤ t.length) && decide (10 ≤ d.length)
  | _, _ => false

/-- The schema `updateForumSchema`: the id parameter has the ObjectId pattern, the
body has at least one property, `title` and `description` have their minimum
lengths when present. -/
def updateForumSchema (id : String) (body : ForumBody) : Bool :=
  objectIdSchema id && decide (1 ≤ body.propertyCount) &&
    (match body.title with
      | some t => decide (3 ≤ t.length)
      | none => true) &&
    (match body.description with
      | some d => decide (10 ≤ d.length)
      | none => true)

/-- The schemas `deleteForumSchema` and `likeForumSchema`: the id parameter has
the ObjectId pattern. -/
def forumIdSchema (id : String) : Bool :=
  objectIdSchema id

/-- Helper `checkForumOwnership`.  The `owner` path is required, so a stored
forum always has one and the test `!forum.owner` never fires. -/
def checkForumOwnership (userId : ObjectId) (forumId : String) (s : Store) :
    Except Reply Forum :=
  if !isValidObjectId forumId then .error ⟨400, .message "Invalid Forum ID format."⟩
  else
    match findById s.forums (castObjectId forumId) with
    | none => .error ⟨404, .message "Forum not found."⟩
    | some forum =>
      if !(forum.owner == userId) then
        .error ⟨403, .message "Forbidden: You are not the owner of this forum."⟩
      else .ok forum

/-- The document `new Forum({ ...request.body, owner: request.user.id, likes: [] })`
as `save()` stores it; the schema of the route lets additional properties
through, so what is said of `newProject` holds here too. -/
def newForum (now : Nat) (newId userId : ObjectId) (body : ForumBody) : Forum :=
  { _id := documentId newId body._id
    title := jsTrim (body.title.getD "")
    description := jsTrim (body.description.getD "")
    owner := userId
    likes := []
    createdAt := createdTime now body.createdAt
    updatedAt := createdTime now body.createdAt }

/-- Validation of a new forum by `save()`: `title` and `description` are
required, and the `_id` and the timestamps of the body, when present, must
have cast. -/
def validateNewForum (body : ForumBody) : Bool :=
  requiredString (body.title.map jsTrim) && requiredString (body.description.map jsTrim) &&
    castsToObjectId body._id && castsToDate body.createdAt && castsToDate body.updatedAt

/-- Route `POST /` of forums. -/
def forumCreate (now : Nat) (newId : ObjectId) (auth : Option ObjectId)
    (body : ForumBody) (s : Store) : Reply × Store :=
  if !createForumSchema body then (schemaRejected, s)
  else
    match auth with
    | none => (unauthenticated, s)
    | some userId =>
      if !validateNewForum body then (⟨400, .validationError "Validation Error"⟩, s)
      else
        match insertDoc s.forums (newForum now newId userId body) with
        | none => (⟨500, .message "Error creating forum"⟩, s)
        | some forums =>
          match findById forums (newForum now newId userId body)._id with
          | some populatedForum => (⟨201, .forum populatedForum⟩, { s with forums := forums })
          | none => (⟨201, .empty⟩, { s with forums := forums })

/-- The update `{ $set: updates }` of the forum route on a document; Mongoose
adds `updatedAt`. -/
def applyForumUpdates (now : Nat) (body : ForumBody) (f : Forum) : Forum :=
  { f with
    title := match body.title with
      | some t => jsTrim t
      | none => f.title
    description := match body.description with
      | some d => jsTrim d
      | none => f.description
    updatedAt := now }

/-- Route `PUT /:id` of forums. -/
def forumUpdate (now : Nat) (auth : Option ObjectId) (id : String)
    (body : ForumBody) (s : Store) : Reply × Store :=
  if !updateForumSchema id body then (schemaRejected, s)
  else
    match auth with
    | none => (unauthenticated, s)
    | some userId =>
      match checkForumOwnership userId id s with
      | .error reply => (reply, s)
      | .ok _ =>
        if body.title.isNone && body.description.isNone then
          (⟨400, .message "No valid fields provided for update."⟩, s)
        else if !validateUpdates body.title body.description then
          (⟨400, .validationError "Validation Error"⟩, s)
        else
          match findByIdAndUpdate s.forums (castObjectId id) (applyForumUpdates now body) with
          | (some updatedForum, forums) =>
            (⟨200, .forum updatedForum⟩, { s with forums := forums })
          | (none, forums) =>
            (⟨404, .message "Forum not found after update attempt."⟩,
              { s with forums := forums })

/-- Route `DELETE /:id` of forums. -/
def forumDelete (auth : Option ObjectId) (id : String) (s : Store) : Reply × Store :=
  if !forumIdSchema id then (schemaRejected, s)
  else
    match auth with
    | none => (unauthenticated, s)
    | some userId =>
      match checkForumOwnership userId id s with
      | .error reply => (reply, s)
      | .ok _ =>
        (⟨204, .empty⟩, { s with forums := findByIdAndDelete s.forums (castObjectId id) })

/-- Route `POST /:id/like` of forums. -/
def forumLike (now : Nat) (auth : Option ObjectId) (id : String) (s : Store) :
    Reply × Store :=
  if !forumIdSchema id then (schemaRejected, s)
  else
    match auth with
    | none => (unauthenticated, s)
    | some userId =>
      if !isValidObjectId id then (⟨400, .message "Invalid Forum ID format."⟩, s)
      else
        match findById s.forums (castObjectId id) with
        | none => (⟨404, .message "Forum not found."⟩, s)
        | some forum =>
          if forum.likes.any (fun like => like == userId) then
            match findByIdAndUpdate s.forums (castObjectId id)
                (fun f => { f with likes := pull f.likes userId, updatedAt := now }) with
            | (some updatedForum, forums) =>
              (⟨200, .like "Forum unliked successfully." updatedForum.likes.length⟩,
                { s with forums := forums })
            | (none, forums) =>
              (⟨500, .message "Error processing like for forum"⟩, { s with forums := forums })
          else
            match findByIdAndUpdate s.forums (castObjectId id)
                (fun f => { f with likes := addToSet f.likes userId, updatedAt := now }) with
            | (some updatedForum, forums) =>
              (⟨200, .like "Forum liked successfully." updatedForum.likes.length⟩,
                { s with forums := forums })
            | (none, forums) =>
              (⟨500, .message "Error processing like for forum"⟩, { s with forums := forums })

/-! ## Comment routes (`src/routes/comments.js`)

The schemas of `commentSchemas.js` are imported by the routes file but attached
to no route, so the handlers see the body as sent. -/

/-- The hook `commentSchema.pre('validate')` of `models/Comment.js`: true when it
calls `next()` without an error, that is when exactly one of `project` and
`forum` is set. -/
def commentPreValidate (c : Comment) : Bool :=
  if c.project.isSome && c.forum.isSome then false
  else if !c.project.isSome && !c.forum.isSome then false
  else true

/-- Helper `checkCommentAuthorship`. -/
def checkCommentAuthorship (userId : ObjectId) (commentId : String) (s : Store) :
    Except Reply Comment :=
  match findById s.comments (castObjectId commentId) with
  | none => .error ⟨404, .message "Comment not found."⟩
  | some comment =>
    if !(comment.author == userId) then
      .error ⟨403, .message "Forbidden: You are not the author of this comment."⟩
    else .ok comment

/-- The document `new Comment({ content, author, project: projectId || undefined,
forum: forumId || undefined })` after casting. -/
def newComment (now : Nat) (newId authorId : ObjectId) (body : CommentBody) : Comment :=
  { _id := newId
    content := jsTrim (body.content.getD "")
    author := authorId
    project := if truthy body.projectId then some (castObjectId (body.projectId.getD "")) else none
    forum := if truthy body.forumId then some (castObjectId (body.forumId.getD "")) else none
    createdAt := now
    updatedAt := now }

/-- The existence check of the parent in `POST /` of comments: the reply sent
when it fails, none when the parent is there. -/
def checkParentExists (body : CommentBody) (s : Store) : Option Reply :=
  if truthy body.projectId then
    if !isValidObjectId (body.projectId.getD "") then
      some ⟨400, .message "Invalid Project ID."⟩
    else
      match findById s.projects (castObjectId (body.projectId.getD "")) with
      | none => some ⟨404, .message "Project not found."⟩
      | some _ => none
  else
    if !isValidObjectId (body.forumId.getD "") then
      some ⟨400, .message "Invalid Forum ID."⟩
    else
      match findById s.forums (castObjectId (body.forumId.getD "")) with
      | none => some ⟨404, .message "Forum not found."⟩
      | some _ => none

/-- Route `POST /` of comments.  On `save()` the `pre('validate')` hook runs
first (its error is a plain `Error`, answered with 500), then the validators
(`content` is required once trimmed; a ValidationError is answered with 400),
then the insert. -/
def commentCreate (now : Nat) (newId : ObjectId) (auth : Option ObjectId)
    (body : CommentBody) (s : Store) : Reply × Store :=
  match auth with
  | none => (unauthenticated, s)
  | some authorId =>
    if !truthy body.content then (⟨400, .message "Comment content is required."⟩, s)
    else if !truthy body.projectId && !truthy body.forumId then
      (⟨400, .message "Either projectId or forumId is required in the body."⟩, s)
    else if truthy body.projectId && truthy body.forumId then
      (⟨400, .message "Provide either projectId or forumId, not both."⟩, s)
    else
      match checkParentExists body s with
      | some reply => (reply, s)
      | none =>
        if !commentPreValidate (newComment now newId authorId body) then
          (⟨500, .message "Error adding comment"⟩, s)
        else if !requiredString (some (newComment now newId authorId body).content) then
          (⟨400, .validationError "Comment validation failed: content: Path `content` is required."⟩, s)
        else
          match insertDoc s.comments (newComment now newId authorId body) with
          | none => (⟨500, .message "Error adding comment"⟩, s)
          | some comments =>
            match findById comments newId with
            | some populatedComment =>
              (⟨201, .comment populatedComment⟩, { s with comments := comments })
            | none => (⟨201, .empty⟩, { s with comments := comments })

/-- Route `PUT /:id` of comments.  `comment.content = content` runs the trim
setter and marks the path modified only when the value changes; `save()` runs
the `pre('validate')` hook, validates the modified path, and writes it together
with `updatedAt`. -/
def commentUpdate (now : Nat) (auth : Option ObjectId) (id : String)
    (body : CommentUpdateBody) (s : Store) : Reply × Store :=
  match auth with
  | none => (unauthenticated, s)
  | some userId =>
    if !isValidObjectId id then (⟨400, .message "Invalid Comment ID format."⟩, s)
    else if !truthy body.content then
      (⟨400, .message "Comment content is required for update."⟩, s)
    else
      match checkCommentAuthorship userId id s with
      | .error reply => (reply, s)
      | .ok comment =>
        if !commentPreValidate comment then (⟨500, .message "Error updating comment"⟩, s)
        else if jsTrim (body.content.getD "") == comment.content then
          match findById s.comments comment._id with
          | some updatedComment => (⟨200, .comment updatedComment⟩, s)
          | none => (⟨200, .empty⟩, s)
        else if !requiredString (some (jsTrim (body.content.getD ""))) then
          (⟨400, .validationError "Validation Error"⟩, s)
        else
          match findById
              (findByIdAndUpdate s.comments comment._id
                (fun c => { c with content := jsTrim (body.content.getD ""), updatedAt := now })).2
              comment._id with
          | some updatedComment =>
            (⟨200, .comment updatedComment⟩,
              { s with comments := (findByIdAndUpdate s.comments comment._id
                (fun c => { c with content := jsTrim (body.content.getD ""), updatedAt := now })).2 })
          | none =>
            (⟨200, .empty⟩,
              { s with comments := (findByIdAndUpdate s.comments comment._id
                (fun c => { c with content := jsTrim (body.content.getD ""), updatedAt := now })).2 })

/-- Route `DELETE /:id` of comments. -/
def commentDelete (auth : Option ObjectId) (id : String) (s : Store) : Reply × Store :=
  match auth with
  | none => (unauthenticated, s)
  | some userId =>
    if !isValidObjectId id then (⟨400, .message "Invalid Comment ID format."⟩, s)
    else
      match checkCommentAuthorship userId id s with
      | .error reply => (reply, s)
      | .ok _ =>
        (⟨204, .empty⟩, { s with comments := findByIdAndDelete s.comments (castObjectId id) })

/-! ## Read routes of projects, forums and comments

A query parameter that the handler reads as a number is the integer
`parseInt`, or the type coercion of the request validator, makes of it; none
stands for a parameter that is missing or is not a number.  `sort` is modelled
by a stable sort of the collection. -/

/-- The query `.sort({ createdAt: 'asc' })` on comments. -/
def sortCommentsAsc (xs : List Comment) : List Comment :=
  xs.insertionSort (fun a b => a.createdAt ≤ b.createdAt)

/-- The query `.sort({ createdAt: -1 })` on projects. -/
def sortProjectsDesc (xs : List Project) : List Project :=
  xs.insertionSort (fun a b => b.createdAt ≤ a.createdAt)

/-- The query `.sort({ createdAt: -1 })` on forums. -/
def sortForumsDesc (xs : List Forum) : List Forum :=
  xs.insertionSort (fun a b => b.createdAt ≤ a.createdAt)

/-- Route `GET /` of comments (no authentication, no schema attached). -/
def commentList (projectId forumId : Option String) (s : Store) : Reply :=
  if !truthy projectId && !truthy forumId then
    ⟨400, .message "Either projectId or forumId query parameter is required."⟩
  else if truthy projectId && truthy forumId then
    ⟨400, .message "Provide either projectId or forumId, not both."⟩
  else if truthy projectId then
    if !isValidObjectId (projectId.getD "") then ⟨400, .message "Invalid Project ID format."⟩
    else
      ⟨200, .comments (sortCommentsAsc
        (s.comments.filter (fun c => c.project == some (castObjectId (projectId.getD "")))))⟩
  else
    if !isValidObjectId (forumId.getD "") then ⟨400, .message "Invalid Forum ID format."⟩
    else
      ⟨200, .comments (sortCommentsAsc
        (s.comments.filter (fun c => c.forum == some (castObjectId (forumId.getD "")))))⟩

/-- The expression `parseInt(value) || fallback`: the fallback replaces a
missing value, a value that is not a number, and zero. -/
def orDefault (value : Option Int) (fallback : Int) : Int :=
  match value with
  | some n => if n = 0 then fallback else n
  | none => fallback

/-- The expression `Math.ceil(total / limit)` for a limit other than zero. -/
def ceilDiv (total limit : Int) : Int :=
  -(Int.fdiv (-total) limit)

/-- Route `GET /` of projects (no schema attached).  A negative skip makes the
query fail, which the route answers with 500; the driver reads a negative
limit as its absolute value. -/
def projectList (page limit : Option Int) (s : Store) : Reply :=
  if (orDefault page 1 - 1) * orDefault limit 10 < 0 then
    ⟨500, .message "Error fetching projects"⟩
  else
    ⟨200, .projectPage
      (((sortProjectsDesc s.projects).drop ((orDefault page 1 - 1) * orDefault limit 10).toNat).take
        (orDefault limit 10).natAbs)
      (orDefault page 1) (ceilDiv s.projects.length (orDefault limit 10)) s.projects.length
      (orDefault limit 10)⟩

/-- The schema `paginationQuerySchema`: `page` is an integer of at least 1,
`limit` an integer from 1 to 100; both are optional. -/
def paginationQuerySchema (page limit : Option Int) : Bool :=
  (match page with
    | some n => decide (1 ≤ n)
    | none => true) &&
  (match limit with
    | some n => decide (1 ≤ n) && decide (n ≤ 100)
    | none => true)

/-- Route `GET /` of forums; the schema fills in the defaults 1 and 10. -/
def forumList (page limit : Option Int) (s : Store) : Reply :=
  if !paginationQuerySchema page limit then schemaRejected
  else if (page.getD 1 - 1) * limit.getD 10 < 0 then ⟨500, .message "Error fetching forums"⟩
  else
    ⟨200, .forumPage
      (((sortForumsDesc s.forums).drop ((page.getD 1 - 1) * limit.getD 10).toNat).take
        (limit.getD 10).natAbs)
      (page.getD 1) (ceilDiv s.forums.length (limit.getD 10)) s.forums.length (limit.getD 10)⟩

/-- Route `GET /:id` of projects (no authentication, no schema attached). -/
def projectGetById (id : String) (s : Store) : Reply :=
  if !isValidObjectId id then ⟨400, .message "Invalid Project ID format."⟩
  else
    match findById s.projects (castObjectId id) with
    | none => ⟨404, .message "Project not found."⟩
    | some project => ⟨200, .project project⟩

/-- Route `GET /:id` of forums, with the schema `getForumByIdSchema`. -/
def forumGetById (id : String) (s : Store) : Reply :=
  if !objectIdSchema id then schemaRejected
  else if !isValidObjectId id then ⟨400, .message "Invalid Forum ID format."⟩
  else
    match findById s.forums (castObjectId id) with
    | none => ⟨404, .message "Forum not found."⟩
    | some forum => ⟨200, .forum forum⟩

/-! ## Auth routes (`src/routes/auth.js`, `src/models/User.js`)

Register and login declare a schema of `src/schemas/authSchemas.js`.  The
bcrypt digest of a password depends on a random salt: what `bcrypt.hash`
returns after the version and cost prefix is an input of the register route,
and `bcrypt.compare` and the token signer are parameters of the login route. -/

/-- Body of a register request. -/
structure RegisterBody where
  username : Option String
  email : Option String
  password : Option String
  deriving DecidableEq, Repr

/-- Body of a login request. -/
structure LoginBody where
  username : Option String
  password : Option String
  deriving DecidableEq, Repr

/-- The setters of the `username` and `email` paths (`lowercase: true`,
`trim: true`).  Mongoose runs them on a value that is stored and on a value
that is used in a query filter. -/
def lowerTrim [JsRuntime] (x : String) : String :=
  jsTrim (jsToLowerCase x)

/-- The pieces of a character list between occurrences of a separator. -/
def splitChars (sep : Char) : List Char → List (List Char)
  | [] => [[]]
  | c :: rest =>
    if c == sep then [] :: splitChars sep rest
    else
      match splitChars sep rest with
      | [] => [[c]]
      | piece :: pieces => (c :: piece) :: pieces

/-- Letter or digit, in ASCII. -/
def isAlphaNum (c : Char) : Bool :=
  (48 ≤ c.toNat && c.toNat ≤ 57) || (97 ≤ c.toNat && c.toNat ≤ 122) ||
    (65 ≤ c.toNat && c.toNat ≤ 90)

/-- A character allowed in the local part of an address by the `email` format. -/
def isAtext (c : Char) : Bool :=
  isAlphaNum c || [33, 35, 36, 37, 38, 39, 42, 43, 47, 61, 63, 94, 95, 96, 123, 124, 125,
    126, 45].contains c.toNat

/-- A label of the domain of an address: letters, digits and hyphens, with a
letter or digit at both ends. -/
def isDomainLabel (l : List Char) : Bool :=
  match l with
  | [] => false
  | c :: rest =>
    isAlphaNum c && (c :: rest).all (fun d => isAlphaNum d || d.toNat == 45) &&
      isAlphaNum ((c :: rest).getLast (List.cons_ne_nil c rest))

/-- The `email` format of the request validator: dot-separated atoms, an at
sign, at least two dot-separated labels. -/
def formatEmail (e : String) : Bool :=
  match splitChars (Char.ofNat 64) e.data with
  | [name, domain] =>
    (splitChars (Char.ofNat 46) name).all (fun a => !a.isEmpty && a.all isAtext) &&
      decide (2 ≤ (splitChars (Char.ofNat 46) domain).length) &&
      (splitChars (Char.ofNat 46) domain).all isDomainLabel
  | _ => false

/-- The body part of `registerSchema`: the three properties are required,
`username` has length at least 3, `email` has the email format, `password` has
length at least 6. -/
def registerSchema (body : RegisterBody) : Bool :=
  match body.username, body.email, body.password with
  | some u, some e, some p => decide (3 ≤ u.length) && formatEmail e && decide (6 ≤ p.length)
  | _, _, _ => false

/-- The body part of `loginSchema`: `username` and `password` are required. -/
def loginSchema (body : LoginBody) : Bool :=
  body.username.isSome && body.password.isSome

/-- A character the dot of a regular expression does not match: a line
terminator. -/
def isLineTerminator (c : Char) : Bool :=
  c.toNat == 10 || c.toNat == 13 || c.toNat == 8232 || c.toNat == 8233

/-- Matches `.*\..+` at the start of the list. -/
def matchDotTail : List Char → Bool
  | [] => false
  | c :: rest =>
    (c.toNat == 46 &&
      (match rest with
        | d :: _ => !isLineTerminator d
        | [] => false)) ||
    (!isLineTerminator c && matchDotTail rest)

/-- Matches `.+\..+` at the start of the list. -/
def matchAfterAt : List Char → Bool
  | [] => false
  | c :: rest => !isLineTerminator c && matchDotTail rest

/-- The `match` validator of the `email` path, the unanchored regular
expression `.+@.+\..+`: some character, an at sign, some characters, a dot,
some character. -/
def matchEmail : List Char → Bool
  | [] => false
  | c :: rest =>
    (!isLineTerminator c &&
      (match rest with
        | d :: after => d.toNat == 64 && matchAfterAt after
        | [] => false)) ||
    matchEmail rest

/-- Validation of a new user by `save()`: the three paths are required, and a
non-empty `email` must pass the `match` validator. -/
def validateNewUser [JsRuntime] (body : RegisterBody) : Bool :=
  requiredString (body.username.map lowerTrim) && requiredString (body.email.map lowerTrim) &&
    matchEmail (lowerTrim (body.email.getD "")).data && requiredString body.password

/-- What `bcrypt.hash` returns with a salt of `bcrypt.genSalt(10)`: the version
and cost prefix, then the salt and the hash proper. -/
def bcryptHash (saltAndHash : String) : String :=
  "$2b$10$" ++ saltAndHash

/-- The document `new User({ username, email, password })` as `save()` stores
it: the setters have run and the `pre('save')` hook has replaced the password
by its digest. -/
def newUser [JsRuntime] (now : Nat) (newId : ObjectId) (saltAndHash : String)
    (body : RegisterBody) : User :=
  { _id := newId
    username := lowerTrim (body.username.getD "")
    email := lowerTrim (body.email.getD "")
    password := bcryptHash saltAndHash
    createdAt := now
    updatedAt := now }

/-- The query `User.findOne({ $or: [{ email }, { username }] })`; the filter
values go through the setters of their paths. -/
def findOneByEmailOrUsername [JsRuntime] (users : List User) (email username : String) :
    Option User :=
  users.find? (fun x => x.email == lowerTrim email || x.username == lowerTrim username)

/-- The query `User.findOne({ username })`; the filter value goes through the
setters of the path. -/
def findOneByUsername [JsRuntime] (users : List User) (username : String) : Option User :=
  users.find? (fun x => x.username == lowerTrim username)

/-- The insert behind `save()` of a new user: the unique indexes on `_id`,
`username` and `email` reject a duplicate (none: duplicate key error, code
11000). -/
def insertUser (users : List User) (doc : User) : Option (List User) :=
  if users.any (fun x => x._id == doc._id || x.username == doc.username || x.email == doc.email)
  then none
  else some (users ++ [doc])

/-- The part of `POST /register` after the existence check: `new User(...)`,
`save()` and the reply.  The `catch` of the route answers a ValidationError
with 400 and any other error, a duplicate key error included, with 500. -/
def registerSave [JsRuntime] (now : Nat) (newId : ObjectId) (saltAndHash : String)
    (body : RegisterBody) (s : Store) : Reply × Store :=
  if !validateNewUser body then (⟨400, .validationError "Validation Error"⟩, s)
  else
    match insertUser s.users (newUser now newId saltAndHash body) with
    | none => (⟨500, .message "Error registering user"⟩, s)
    | some users =>
      (⟨201, .registered "User registered successfully." newId⟩, { s with users := users })

/-- Route `POST /register`. -/
def register [JsRuntime] (now : Nat) (newId : ObjectId) (saltAndHash : String)
    (body : RegisterBody) (s : Store) : Reply × Store :=
  if !registerSchema body then (schemaRejected, s)
  else
    match findOneByEmailOrUsername s.users (body.email.getD "") (body.username.getD "") with
    | some _ => (⟨409, .message "Username or Email already exists."⟩, s)
    | none => registerSave now newId saltAndHash body s

/-- Route `POST /login`.  `compare` is `bcrypt.compare`, `sign` is the token
signer applied to the claims `id` and `username`.  The method `comparePassword`
reads the user again by id with the password selected and throws, which the
route answers with 500, when there is no user or no password. -/
def login [JsRuntime] (compare : String → String → Bool)
    (sign : ObjectId → String → String) (body : LoginBody) (s : Store) : Reply :=
  if !loginSchema body then schemaRejected
  else
    match findOneByUsername s.users (jsToLowerCase (body.username.getD "")) with
    | none => ⟨401, .message "Invalid credentials."⟩
    | some user =>
      match findById s.users user._id with
      | none => ⟨500, .message "Error logging in"⟩
      | some withPassword =>
        if withPassword.password.data.isEmpty then ⟨500, .message "Error logging in"⟩
        else if !compare (body.password.getD "") withPassword.password then
          ⟨401, .message "Invalid credentials."⟩
        else ⟨200, .token (sign user._id user.username)⟩

/-- The default projection of a user query. -/
def User.view (u : User) : UserView :=
  { _id := u._id, username := u.username, email := u.email, createdAt := u.createdAt,
    updatedAt := u.updatedAt }

/-- Route `GET /me`. -/
def getMe (auth : Option ObjectId) (s : Store) : Reply :=
  match auth with
  | none => unauthenticated
  | some userId =>
    match findById s.users userId with
    | none => ⟨404, .message "User not found."⟩
    | some user => ⟨200, .user user.view⟩

/-! ## Tags and search routes (`src/routes/searchTags.js`)

Which documents a `$text` query matches and what `textScore` they get is
decided by the text index of the store; both are parameters of the search
route. -/

/-- The UTF-16 code units of a character. -/
def utf16Units (c : Char) : List Nat :=
  if c.toNat < 65536 then [c.toNat]
  else [55296 + (c.toNat - 65536) / 1024, 56320 + (c.toNat - 65536) % 1024]

/-- The UTF-16 code units of a string. -/
def codeUnits (x : String) : List Nat :=
  x.data.flatMap utf16Units

/-- Lexicographic order on sequences of code units. -/
def unitsLe : List Nat → List Nat → Bool
  | [], _ => true
  | _ :: _, [] => false
  | a :: as, b :: bs => decide (a < b) || (a == b && unitsLe as bs)

/-- The order of `Array.prototype.sort` without a comparator on strings: by
UTF-16 code units. -/
def jsStringLe (a b : String) : Bool :=
  unitsLe (codeUnits a) (codeUnits b)

/-- The call `tags.sort()`. -/
def jsSort (xs : List String) : List String :=
  xs.insertionSort (fun a b => jsStringLe a b = true)

/-- The query `Project.distinct('tags')`: the distinct elements of the `tags`
arrays of all projects. -/
def distinctTags (projects : List Project) : List String :=
  (projects.flatMap (fun p => p.tags)).dedup

/-- Route `GET /tags`. -/
def listTags (s : Store) : Reply :=
  ⟨200, .tags (jsSort (distinctTags s.projects))⟩

/-- Route `GET /search`.  The matching documents are sorted by `textScore`,
highest first.  A negative skip makes the queries fail, which the route
answers with 500; the driver reads a negative limit as its absolute value. -/
def search (projectMatch : String → Project → Bool) (projectScore : String → Project → Nat)
    (forumMatch : String → Forum → Bool) (forumScore : String → Forum → Nat)
    (query : Option String) (page limit : Option Int) (s : Store) : Reply :=
  if !truthy query then ⟨400, .message "Search query parameter is required."⟩
  else if (orDefault page 1 - 1) * orDefault limit 10 < 0 then
    ⟨500, .message "Error performing search"⟩
  else
    ⟨200, .search (query.getD "")
      ((((s.projects.filter (projectMatch (query.getD ""))).insertionSort
        (fun a b => projectScore (query.getD "") b ≤ projectScore (query.getD "") a)).drop
          ((orDefault page 1 - 1) * orDefault limit 10).toNat).take (orDefault limit 10).natAbs)
      (s.projects.filter (projectMatch (query.getD ""))).length
      ((((s.forums.filter (forumMatch (query.getD ""))).insertionSort
        (fun a b => forumScore (query.getD "") b ≤ forumScore (query.getD "") a)).drop
          ((orDefault page 1 - 1) * orDefault limit 10).toNat).take (orDefault limit 10).natAbs)
      (s.forums.filter (forumMatch (query.getD ""))).length
      (orDefault page 1) (orDefault limit 10)
      ((s.projects.filter (projectMatch (query.getD ""))).length +
        (s.forums.filter (forumMatch (query.getD ""))).length)⟩

/-! ## The two store operations of a like request

A like request awaits two store operations, `findById` and then
`findByIdAndUpdate`; other requests may be served between the two.  The first
yields the choice between `$pull` and `$addToSet`, the second applies it. -/

/-- First part of `POST /:id/like` of projects, up to the choice of the update
operator: the reply sent when the route stops there, or whether the user is in
the likes that were read. -/
def projectLikeRead (auth : Option ObjectId) (id : String) (s : Store) : Except Reply Bool :=
  match auth with
  | none => .error unauthenticated
  | some userId =>
    if !isValidObjectId id then .error ⟨400, .message "Invalid Project ID format."⟩
    else
      match findById s.projects (castObjectId id) with
      | none => .error ⟨404, .message "Project not found."⟩
      | some project => .ok (project.likes.any (fun like => like == userId))

/-- Second part of `POST /:id/like` of projects: the update with the operator
chosen from what was read, and the reply. -/
def projectLikeWrite (now : Nat) (userId : ObjectId) (id : String) (isLiked : Bool)
    (s : Store) : Reply × Store :=
  if isLiked then
    match findByIdAndUpdate s.projects (castObjectId id)
        (fun p => { p with likes := pull p.likes userId, updatedAt := now }) with
    | (some updatedProject, projects) =>
      (⟨200, .like "Project unliked" (populateLikes s.users updatedProject.likes).length⟩,
        { s with projects := projects })
    | (none, projects) =>
      (⟨500, .message "Error liking project"⟩, { s with projects := projects })
  else
    match findByIdAndUpdate s.projects (castObjectId id)
        (fun p => { p with likes := addToSet p.likes userId, updatedAt := now }) with
    | (some updatedProject, projects) =>
      (⟨200, .like "Project liked" (populateLikes s.users updatedProject.likes).length⟩,
        { s with projects := projects })
    | (none, projects) =>
      (⟨500, .message "Error liking project"⟩, { s with projects := projects })

/-- First part of `POST /:id/like` of forums, after the schema and the
authentication. -/
def forumLikeRead (auth : Option ObjectId) (id : String) (s : Store) : Except Reply Bool :=
  if !forumIdSchema id then .error schemaRejected
  else
    match auth with
    | none => .error unauthenticated
    | some userId =>
      if !isValidObjectId id then .error ⟨400, .message "Invalid Forum ID format."⟩
      else
        match findById s.forums (castObjectId id) with
        | none => .error ⟨404, .message "Forum not found."⟩
        | some forum => .ok (forum.likes.any (fun like => like == userId))

/-- Second part of `POST /:id/like` of forums. -/
def forumLikeWrite (now : Nat) (userId : ObjectId) (id : String) (isLiked : Bool)
    (s : Store) : Reply × Store :=
  if isLiked then
    match findByIdAndUpdate s.forums (castObjectId id)
        (fun f => { f with likes := pull f.likes userId, updatedAt := now }) with
    | (some updatedForum, forums) =>
      (⟨200, .like "Forum unliked successfully." updatedForum.likes.length⟩,
        { s with forums := forums })
    | (none, forums) =>
      (⟨500, .message "Error processing like for forum"⟩, { s with forums := forums })
  else
    match findByIdAndUpdate s.forums (castObjectId id)
        (fun f => { f with likes := addToSet f.likes userId, updatedAt := now }) with
    | (some updatedForum, forums) =>
      (⟨200, .like "Forum liked successfully." updatedForum.likes.length⟩,
        { s with forums := forums })
    | (none, forums) =>
      (⟨500, .message "Error processing like for forum"⟩, { s with forums := forums })

/-- A store operation of one of several like requests in flight on the project
(forum) `id`: the read of the request of `userId`, or its write with the choice
that its read made. -/
inductive LikeEvent where
  | read (userId : ObjectId)
  | write (now : Nat) (userId : ObjectId)
  deriving DecidableEq, Repr

/-- The store, and for each request that has read and not yet written the
choice it made. -/
structure LikeRun where
  store : Store
  pending : List (ObjectId × Bool)
  deriving DecidableEq, Repr

/-- One store operation of the like requests in flight on the project `id`.  A
read that ends the request (404) and a write without a read leave the run as it
is. -/
def projectLikeStep (id : String) (run : LikeRun) (event : LikeEvent) : LikeRun :=
  match event with
  | .read userId =>
    match projectLikeRead (some userId) id run.store with
    | .ok isLiked => { run with pending := (userId, isLiked) :: run.pending }
    | .error _ => run
  | .write now userId =>
    match run.pending.lookup userId with
    | some isLiked =>
      { store := (projectLikeWrite now userId id isLiked run.store).2,
        pending := run.pending.filter (fun e => !(e.1 == userId)) }
    | none => run

/-- One store operation of the like requests in flight on the forum `id`. -/
def forumLikeStep (id : String) (run : LikeRun) (event : LikeEvent) : LikeRun :=
  match event with
  | .read userId =>
    match forumLikeRead (some userId) id run.store with
    | .ok isLiked => { run with pending := (userId, isLiked) :: run.pending }
    | .error _ => run
  | .write now userId =>
    match run.pending.lookup userId with
    | some isLiked =>
      { store := (forumLikeWrite now userId id isLiked run.store).2,
        pending := run.pending.filter (fun e => !(e.1 == userId)) }
    | none => run

/-- The user whose request the event belongs to. -/
def LikeEvent.userId : LikeEvent → ObjectId
  | .read userId => userId
  | .write _ userId => userId

/-- Whether the event is the write of its request. -/
def LikeEvent.isWrite : LikeEvent → Bool
  | .read _ => false
  | .write _ _ => true

/-- The store operations of the requests of `userId` among the events, in
order: false for a read, true for a write. -/
def operationsOf (userId : ObjectId) (events : List LikeEvent) : List Bool :=
  (events.filter (fun e => e.userId == userId)).map LikeEvent.isWrite

/-- The events are an interleaving of one like request by each of the users,
who are distinct: of each user there is one read and, later, one write, and
there is no event of anyone else. -/
def isInterleaving (users : List ObjectId) (events : List LikeEvent) : Bool :=
  decide users.Nodup && users.all (fun u => operationsOf u events == [false, true]) &&
    events.all (fun e => users.contains e.userId)

/-! ## Requests and reachable stores -/

/-- The mutating requests: those on projects, forums and comments, and
registration.  The remaining routes only read. -/
inductive Request where
  | projectCreate (auth : Option ObjectId) (body : ProjectBody)
  | projectUpdate (auth : Option ObjectId) (id : String) (body : ProjectBody)
  | projectDelete (auth : Option ObjectId) (id : String)
  | projectLike (auth : Option ObjectId) (id : String)
  | forumCreate (auth : Option ObjectId) (body : ForumBody)
  | forumUpdate (auth : Option ObjectId) (id : String) (body : ForumBody)
  | forumDelete (auth : Option ObjectId) (id : String)
  | forumLike (auth : Option ObjectId) (id : String)
  | commentCreate (auth : Option ObjectId) (body : CommentBody)
  | commentUpdate (auth : Option ObjectId) (id : String) (body : CommentUpdateBody)
  | commentDelete (auth : Option ObjectId) (id : String)
  | register (saltAndHash : String) (body : RegisterBody)
  deriving DecidableEq, Repr

/-- One request served at clock reading `now`, with `newId` the id generated
for a document the request may create. -/
def handle [JsRuntime] (now : Nat) (newId : ObjectId) (req : Request) (s : Store) :
    Reply × Store :=
  match req with
  | .projectCreate auth body => projectCreate now newId auth body s
  | .projectUpdate auth id body => projectUpdate now auth id body s
  | .projectDelete auth id => projectDelete auth id s
  | .projectLike auth id => projectLike now auth id s
  | .forumCreate auth body => forumCreate now newId auth body s
  | .forumUpdate auth id body => forumUpdate now auth id body s
  | .forumDelete auth id => forumDelete auth id s
  | .forumLike auth id => forumLike now auth id s
  | .commentCreate auth body => commentCreate now newId auth body s
  | .commentUpdate auth id body => commentUpdate now auth id body s
  | .commentDelete auth id => commentDelete auth id s
  | .register saltAndHash body => register now newId saltAndHash body s

/-- The stores reachable from the empty store by serving requests one after the
other. -/
inductive Reachable [JsRuntime] : Store → Prop where
  | init : Reachable Store.empty
  | step (now : Nat) (newId : ObjectId) (req : Request) (s : Store) :
      Reachable s → Reachable (handle now newId req s).2

/-! ## Sample data -/

/-- A stand-in for `String.prototype.toLowerCase` in examples: it converts the
letters A to Z and leaves every other character as it is. -/
def asciiToLowerCase (s : String) : String :=
  String.mk (s.data.map Char.toLower)

/-- The runtime of the examples. -/
instance sampleRuntime : JsRuntime :=
  ⟨asciiToLowerCase⟩

/-- User ids of the samples: alice is 1, bob is 2. -/
def alice : ObjectId := 1

/-- The second sample user. -/
def bob : ObjectId := 2

/-- A stored project of alice, with id `0000000000000000000000a1`. -/
def sampleProject : Project :=
  { _id := 161, title := "Foo Bar", description := "a longer description here", tags := [],
    repoUrl := none, liveUrl := none, owner := alice, likes := [], createdAt := 5,
    updatedAt := 5 }

/-- A stored forum of alice, with id `0000000000000000000000b2`. -/
def sampleForum : Forum :=
  { _id := 178, title := "General", description := "talk about anything", owner := alice,
    likes := [], createdAt := 6, updatedAt := 6 }

/-- A stored comment of alice on the sample project, with id
`0000000000000000000000c3`. -/
def sampleComment : Comment :=
  { _id := 195, content := "nice", author := alice, project := some 161, forum := none,
    createdAt := 7, updatedAt := 7 }

/-- A store holding the three samples. -/
def sampleStore : Store :=
  { users := [], projects := [sampleProject], forums := [sampleForum],
    comments := [sampleComment] }

/-- A project body that sets nothing. -/
def emptyProjectBody : ProjectBody :=
  { title := none, description := none, tags := none, repoUrl := none, liveUrl := none,
    owner := none, likes := none,
    _id := none, createdAt := none, updatedAt := none }

/-- A forum body that sets nothing. -/
def emptyForumBody : ForumBody :=
  { title := none, description := none, owner := none, likes := none,
    _id := none, createdAt := none, updatedAt := none }

/-- A forum body that renames the forum. -/
def renameForumBody : ForumBody :=
  { title := some "Renamed forum", description := none, owner := none, likes := none,
    _id := none, createdAt := none, updatedAt := none }

/-- A project body that renames the project and tries to take it over. -/
def renameProjectBody : ProjectBody :=
  { title := some " Renamed ", description := none, tags := none, repoUrl := none,
    liveUrl := none, owner := some "0000000000000000000000ff", likes := some ["x"],
    _id := none, createdAt := none, updatedAt := none }

/-- The body that creates the sample project; it also carries an `owner` and
`likes` of its own. -/
def fooProjectBody : ProjectBody :=
  { title := some "Foo Bar", description := some "a longer description here", tags := none,
    repoUrl := none, liveUrl := none, owner := some "0000000000000000000000ff",
    likes := some ["0000000000000000000000ff"],
    _id := none, createdAt := none, updatedAt := none }

/-- The body that creates the sample forum; it also carries an `owner` and
`likes` of its own. -/
def generalForumBody : ForumBody :=
  { title := some "General", description := some "talk about anything",
    owner := some "0000000000000000000000ff", likes := some ["0000000000000000000000ff"],
    _id := none, createdAt := none, updatedAt := none }

/-- The body that creates the sample comment. -/
def niceCommentBody : CommentBody :=
  { content := some "nice", projectId := some "0000000000000000000000a1", forumId := none }

/-- A project body that names another owner and a like and carries an `_id`,
`0000000000000000000000e5`, and a `createdAt`, the time 3. -/
def stampedProjectBody : ProjectBody :=
  { title := some "Stamped", description := some "a project with an id of its own",
    tags := none, repoUrl := none, liveUrl := none,
    owner := some "0000000000000000000000ff", likes := some ["0000000000000000000000ff"],
    _id := some "0000000000000000000000e5", createdAt := some (.date 3), updatedAt := none }

/-- A project body that carries the `_id` of the sample project. -/
def collidingProjectBody : ProjectBody :=
  { title := some "Second", description := some "a project with a taken id",
    tags := none, repoUrl := none, liveUrl := none, owner := none, likes := none,
    _id := some "0000000000000000000000a1", createdAt := none, updatedAt := none }

/-- A project body that carries only `owner` and `likes`. -/
def ownerOnlyProjectBody : ProjectBody :=
  { title := none, description := none, tags := none, repoUrl := none, liveUrl := none,
    owner := some "0000000000000000000000ff", likes := some ["0000000000000000000000ff"],
    _id := none, createdAt := none, updatedAt := none }

/-- A forum body that carries only `owner`. -/
def ownerOnlyForumBody : ForumBody :=
  { title := none, description := none, owner := some "0000000000000000000000ff",
    likes := none,
    _id := none, createdAt := none, updatedAt := none }

/-- The register body of carol. -/
def carolBody : RegisterBody :=
  { username := some " Carol ", email := some "Carol@Example.com", password := some "secret1" }

/-- The store after carol registered, at time 3 with id 300. -/
def carolStore : Store :=
  (register 3 300 "saltsaltsaltsaltsalthashhashhashhash" carolBody Store.empty).2

/-- A stand-in for `bcrypt.compare` in examples: true for the password of carol
and the digest stored for her, false otherwise. -/
def sampleCompare (candidate digest : String) : Bool :=
  candidate == "secret1" && digest == bcryptHash "saltsaltsaltsaltsalthashhashhashhash"

/-- A stand-in for the token signer in examples: the id in unary, a colon, the
username. -/
def sampleSign (id : ObjectId) (username : String) : String :=
  String.mk (List.replicate id (Char.ofNat 49) ++ Char.ofNat 58 :: username.data)

/-- The verifier that goes with `sampleSign`. -/
def sampleVerify (token : String) : Option (ObjectId × String) :=
  match token.data.dropWhile (fun c => c == Char.ofNat 49) with
  | [] => none
  | _ :: name => some ((token.data.takeWhile (fun c => c == Char.ofNat 49)).length, String.mk name)

/-- A store with 25 projects of alice, created at times 0 to 24. -/
def manyProjectsStore : Store :=
  { users := [],
    projects := (List.range 25).map (fun i =>
      { _id := 1000 + i, title := "Project", description := "one of many", tags := [],
        repoUrl := none, liveUrl := none, owner := alice, likes := [], createdAt := i,
        updatedAt := i }),
    forums := (List.range 25).map (fun i =>
      { _id := 2000 + i, title := "Forum", description := "one of many", owner := alice,
        likes := [], createdAt := i, updatedAt := i }),
    comments := [] }

/-! ## Store invariants -/

/-- A comment has exactly one parent: one of `project` and `forum` is set and the
other is not. -/
def exactlyOneParent (c : Comment) : Prop :=
  (c.project.isSome = true ∧ c.forum = none) ∨ (c.project = none ∧ c.forum.isSome = true)

/-- No two documents of a collection share an `_id`. -/
def uniqueIds {α : Type} [Document α] (xs : List α) : Prop :=
  (xs.map Document.oid).Nodup

/-- What every reachable store satisfies: ids are unique within a collection, no
like array holds a user twice, every comment has exactly one parent. -/
structure WellFormed (s : Store) : Prop where
  projectIds : uniqueIds s.projects
  forumIds : uniqueIds s.forums
  commentIds : uniqueIds s.comments
  projectLikes : ∀ p ∈ s.projects, p.likes.Nodup
  forumLikes : ∀ f ∈ s.forums, f.likes.Nodup
  commentParent : ∀ c ∈ s.comments, exactlyOneParent c

/-- The store with every stored password digest replaced by the empty string. -/
def erasePasswords (s : Store) : Store :=
  { s with users := s.users.map (fun u => { u with password := "" }) }

/-- What every reachable store satisfies about its users: ids are unique,
usernames and emails are in the form the setters leave them in, and a
password digest is never empty. -/
structure UsersWellFormed [JsRuntime] (s : Store) : Prop where
  userIds : uniqueIds s.users
  usernames : ∀ u ∈ s.users, u.username = lowerTrim u.username
  emails : ∀ u ∈ s.users, u.email = lowerTrim u.email
  passwords : ∀ u ∈ s.users, u.password.data ≠ []

/-- What the theorems on stored names and tags assume of `toLowerCase`: its
result is in lower case, that is, converting it again changes nothing, and
this is still so after the result is trimmed. -/
def LowerCaseLaws [JsRuntime] : Prop :=
  (∀ x : String, jsToLowerCase (jsToLowerCase x) = jsToLowerCase x) ∧
  (∀ x : String, jsToLowerCase (jsTrim (jsToLowerCase x)) = jsTrim (jsToLowerCase x))

/-- Every stored comment has content. -/
def CommentsHaveContent (s : Store) : Prop :=
  ∀ c ∈ s.comments, c.content.data ≠ []

/-- Every stored tag is in lower case: the `lowercase` setter leaves it as it
is. -/
def TagsLowerCase [JsRuntime] (s : Store) : Prop :=
  ∀ p ∈ s.projects, ∀ t ∈ p.tags, jsToLowerCase t = t

/-! ## The ownership policy in the words of the specification -/

/-- The predicate `isOwner(resource, subjectId)` of the specification: the
owner (the author for a comment) of the resource is the subject. -/
def isOwner (ownerOrAuthor subjectId : ObjectId) : Bool :=
  ownerOrAuthor == subjectId

/-- The decisions of the ownership policy. -/
inductive OwnershipDecision (α : Type) where
  | notFound
  | forbidden
  | granted (resource : α)
  deriving DecidableEq, Repr

/-- The ownership policy of the specification on the outcome of the lookup of
a resource. -/
def ownershipPolicy {α : Type} (resource : Option α) (ownerOf : α → ObjectId)
    (subjectId : ObjectId) : OwnershipDecision α :=
  match resource with
  | none => .notFound
  | some r => if isOwner (ownerOf r) subjectId then .granted r else .forbidden

/-- The decision that the outcome of an ownership helper stands for: the
resource, or the status of the reply it sent (none for any other status). -/
def decisionOf {α : Type} (outcome : Except Reply α) : Option (OwnershipDecision α) :=
  match outcome with
  | .ok r => some (.granted r)
  | .error reply =>
    if reply.status = 404 then some .notFound
    else if reply.status = 403 then some .forbidden
    else none

/-! ## A store with more than a hundred projects -/

/-- A store with 101 projects and 101 forums of alice, created at times 0 to
100. -/
def bigStore : Store :=
  { users := [],
    projects := (List.range 101).map (fun i =>
      { _id := 1000 + i, title := "Project", description := "one of many", tags := [],
        repoUrl := none, liveUrl := none, owner := alice, likes := [], createdAt := i,
        updatedAt := i }),
    forums := (List.range 101).map (fun i =>
      { _id := 2000 + i, title := "Forum", description := "one of many", owner := alice,
        likes := [], createdAt := i, updatedAt := i }),
    comments := [] }

/-- A project body with two tags, one with blanks around it and one in upper
case. -/
def taggedProjectBody : ProjectBody :=
  { title := some "Tagged", description := some "a project with tags",
    tags := some [" Web ", "API"], repoUrl := none, liveUrl := none, owner := none,
    likes := none,
    _id := none, createdAt := none, updatedAt := none }

/-- A project body with two tags, one of them a tag of the first body in
another case. -/
def secondTaggedProjectBody : ProjectBody :=
  { title := some "Other", description := some "another project with tags",
    tags := some ["api", "CLI"], repoUrl := none, liveUrl := none, owner := none,
    likes := none,
    _id := none, createdAt := none, updatedAt := none }

/-- The store after alice and bob each created a project with tags. -/
def taggedStore : Store :=
  (handle 9 163 (.projectCreate (some bob) secondTaggedProjectBody)
    (handle 8 162 (.projectCreate (some alice) taggedProjectBody) Store.empty).2).2

/-- A stand-in for the text index: a project matches when its title is the
query. -/
def sampleProjectMatch (query : String) (p : Project) : Bool :=
  p.title == query

/-- A stand-in for the text score of a project. -/
def sampleProjectScore (_query : String) (p : Project) : Nat :=
  p.createdAt

/-- A stand-in for the text index: a forum matches when its title is the
query. -/
def sampleForumMatch (query : String) (f : Forum) : Bool :=
  f.title == query

/-- A stand-in for the text score of a forum. -/
def sampleForumScore (_query : String) (f : Forum) : Nat :=
  f.createdAt

/-- A forum body whose title has two characters. -/
def shortTitleForumBody : ForumBody :=
  { title := some "ab", description := some "long enough text", owner := none, likes := none,
    _id := none, createdAt := none, updatedAt := none }

/-- The sample store after bob liked the sample project, at time 10. -/
def likedStore : Store :=
  (handle 10 0 (.projectLike (some bob) "0000000000000000000000a1") sampleStore).2

/-- The store after bob also liked the sample forum, at time 11. -/
def bothLikedStore : Store :=
  (handle 11 0 (.forumLike (some bob) "0000000000000000000000b2") likedStore).2

/-- A comment update body whose content is blank. -/
def blankCommentUpdateBody : CommentUpdateBody :=
  { content := some " " }

/-- An interleaving of the like requests of alice and bob: both read before
either writes, and bob writes first. -/
def sampleInterleaving : List LikeEvent :=
  [.read alice, .read bob, .write 10 bob, .write 11 alice]

/-! ## Theorems -/

/-! ### Storage lemmas -/

theorem findById_oid {α : Type} [Document α] {xs : List α} {id : ObjectId} {x : α}
    (h : findById xs id = some x) : Document.oid x = id := by
  induction xs with
  | nil => simp [findById] at h
  | cons y rest ih =>
    unfold findById at h
    by_cases hy : (Document.oid y == id) = true
    · simp [hy] at h
      subst h
      simpa using hy
    · simp [hy] at h
      exact ih h

theorem findById_mem {α : Type} [Document α] {xs : List α} {id : ObjectId} {x : α}
    (h : findById xs id = some x) : x ∈ xs := by
  induction xs with
  | nil => simp [findById] at h
  | cons y rest ih =>
    unfold findById at h
    by_cases hy : (Document.oid y == id) = true
    · simp [hy] at h
      simp [h]
    · simp [hy] at h
      exact List.mem_cons_of_mem _ (ih h)

theorem findByIdAndUpdate_of_none {α : Type} [Document α] {xs : List α} {id : ObjectId}
    (f : α → α) (h : findById xs id = none) : findByIdAndUpdate xs id f = (none, xs) := by
  induction xs with
  | nil => rfl
  | cons y rest ih =>
    unfold findById at h
    by_cases hy : (Document.oid y == id) = true
    · simp [hy] at h
    · simp [hy] at h
      unfold findByIdAndUpdate
      simp [hy, ih h]

theorem findByIdAndUpdate_fst {α : Type} [Document α] {xs : List α} {id : ObjectId} {x : α}
    (f : α → α) (h : findById xs id = some x) : (findByIdAndUpdate xs id f).1 = some (f x) := by
  induction xs with
  | nil => simp [findById] at h
  | cons y rest ih =>
    unfold findById at h
    unfold findByIdAndUpdate
    by_cases hy : (Document.oid y == id) = true
    · simp [hy] at h
      subst h
      simp [hy]
    · simp [hy] at h
      simp [hy, ih h]

theorem findById_update_same {α : Type} [Document α] {xs : List α} {id : ObjectId} {x : α}
    (f : α → α) (hf : ∀ y, Document.oid (f y) = Document.oid y)
    (h : findById xs id = some x) :
    findById (findByIdAndUpdate xs id f).2 id = some (f x) := by
  induction xs with
  | nil => simp [findById] at h
  | cons y rest ih =>
    unfold findById at h
    unfold findByIdAndUpdate
    by_cases hy : (Document.oid y == id) = true
    · simp [hy] at h
      subst h
      simp [hy, findById, hf]
    · simp [hy] at h
      simp [hy, findById, ih h]

theorem findById_update_other {α : Type} [Document α] (xs : List α) (id other : ObjectId)
    (f : α → α) (hf : ∀ y, Document.oid (f y) = Document.oid y) (hne : other ≠ id) :
    findById (findByIdAndUpdate xs id f).2 other = findById xs other := by
  induction xs with
  | nil => rfl
  | cons y rest ih =>
    unfold findByIdAndUpdate
    by_cases hy : (Document.oid y == id) = true
    · have hyo : ¬ (Document.oid y = other) := by
        intro h
        apply hne
        rw [← h]
        simpa using hy
      simp [hy, findById, hf, hyo]
    · simp [hy, findById, ih]

theorem findById_eq_none_iff {α : Type} [Document α] (xs : List α) (id : ObjectId) :
    findById xs id = none ↔ id ∉ xs.map Document.oid := by
  induction xs with
  | nil => simp [findById]
  | cons y rest ih =>
    unfold findById
    by_cases hy : (Document.oid y == id) = true
    · have : Document.oid y = id := by simpa using hy
      simp [hy, this]
    · have hne : ¬ (id = Document.oid y) := by
        intro h
        apply hy
        simp [h]
      simp [hy, ih, hne]

theorem map_oid_update {α : Type} [Document α] (xs : List α) (id : ObjectId) (f : α → α)
    (hf : ∀ y, Document.oid (f y) = Document.oid y) :
    (findByIdAndUpdate xs id f).2.map Document.oid = xs.map Document.oid := by
  induction xs with
  | nil => rfl
  | cons y rest ih =>
    unfold findByIdAndUpdate
    by_cases hy : (Document.oid y == id) = true
    · simp [hy, hf]
    · simp [hy, ih]

theorem mem_update {α : Type} [Document α] (xs : List α) (id : ObjectId) (f : α → α) (y : α)
    (h : y ∈ (findByIdAndUpdate xs id f).2) : y ∈ xs ∨ ∃ x ∈ xs, y = f x := by
  induction xs with
  | nil => simp [findByIdAndUpdate] at h
  | cons z rest ih =>
    unfold findByIdAndUpdate at h
    by_cases hz : (Document.oid z == id) = true
    · simp [hz] at h
      rcases h with h | h
      · exact Or.inr ⟨z, by simp, h⟩
      · exact Or.inl (by simp [h])
    · simp [hz] at h
      rcases h with h | h
      · exact Or.inl (by simp [h])
      · rcases ih h with h1 | ⟨x, hx, hxy⟩
        · exact Or.inl (by simp [h1])
        · exact Or.inr ⟨x, by simp [hx], hxy⟩

theorem delete_sublist {α : Type} [Document α] (xs : List α) (id : ObjectId) :
    (findByIdAndDelete xs id).Sublist xs := by
  induction xs with
  | nil => exact List.Sublist.slnil
  | cons y rest ih =>
    unfold findByIdAndDelete
    by_cases hy : (Document.oid y == id) = true
    · simp [hy]
    · simp [hy, ih]

theorem insertDoc_eq_some {α : Type} [Document α] {xs ys : List α} {d : α}
    (h : insertDoc xs d = some ys) : ys = xs ++ [d] ∧ findById xs (Document.oid d) = none := by
  unfold insertDoc at h
  cases hf : findById xs (Document.oid d) with
  | none =>
    simp [hf] at h
    exact ⟨h.symm, rfl⟩
  | some x => simp [hf] at h

theorem insertDoc_of_fresh {α : Type} [Document α] (xs : List α) (d : α)
    (h : findById xs (Document.oid d) = none) : insertDoc xs d = some (xs ++ [d]) := by
  simp [insertDoc, h]

theorem uniqueIds_insert {α : Type} [Document α] {xs ys : List α} {d : α}
    (hu : uniqueIds xs) (h : insertDoc xs d = some ys) : uniqueIds ys := by
  obtain ⟨hys, hfresh⟩ := insertDoc_eq_some h
  subst hys
  have hn := (findById_eq_none_iff xs (Document.oid d)).1 hfresh
  unfold uniqueIds at hu ⊢
  rw [List.map_append, List.nodup_append]
  refine ⟨hu, by simp, ?_⟩
  intro a ha hb
  simp at hb
  subst hb
  exact hn ha

theorem uniqueIds_update {α : Type} [Document α] {xs : List α} (id : ObjectId) (f : α → α)
    (hf : ∀ y, Document.oid (f y) = Document.oid y) (hu : uniqueIds xs) :
    uniqueIds (findByIdAndUpdate xs id f).2 := by
  unfold uniqueIds at hu ⊢
  rw [map_oid_update xs id f hf]
  exact hu

theorem uniqueIds_delete {α : Type} [Document α] {xs : List α} (id : ObjectId)
    (hu : uniqueIds xs) : uniqueIds (findByIdAndDelete xs id) := by
  unfold uniqueIds at hu ⊢
  exact List.Nodup.sublist ((delete_sublist xs id).map Document.oid) hu

theorem findById_delete_same {α : Type} [Document α] {xs : List α} (id : ObjectId)
    (hu : uniqueIds xs) : findById (findByIdAndDelete xs id) id = none := by
  induction xs with
  | nil => rfl
  | cons y rest ih =>
    unfold uniqueIds at hu
    simp only [List.map_cons, List.nodup_cons] at hu
    unfold findByIdAndDelete
    by_cases hy : (Document.oid y == id) = true
    · have hid : Document.oid y = id := by simpa using hy
      simp only [hy, if_true]
      rw [findById_eq_none_iff, ← hid]
      exact hu.1
    · simp [hy, findById, ih hu.2]

theorem pull_nodup {likes : List ObjectId} (userId : ObjectId) (h : likes.Nodup) :
    (pull likes userId).Nodup :=
  List.Nodup.filter _ h

theorem addToSet_nodup {likes : List ObjectId} (userId : ObjectId) (h : likes.Nodup) :
    (addToSet likes userId).Nodup := by
  unfold addToSet
  by_cases hm : likes.any (fun like => like == userId) = true
  · simp only [hm, if_true]
    exact h
  · simp only [hm]
    have hnot : userId ∉ likes := by
      intro hin
      apply hm
      simp [List.any_eq_true]
      exact hin
    simp only [Bool.false_eq_true, if_false]
    rw [List.nodup_append]
    refine ⟨h, by simp, ?_⟩
    intro a ha hb
    simp at hb
    subst hb
    exact hnot ha

theorem forall_update {α : Type} [Document α] (P : α → Prop) (xs : List α) (id : ObjectId)
    (f : α → α) (hP : ∀ x ∈ xs, P x) (hf : ∀ x, P x → P (f x)) :
    ∀ y ∈ (findByIdAndUpdate xs id f).2, P y := by
  intro y hy
  rcases mem_update xs id f y hy with h | ⟨x, hx, hxy⟩
  · exact hP y h
  · rw [hxy]
    exact hf x (hP x hx)

theorem forall_delete {α : Type} [Document α] (P : α → Prop) (xs : List α) (id : ObjectId)
    (hP : ∀ x ∈ xs, P x) : ∀ y ∈ findByIdAndDelete xs id, P y :=
  fun y hy => hP y ((delete_sublist xs id).subset hy)

theorem forall_insert {α : Type} [Document α] (P : α → Prop) {xs ys : List α} {d : α}
    (hP : ∀ x ∈ xs, P x) (hd : P d) (h : insertDoc xs d = some ys) : ∀ y ∈ ys, P y := by
  obtain ⟨hys, _⟩ := insertDoc_eq_some h
  subst hys
  intro y hy
  rcases List.mem_append.1 hy with h1 | h1
  · exact hP y h1
  · simp at h1
    rw [h1]
    exact hd

theorem findById_append_fresh {α : Type} [Document α] (xs : List α) (d : α)
    (h : findById xs (Document.oid d) = none) :
    findById (xs ++ [d]) (Document.oid d) = some d := by
  induction xs with
  | nil => simp [findById]
  | cons y rest ih =>
    unfold findById at h
    by_cases hy : (Document.oid y == Document.oid d) = true
    · simp [hy] at h
    · simp [hy] at h
      simp [findById, hy, ih h]

/-! ### Invariants of the reachable stores -/

theorem exactlyOneParent_iff (c : Comment) :
    exactlyOneParent c ↔ commentPreValidate c = true := by
  unfold exactlyOneParent commentPreValidate
  cases c.project <;> cases c.forum <;> simp

theorem wellFormed_empty : WellFormed Store.empty := by
  constructor <;> simp [Store.empty, uniqueIds]

theorem wellFormed_setProjects {s : Store} (h : WellFormed s) (ps : List Project)
    (hu : uniqueIds ps) (hl : ∀ p ∈ ps, p.likes.Nodup) :
    WellFormed { s with projects := ps } :=
  ⟨hu, h.forumIds, h.commentIds, hl, h.forumLikes, h.commentParent⟩

theorem wellFormed_setForums {s : Store} (h : WellFormed s) (fs : List Forum)
    (hu : uniqueIds fs) (hl : ∀ f ∈ fs, f.likes.Nodup) :
    WellFormed { s with forums := fs } :=
  ⟨h.projectIds, hu, h.commentIds, h.projectLikes, hl, h.commentParent⟩

theorem wellFormed_setComments {s : Store} (h : WellFormed s) (cs : List Comment)
    (hu : uniqueIds cs) (hp : ∀ c ∈ cs, exactlyOneParent c) :
    WellFormed { s with comments := cs } :=
  ⟨h.projectIds, h.forumIds, hu, h.projectLikes, h.forumLikes, hp⟩

theorem projectCreate_wellFormed [JsRuntime] (now : Nat) (newId : ObjectId) (auth : Option ObjectId)
    (body : ProjectBody) (s : Store) (h : WellFormed s) :
    WellFormed (projectCreate now newId auth body s).2 := by
  unfold projectCreate
  split
  · exact h
  · split
    · exact h
    · split
      · exact h
      · rename_i ps hins
        have hw := wellFormed_setProjects h ps (uniqueIds_insert h.projectIds hins)
          (forall_insert (fun p : Project => p.likes.Nodup) h.projectLikes
            (by simp [newProject]) hins)
        split <;> exact hw

theorem projectUpdate_wellFormed [JsRuntime] (now : Nat) (auth : Option ObjectId) (id : String)
    (body : ProjectBody) (s : Store) (h : WellFormed s) :
    WellFormed (projectUpdate now auth id body s).2 := by
  have hw := wellFormed_setProjects h
    (findByIdAndUpdate s.projects (castObjectId id) (applyProjectUpdates now body)).2
    (uniqueIds_update _ _ (fun _ => rfl) h.projectIds)
    (forall_update (fun p : Project => p.likes.Nodup) _ _ _ h.projectLikes (fun _ hx => hx))
  unfold projectUpdate
  split
  · exact h
  · split
    · exact h
    · split
      · exact h
      · split
        · exact h
        · split
          · rename_i heq
            rw [heq] at hw
            exact hw
          · rename_i heq
            rw [heq] at hw
            exact hw

theorem projectDelete_wellFormed (auth : Option ObjectId) (id : String) (s : Store)
    (h : WellFormed s) : WellFormed (projectDelete auth id s).2 := by
  unfold projectDelete
  split
  · exact h
  · split
    · exact h
    · split
      · exact h
      · exact wellFormed_setProjects h _ (uniqueIds_delete _ h.projectIds)
          (forall_delete _ _ _ h.projectLikes)

theorem projectLike_wellFormed (now : Nat) (auth : Option ObjectId) (id : String)
    (s : Store) (h : WellFormed s) : WellFormed (projectLike now auth id s).2 := by
  unfold projectLike
  split
  · exact h
  · rename_i userId
    have hw1 := wellFormed_setProjects h
      (findByIdAndUpdate s.projects (castObjectId id)
        (fun p => { p with likes := pull p.likes userId, updatedAt := now })).2
      (uniqueIds_update _ _ (fun _ => rfl) h.projectIds)
      (forall_update (fun p : Project => p.likes.Nodup) _ _ _ h.projectLikes
        (fun _ hx => pull_nodup userId hx))
    have hw2 := wellFormed_setProjects h
      (findByIdAndUpdate s.projects (castObjectId id)
        (fun p => { p with likes := addToSet p.likes userId, updatedAt := now })).2
      (uniqueIds_update _ _ (fun _ => rfl) h.projectIds)
      (forall_update (fun p : Project => p.likes.Nodup) _ _ _ h.projectLikes
        (fun _ hx => addToSet_nodup userId hx))
    split
    · exact h
    · split
      · exact h
      · split
        · split
          · rename_i heq
            rw [heq] at hw1
            exact hw1
          · rename_i heq
            rw [heq] at hw1
            exact hw1
        · split
          · rename_i heq
            rw [heq] at hw2
            exact hw2
          · rename_i heq
            rw [heq] at hw2
            exact hw2

theorem forumCreate_wellFormed (now : Nat) (newId : ObjectId) (auth : Option ObjectId)
    (body : ForumBody) (s : Store) (h : WellFormed s) :
    WellFormed (forumCreate now newId auth body s).2 := by
  unfold forumCreate
  split
  · exact h
  · split
    · exact h
    · split
      · exact h
      · split
        · exact h
        · rename_i fs hins
          have hw := wellFormed_setForums h fs (uniqueIds_insert h.forumIds hins)
            (forall_insert (fun f : Forum => f.likes.Nodup) h.forumLikes
              (by simp [newForum]) hins)
          split <;> exact hw

theorem forumUpdate_wellFormed (now : Nat) (auth : Option ObjectId) (id : String)
    (body : ForumBody) (s : Store) (h : WellFormed s) :
    WellFormed (forumUpdate now auth id body s).2 := by
  have hw := wellFormed_setForums h
    (findByIdAndUpdate s.forums (castObjectId id) (applyForumUpdates now body)).2
    (uniqueIds_update _ _ (fun _ => rfl) h.forumIds)
    (forall_update (fun f : Forum => f.likes.Nodup) _ _ _ h.forumLikes (fun _ hx => hx))
  unfold forumUpdate
  split
  · exact h
  · split
    · exact h
    · split
      · exact h
      · split
        · exact h
        · split
          · exact h
          · split
            · rename_i heq
              rw [heq] at hw
              exact hw
            · rename_i heq
              rw [heq] at hw
              exact hw

theorem forumDelete_wellFormed (auth : Option ObjectId) (id : String) (s : Store)
    (h : WellFormed s) : WellFormed (forumDelete auth id s).2 := by
  unfold forumDelete
  split
  · exact h
  · split
    · exact h
    · split
      · exact h
      · exact wellFormed_setForums h _ (uniqueIds_delete _ h.forumIds)
          (forall_delete _ _ _ h.forumLikes)

theorem forumLike_wellFormed (now : Nat) (auth : Option ObjectId) (id : String)
    (s : Store) (h : WellFormed s) : WellFormed (forumLike now auth id s).2 := by
  unfold forumLike
  split
  · exact h
  · split
    · exact h
    · rename_i userId
      have hw1 := wellFormed_setForums h
        (findByIdAndUpdate s.forums (castObjectId id)
          (fun f => { f with likes := pull f.likes userId, updatedAt := now })).2
        (uniqueIds_update _ _ (fun _ => rfl) h.forumIds)
        (forall_update (fun f : Forum => f.likes.Nodup) _ _ _ h.forumLikes
          (fun _ hx => pull_nodup userId hx))
      have hw2 := wellFormed_setForums h
        (findByIdAndUpdate s.forums (castObjectId id)
          (fun f => { f with likes := addToSet f.likes userId, updatedAt := now })).2
        (uniqueIds_update _ _ (fun _ => rfl) h.forumIds)
        (forall_update (fun f : Forum => f.likes.Nodup) _ _ _ h.forumLikes
          (fun _ hx => addToSet_nodup userId hx))
      split
      · exact h
      · split
        · exact h
        · split
          · split
            · rename_i heq
              rw [heq] at hw1
              exact hw1
            · rename_i heq
              rw [heq] at hw1
              exact hw1
          · split
            · rename_i heq
              rw [heq] at hw2
              exact hw2
            · rename_i heq
              rw [heq] at hw2
              exact hw2

theorem commentCreate_wellFormed (now : Nat) (newId : ObjectId) (auth : Option ObjectId)
    (body : CommentBody) (s : Store) (h : WellFormed s) :
    WellFormed (commentCreate now newId auth body s).2 := by
  unfold commentCreate
  split
  · exact h
  · split
    · exact h
    · split
      · exact h
      · split
        · exact h
        · split
          · exact h
          · split
            · exact h
            · rename_i hpre
              split
              · exact h
              · split
                · exact h
                · rename_i cs hins
                  have hone : exactlyOneParent (newComment now newId _ body) :=
                    (exactlyOneParent_iff _).2 (by simpa using hpre)
                  have hw := wellFormed_setComments h cs (uniqueIds_insert h.commentIds hins)
                    (forall_insert exactlyOneParent h.commentParent hone hins)
                  split <;> exact hw

theorem commentUpdate_wellFormed (now : Nat) (auth : Option ObjectId) (id : String)
    (body : CommentUpdateBody) (s : Store) (h : WellFormed s) :
    WellFormed (commentUpdate now auth id body s).2 := by
  unfold commentUpdate
  split
  · exact h
  · split
    · exact h
    · split
      · exact h
      · split
        · exact h
        · rename_i comment _
          have hw := wellFormed_setComments h
            (findByIdAndUpdate s.comments comment._id
              (fun c => { c with content := jsTrim (body.content.getD ""), updatedAt := now })).2
            (uniqueIds_update _ _ (fun _ => rfl) h.commentIds)
            (forall_update exactlyOneParent _ _ _ h.commentParent (fun _ hx => hx))
          split
          · exact h
          · split
            · split <;> exact h
            · split
              · exact h
              · split <;> exact hw

theorem commentDelete_wellFormed (auth : Option ObjectId) (id : String) (s : Store)
    (h : WellFormed s) : WellFormed (commentDelete auth id s).2 := by
  unfold commentDelete
  split
  · exact h
  · split
    · exact h
    · split
      · exact h
      · exact wellFormed_setComments h _ (uniqueIds_delete _ h.commentIds)
          (forall_delete _ _ _ h.commentParent)

theorem wellFormed_setUsers {s : Store} (h : WellFormed s) (us : List User) :
    WellFormed { s with users := us } :=
  ⟨h.projectIds, h.forumIds, h.commentIds, h.projectLikes, h.forumLikes, h.commentParent⟩

theorem register_wellFormed [JsRuntime] (now : Nat) (newId : ObjectId) (saltAndHash : String)
    (body : RegisterBody) (s : Store) (h : WellFormed s) :
    WellFormed (register now newId saltAndHash body s).2 := by
  unfold register
  split
  · exact h
  · split
    · exact h
    · unfold registerSave
      split
      · exact h
      · split
        · exact h
        · exact wellFormed_setUsers h _

theorem handle_wellFormed [JsRuntime] (now : Nat) (newId : ObjectId) (req : Request) (s : Store)
    (h : WellFormed s) : WellFormed (handle now newId req s).2 := by
  cases req with
  | projectCreate auth body => exact projectCreate_wellFormed now newId auth body s h
  | projectUpdate auth id body => exact projectUpdate_wellFormed now auth id body s h
  | projectDelete auth id => exact projectDelete_wellFormed auth id s h
  | projectLike auth id => exact projectLike_wellFormed now auth id s h
  | forumCreate auth body => exact forumCreate_wellFormed now newId auth body s h
  | forumUpdate auth id body => exact forumUpdate_wellFormed now auth id body s h
  | forumDelete auth id => exact forumDelete_wellFormed auth id s h
  | forumLike auth id => exact forumLike_wellFormed now auth id s h
  | commentCreate auth body => exact commentCreate_wellFormed now newId auth body s h
  | commentUpdate auth id body => exact commentUpdate_wellFormed now auth id body s h
  | commentDelete auth id => exact commentDelete_wellFormed auth id s h
  | register saltAndHash body => exact register_wellFormed now newId saltAndHash body s h

theorem reachable_wellFormed [JsRuntime] {s : Store} (h : Reachable s) : WellFormed s := by
  induction h with
  | init => exact wellFormed_empty
  | step now newId req s _ ih => exact handle_wellFormed now newId req s ih

/-! ### Ownership -/


/-- C1: for a stored project, forum or comment and an authenticated subject that
is not its owner (author), delete answers 403 and both update (with any body,
at any time) and delete leave the whole store as it was. -/
theorem nonOwner_delete_forbidden_and_store_kept [JsRuntime] (s : Store) (userId : ObjectId)
    (id : String) (now : Nat) :
    (∀ (p : Project) (body : ProjectBody), isValidObjectId id = true →
        findById s.projects (castObjectId id) = some p → p.owner ≠ userId →
        projectDelete (some userId) id s =
          (⟨403, .message "Forbidden: You are not the owner of this project."⟩, s) ∧
        (projectUpdate now (some userId) id body s).2 = s) ∧
    (∀ (f : Forum) (body : ForumBody), isValidObjectId id = true →
        findById s.forums (castObjectId id) = some f → f.owner ≠ userId →
        forumDelete (some userId) id s =
          (⟨403, .message "Forbidden: You are not the owner of this forum."⟩, s) ∧
        (forumUpdate now (some userId) id body s).2 = s) ∧
    (∀ (c : Comment) (body : CommentUpdateBody), isValidObjectId id = true →
        findById s.comments (castObjectId id) = some c → c.author ≠ userId →
        commentDelete (some userId) id s =
          (⟨403, .message "Forbidden: You are not the author of this comment."⟩, s) ∧
        (commentUpdate now (some userId) id body s).2 = s) := by
  refine ⟨?_, ?_, ?_⟩
  · intro p body hv hf hne
    have hb : (p.owner == userId) = false := by simpa using hne
    simp [projectDelete, projectUpdate, checkProjectOwnership, hv, hf, hb]
  · intro f body hv hf hne
    have hb : (f.owner == userId) = false := by simpa using hne
    have hv2 : objectIdSchema id = true := hv
    constructor
    · simp [forumDelete, forumIdSchema, checkForumOwnership, hv, hv2, hf, hb]
    · unfold forumUpdate
      split
      · rfl
      · simp [checkForumOwnership, hv, hf, hb]
  · intro c body hv hf hne
    have hb : (c.author == userId) = false := by simpa using hne
    constructor
    · simp [commentDelete, checkCommentAuthorship, hv, hf, hb]
    · unfold commentUpdate
      simp only [hv]
      by_cases hc : truthy body.content = true
      · simp [checkCommentAuthorship, hf, hb, hc]
      · simp [hc]

/-- Witness of C1 on the sample store: bob is not the owner of the samples of
alice. -/
theorem nonOwner_delete_forbidden_and_store_kept_witness :
    (projectDelete (some bob) "0000000000000000000000a1" sampleStore =
        (⟨403, .message "Forbidden: You are not the owner of this project."⟩, sampleStore) ∧
      (projectUpdate 9 (some bob) "0000000000000000000000a1" renameProjectBody sampleStore).2 =
        sampleStore) ∧
    (forumDelete (some bob) "0000000000000000000000b2" sampleStore =
        (⟨403, .message "Forbidden: You are not the owner of this forum."⟩, sampleStore) ∧
      (forumUpdate 9 (some bob) "0000000000000000000000b2" renameForumBody sampleStore).2 =
        sampleStore) ∧
    (commentDelete (some bob) "0000000000000000000000c3" sampleStore =
        (⟨403, .message "Forbidden: You are not the author of this comment."⟩, sampleStore) ∧
      (commentUpdate 9 (some bob) "0000000000000000000000c3" ⟨some "edited"⟩ sampleStore).2 =
        sampleStore) :=
  ⟨(nonOwner_delete_forbidden_and_store_kept sampleStore bob "0000000000000000000000a1" 9).1
      sampleProject renameProjectBody (by decide) (by decide) (by decide),
    (nonOwner_delete_forbidden_and_store_kept sampleStore bob "0000000000000000000000b2" 9).2.1
      sampleForum renameForumBody (by decide) (by decide) (by decide),
    (nonOwner_delete_forbidden_and_store_kept sampleStore bob "0000000000000000000000c3" 9).2.2
      sampleComment ⟨some "edited"⟩ (by decide) (by decide) (by decide)⟩

/-- C2 fails as stated: bob, who is not the author of the sample comment, sends
an update without content and gets 400, not 403; on the sample forum a body
that fails the route schema gets 400 as well. -/
theorem nonOwner_update_bad_body_is_400_not_403 :
    findById sampleStore.comments (castObjectId "0000000000000000000000c3") =
        some sampleComment ∧
      sampleComment.author ≠ bob ∧
      commentUpdate 9 (some bob) "0000000000000000000000c3" ⟨none⟩ sampleStore =
        (⟨400, .message "Comment content is required for update."⟩, sampleStore) ∧
      findById sampleStore.forums (castObjectId "0000000000000000000000b2") =
        some sampleForum ∧
      sampleForum.owner ≠ bob ∧
      forumUpdate 9 (some bob) "0000000000000000000000b2" emptyForumBody sampleStore =
        (⟨400, .schemaError⟩, sampleStore) := by
  decide

/-- C2 as amended: a subject that is not the owner (author) gets 403 on update
for every body (project), for every body that passes the route schema (forum),
for every non-empty content (comment); the owner (author) gets 200 with the
updated document when the body is valid: the title and description that are set
are non-empty once trimmed (project, forum), the body passes the schema and sets
title or description (forum), the content is non-empty once trimmed and the
stored comment has exactly one parent (comment). -/
theorem update_forbidden_for_nonOwner_ok_for_owner [JsRuntime] (s : Store) (userId : ObjectId)
    (id : String) (now : Nat) :
    (∀ (p : Project) (body : ProjectBody), isValidObjectId id = true →
        findById s.projects (castObjectId id) = some p → p.owner ≠ userId →
        projectUpdate now (some userId) id body s =
          (⟨403, .message "Forbidden: You are not the owner of this project."⟩, s)) ∧
    (∀ (f : Forum) (body : ForumBody), updateForumSchema id body = true →
        findById s.forums (castObjectId id) = some f → f.owner ≠ userId →
        forumUpdate now (some userId) id body s =
          (⟨403, .message "Forbidden: You are not the owner of this forum."⟩, s)) ∧
    (∀ (c : Comment) (body : CommentUpdateBody), isValidObjectId id = true →
        truthy body.content = true →
        findById s.comments (castObjectId id) = some c → c.author ≠ userId →
        commentUpdate now (some userId) id body s =
          (⟨403, .message "Forbidden: You are not the author of this comment."⟩, s)) ∧
    (∀ (p : Project) (body : ProjectBody), isValidObjectId id = true →
        findById s.projects (castObjectId id) = some p → p.owner = userId →
        validateUpdates body.title body.description = true →
        projectUpdate now (some userId) id body s =
          (⟨200, .project (applyProjectUpdates now body p)⟩,
            { s with projects :=
              (findByIdAndUpdate s.projects (castObjectId id) (applyProjectUpdates now body)).2 })) ∧
    (∀ (f : Forum) (body : ForumBody), updateForumSchema id body = true →
        findById s.forums (castObjectId id) = some f → f.owner = userId →
        (body.title.isSome = true ∨ body.description.isSome = true) →
        validateUpdates body.title body.description = true →
        forumUpdate now (some userId) id body s =
          (⟨200, .forum (applyForumUpdates now body f)⟩,
            { s with forums :=
              (findByIdAndUpdate s.forums (castObjectId id) (applyForumUpdates now body)).2 })) ∧
    (∀ (c : Comment) (x : String), isValidObjectId id = true →
        findById s.comments (castObjectId id) = some c → c.author = userId →
        requiredString (some (jsTrim x)) = true → commentPreValidate c = true →
        commentUpdate now (some userId) id ⟨some x⟩ s =
          if jsTrim x = c.content then (⟨200, .comment c⟩, s)
          else
            (⟨200, .comment { c with content := jsTrim x, updatedAt := now }⟩,
              { s with comments :=
                (findByIdAndUpdate s.comments (castObjectId id)
                  (fun d => { d with content := jsTrim x, updatedAt := now })).2 })) := by
  refine ⟨?_, ?_, ?_, ?_, ?_, ?_⟩
  · intro p body hv hf hne
    have hb : (p.owner == userId) = false := by simpa using hne
    simp [projectUpdate, checkProjectOwnership, hv, hf, hb]
  · intro f body hsch hf hne
    have hb : (f.owner == userId) = false := by simpa using hne
    have hv : isValidObjectId id = true := by
      simp only [updateForumSchema, Bool.and_eq_true] at hsch
      exact hsch.1.1.1
    simp [forumUpdate, checkForumOwnership, hsch, hv, hf, hb]
  · intro c body hv hc hf hne
    have hb : (c.author == userId) = false := by simpa using hne
    simp [commentUpdate, checkCommentAuthorship, hv, hc, hf, hb]
  · intro p body hv hf ho hval
    have hb : (p.owner == userId) = true := by simpa using ho
    have h1 := findByIdAndUpdate_fst (applyProjectUpdates now body) hf
    rcases hupd : findByIdAndUpdate s.projects (castObjectId id) (applyProjectUpdates now body)
      with ⟨a, b⟩
    rw [hupd] at h1
    simp only at h1
    subst h1
    simp [projectUpdate, checkProjectOwnership, hv, hf, hb, hval, hupd]
  · intro f body hsch hf ho hset hval
    have hb : (f.owner == userId) = true := by simpa using ho
    have hv : isValidObjectId id = true := by
      simp only [updateForumSchema, Bool.and_eq_true] at hsch
      exact hsch.1.1.1
    have hnone : (body.title.isNone && body.description.isNone) = false := by
      rcases hset with h | h
      · cases ht : body.title with
        | none => simp [ht] at h
        | some t => simp
      · cases hd : body.description with
        | none => simp [hd] at h
        | some d => simp
    have h1 := findByIdAndUpdate_fst (applyForumUpdates now body) hf
    rcases hupd : findByIdAndUpdate s.forums (castObjectId id) (applyForumUpdates now body)
      with ⟨a, b⟩
    rw [hupd] at h1
    simp only at h1
    subst h1
    simp [forumUpdate, checkForumOwnership, hsch, hv, hf, hb, hnone, hval, hupd]
  · intro c x hv hf ho hreq hpre
    have hb : (c.author == userId) = true := by simpa using ho
    have hid : c._id = castObjectId id := findById_oid hf
    have hx : truthy (some x) = true := by
      simp only [truthy]
      simp only [requiredString, jsTrim] at hreq
      cases hxd : x.data with
      | nil => simp [hxd] at hreq
      | cons a l => simp
    have hsame := findById_update_same
      (fun d : Comment => { d with content := jsTrim x, updatedAt := now }) (fun _ => rfl) hf
    by_cases heq : jsTrim x = c.content
    · simp [commentUpdate, checkCommentAuthorship, hv, hf, hb, hx, hpre, heq, hid]
    · simp [commentUpdate, checkCommentAuthorship, hv, hf, hb, hx, hpre, heq, hid, hreq, hsame]

/-- Witness of C2 as amended on the sample store: bob is refused, alice
succeeds. -/
theorem update_forbidden_for_nonOwner_ok_for_owner_witness :
    projectUpdate 9 (some bob) "0000000000000000000000a1" renameProjectBody sampleStore =
        (⟨403, .message "Forbidden: You are not the owner of this project."⟩, sampleStore) ∧
    forumUpdate 9 (some bob) "0000000000000000000000b2" renameForumBody sampleStore =
        (⟨403, .message "Forbidden: You are not the owner of this forum."⟩, sampleStore) ∧
    commentUpdate 9 (some bob) "0000000000000000000000c3" ⟨some "edited"⟩ sampleStore =
        (⟨403, .message "Forbidden: You are not the author of this comment."⟩, sampleStore) ∧
    projectUpdate 9 (some alice) "0000000000000000000000a1" renameProjectBody sampleStore =
        (⟨200, .project (applyProjectUpdates 9 renameProjectBody sampleProject)⟩,
          { sampleStore with projects :=
            (findByIdAndUpdate sampleStore.projects (castObjectId "0000000000000000000000a1")
              (applyProjectUpdates 9 renameProjectBody)).2 }) ∧
    forumUpdate 9 (some alice) "0000000000000000000000b2" renameForumBody sampleStore =
        (⟨200, .forum (applyForumUpdates 9 renameForumBody sampleForum)⟩,
          { sampleStore with forums :=
            (findByIdAndUpdate sampleStore.forums (castObjectId "0000000000000000000000b2")
              (applyForumUpdates 9 renameForumBody)).2 }) ∧
    commentUpdate 9 (some alice) "0000000000000000000000c3" ⟨some " edited "⟩ sampleStore =
        (if jsTrim " edited " = sampleComment.content then
          (⟨200, .comment sampleComment⟩, sampleStore)
        else
          (⟨200, .comment { sampleComment with content := jsTrim " edited ", updatedAt := 9 }⟩,
            { sampleStore with comments :=
              (findByIdAndUpdate sampleStore.comments
                (castObjectId "0000000000000000000000c3")
                (fun d => { d with content := jsTrim " edited ", updatedAt := 9 })).2 })) :=
  ⟨(update_forbidden_for_nonOwner_ok_for_owner sampleStore bob
      "0000000000000000000000a1" 9).1 sampleProject renameProjectBody
      (by decide) (by decide) (by decide),
    (update_forbidden_for_nonOwner_ok_for_owner sampleStore bob
      "0000000000000000000000b2" 9).2.1 sampleForum renameForumBody
      (by decide) (by decide) (by decide),
    (update_forbidden_for_nonOwner_ok_for_owner sampleStore bob
      "0000000000000000000000c3" 9).2.2.1 sampleComment ⟨some "edited"⟩
      (by decide) (by decide) (by decide) (by decide),
    (update_forbidden_for_nonOwner_ok_for_owner sampleStore alice
      "0000000000000000000000a1" 9).2.2.2.1 sampleProject renameProjectBody
      (by decide) (by decide) (by decide) (by decide),
    (update_forbidden_for_nonOwner_ok_for_owner sampleStore alice
      "0000000000000000000000b2" 9).2.2.2.2.1 sampleForum renameForumBody
      (by decide) (by decide) (by decide) (by decide) (by decide),
    (update_forbidden_for_nonOwner_ok_for_owner sampleStore alice
      "0000000000000000000000c3" 9).2.2.2.2.2 sampleComment " edited "
      (by decide) (by decide) (by decide) (by decide) (by decide)⟩

/-- The sample store is reachable: alice creates the project, the forum and the
comment. -/
theorem sampleStore_reachable : Reachable sampleStore := by
  have h1 := Reachable.step 5 161 (.projectCreate (some alice) fooProjectBody) Store.empty
    Reachable.init
  have h2 := Reachable.step 6 178 (.forumCreate (some alice) generalForumBody) _ h1
  have h3 := Reachable.step 7 195 (.commentCreate (some alice) niceCommentBody) _ h2
  have he : (handle 7 195 (.commentCreate (some alice) niceCommentBody)
      (handle 6 178 (.forumCreate (some alice) generalForumBody)
        (handle 5 161 (.projectCreate (some alice) fooProjectBody) Store.empty).2).2).2 =
      sampleStore := by decide
  rw [he] at h3
  exact h3

/-- C3 fails as stated: a comment update that names no stored comment and has
no content gets 400, not 404. -/
theorem missing_comment_update_without_content_is_400 :
    isValidObjectId "0000000000000000000000ee" = true ∧
      findById sampleStore.comments (castObjectId "0000000000000000000000ee") = none ∧
      commentUpdate 9 (some alice) "0000000000000000000000ee" ⟨none⟩ sampleStore =
        (⟨400, .message "Comment content is required for update."⟩, sampleStore) := by
  decide

/-- C3 as amended: for a well-formed id that names no stored resource, delete
answers 404, and so does update with any body (project), with a body that
passes the route schema (forum), with non-empty content (comment); in a
reachable store, after a successful delete by the owner (author) the same
delete answers 404. -/
theorem missing_resource_is_404 [JsRuntime] (s : Store) (userId : ObjectId) (id : String)
    (now : Nat) :
    (isValidObjectId id = true → findById s.projects (castObjectId id) = none →
        (∀ body : ProjectBody, projectUpdate now (some userId) id body s =
          (⟨404, .message "Project not found."⟩, s)) ∧
        projectDelete (some userId) id s = (⟨404, .message "Project not found."⟩, s)) ∧
    (isValidObjectId id = true → findById s.forums (castObjectId id) = none →
        (∀ body : ForumBody, updateForumSchema id body = true →
          forumUpdate now (some userId) id body s = (⟨404, .message "Forum not found."⟩, s)) ∧
        forumDelete (some userId) id s = (⟨404, .message "Forum not found."⟩, s)) ∧
    (isValidObjectId id = true → findById s.comments (castObjectId id) = none →
        (∀ body : CommentUpdateBody, truthy body.content = true →
          commentUpdate now (some userId) id body s =
            (⟨404, .message "Comment not found."⟩, s)) ∧
        commentDelete (some userId) id s = (⟨404, .message "Comment not found."⟩, s)) ∧
    (Reachable s → isValidObjectId id = true →
        (∀ p : Project, findById s.projects (castObjectId id) = some p → p.owner = userId →
          (projectDelete (some userId) id s).1 = ⟨204, .empty⟩ ∧
          (projectDelete (some userId) id (projectDelete (some userId) id s).2).1 =
            ⟨404, .message "Project not found."⟩) ∧
        (∀ f : Forum, findById s.forums (castObjectId id) = some f → f.owner = userId →
          (forumDelete (some userId) id s).1 = ⟨204, .empty⟩ ∧
          (forumDelete (some userId) id (forumDelete (some userId) id s).2).1 =
            ⟨404, .message "Forum not found."⟩) ∧
        (∀ c : Comment, findById s.comments (castObjectId id) = some c → c.author = userId →
          (commentDelete (some userId) id s).1 = ⟨204, .empty⟩ ∧
          (commentDelete (some userId) id (commentDelete (some userId) id s).2).1 =
            ⟨404, .message "Comment not found."⟩)) := by
  refine ⟨?_, ?_, ?_, ?_⟩
  · intro hv hf
    simp [projectUpdate, projectDelete, checkProjectOwnership, hv, hf]
  · intro hv hf
    have hv2 : objectIdSchema id = true := hv
    refine ⟨?_, ?_⟩
    · intro body hsch
      simp [forumUpdate, checkForumOwnership, hsch, hv, hf]
    · simp [forumDelete, forumIdSchema, checkForumOwnership, hv, hv2, hf]
  · intro hv hf
    refine ⟨?_, ?_⟩
    · intro body hc
      simp [commentUpdate, checkCommentAuthorship, hv, hc, hf]
    · simp [commentDelete, checkCommentAuthorship, hv, hf]
  · intro hr hv
    have hw := reachable_wellFormed hr
    have hv2 : objectIdSchema id = true := hv
    refine ⟨?_, ?_, ?_⟩
    · intro p hf ho
      have hb : (p.owner == userId) = true := by simpa using ho
      have hgone := findById_delete_same (castObjectId id) hw.projectIds
      simp [projectDelete, checkProjectOwnership, hv, hf, hb, hgone]
    · intro f hf ho
      have hb : (f.owner == userId) = true := by simpa using ho
      have hgone := findById_delete_same (castObjectId id) hw.forumIds
      simp [forumDelete, forumIdSchema, checkForumOwnership, hv, hv2, hf, hb, hgone]
    · intro c hf ho
      have hb : (c.author == userId) = true := by simpa using ho
      have hgone := findById_delete_same (castObjectId id) hw.commentIds
      simp [commentDelete, checkCommentAuthorship, hv, hf, hb, hgone]

/-- Witness of C3 as amended on the sample store: an id that names nothing gets
404, and a second delete by alice gets 404 after the first one got 204. -/
theorem missing_resource_is_404_witness :
    ((∀ body : ProjectBody,
        projectUpdate 9 (some bob) "0000000000000000000000ee" body sampleStore =
          (⟨404, .message "Project not found."⟩, sampleStore)) ∧
      projectDelete (some bob) "0000000000000000000000ee" sampleStore =
        (⟨404, .message "Project not found."⟩, sampleStore)) ∧
    forumDelete (some bob) "0000000000000000000000ee" sampleStore =
        (⟨404, .message "Forum not found."⟩, sampleStore) ∧
    commentDelete (some bob) "0000000000000000000000ee" sampleStore =
        (⟨404, .message "Comment not found."⟩, sampleStore) ∧
    ((projectDelete (some alice) "0000000000000000000000a1" sampleStore).1 = ⟨204, .empty⟩ ∧
      (projectDelete (some alice) "0000000000000000000000a1"
        (projectDelete (some alice) "0000000000000000000000a1" sampleStore).2).1 =
        ⟨404, .message "Project not found."⟩) ∧
    ((forumDelete (some alice) "0000000000000000000000b2" sampleStore).1 = ⟨204, .empty⟩ ∧
      (forumDelete (some alice) "0000000000000000000000b2"
        (forumDelete (some alice) "0000000000000000000000b2" sampleStore).2).1 =
        ⟨404, .message "Forum not found."⟩) ∧
    ((commentDelete (some alice) "0000000000000000000000c3" sampleStore).1 = ⟨204, .empty⟩ ∧
      (commentDelete (some alice) "0000000000000000000000c3"
        (commentDelete (some alice) "0000000000000000000000c3" sampleStore).2).1 =
        ⟨404, .message "Comment not found."⟩) :=
  ⟨(missing_resource_is_404 sampleStore bob "0000000000000000000000ee" 9).1
      (by decide) (by decide),
    ((missing_resource_is_404 sampleStore bob "0000000000000000000000ee" 9).2.1
      (by decide) (by decide)).2,
    ((missing_resource_is_404 sampleStore bob "0000000000000000000000ee" 9).2.2.1
      (by decide) (by decide)).2,
    ((missing_resource_is_404 sampleStore alice "0000000000000000000000a1" 9).2.2.2
      sampleStore_reachable (by decide)).1 sampleProject (by decide) (by decide),
    ((missing_resource_is_404 sampleStore alice "0000000000000000000000b2" 9).2.2.2
      sampleStore_reachable (by decide)).2.1 sampleForum (by decide) (by decide),
    ((missing_resource_is_404 sampleStore alice "0000000000000000000000c3" 9).2.2.2
      sampleStore_reachable (by decide)).2.2 sampleComment (by decide) (by decide)⟩

/-! ### Creation -/

/-- C4: for an authenticated subject and a body that passes validation, project
and forum creation answer 201 and append exactly the document built from the
body, whose owner is the subject and whose likes are empty, provided the id of
the document (the `_id` of the body when it carries one, else the generated
one) is not yet in the collection; the document is the same whatever `owner`
and `likes` the body carries.  For any body at all, a document that is in the
collection after the call and was not there before has the subject as owner
and no likes. -/
theorem create_sets_owner_and_empty_likes [JsRuntime] (s : Store) (userId : ObjectId)
    (now : Nat) (newId : ObjectId) :
    (∀ body : ProjectBody, validateNewProject body = true →
        findById s.projects (documentId newId body._id) = none →
        projectCreate now newId (some userId) body s =
          (⟨201, .project (newProject now newId userId body)⟩,
            { s with projects := s.projects ++ [newProject now newId userId body] }) ∧
        (newProject now newId userId body).owner = userId ∧
        (newProject now newId userId body).likes = [] ∧
        newProject now newId userId body =
          newProject now newId userId { body with owner := none, likes := none }) ∧
    (∀ body : ForumBody, createForumSchema body = true → validateNewForum body = true →
        findById s.forums (documentId newId body._id) = none →
        forumCreate now newId (some userId) body s =
          (⟨201, .forum (newForum now newId userId body)⟩,
            { s with forums := s.forums ++ [newForum now newId userId body] }) ∧
        (newForum now newId userId body).owner = userId ∧
        (newForum now newId userId body).likes = [] ∧
        newForum now newId userId body =
          newForum now newId userId { body with owner := none, likes := none }) ∧
    (∀ (body : ProjectBody) (p : Project),
        p ∈ (projectCreate now newId (some userId) body s).2.projects →
        p ∈ s.projects ∨ (p.owner = userId ∧ p.likes = [])) ∧
    (∀ (body : ForumBody) (f : Forum),
        f ∈ (forumCreate now newId (some userId) body s).2.forums →
        f ∈ s.forums ∨ (f.owner = userId ∧ f.likes = [])) := by
  refine ⟨?_, ?_, ?_, ?_⟩
  · intro body hval hfresh
    refine ⟨?_, rfl, rfl, rfl⟩
    have hfresh2 : findById s.projects (Document.oid (newProject now newId userId body)) = none :=
      hfresh
    have hfound := findById_append_fresh s.projects _ hfresh2
    have hfound2 : findById (s.projects ++ [newProject now newId userId body])
        (newProject now newId userId body)._id = some (newProject now newId userId body) :=
      hfound
    simp [projectCreate, hval, insertDoc_of_fresh s.projects _ hfresh2, hfound2]
  · intro body hsch hval hfresh
    refine ⟨?_, rfl, rfl, rfl⟩
    have hfresh2 : findById s.forums (Document.oid (newForum now newId userId body)) = none :=
      hfresh
    have hfound := findById_append_fresh s.forums _ hfresh2
    have hfound2 : findById (s.forums ++ [newForum now newId userId body])
        (newForum now newId userId body)._id = some (newForum now newId userId body) :=
      hfound
    simp [forumCreate, hsch, hval, insertDoc_of_fresh s.forums _ hfresh2, hfound2]
  · intro body p hp
    unfold projectCreate at hp
    split at hp
    · exact Or.inl hp
    · split at hp
      · exact Or.inl hp
      · split at hp
        · exact Or.inl hp
        · rename_i u heq _ _ ps hins
          have hu : userId = u := Option.some.inj heq
          have hps := (insertDoc_eq_some hins).1
          have hmem : p ∈ ps := by
            split at hp <;> exact hp
          rw [hps] at hmem
          rcases List.mem_append.1 hmem with h1 | h1
          · exact Or.inl h1
          · simp at h1
            subst h1
            exact Or.inr ⟨hu.symm, rfl⟩
  · intro body f hp
    unfold forumCreate at hp
    split at hp
    · exact Or.inl hp
    · split at hp
      · exact Or.inl hp
      · split at hp
        · exact Or.inl hp
        · split at hp
          · exact Or.inl hp
          · rename_i u heq _ _ fs hins
            have hu : userId = u := Option.some.inj heq
            have hfs := (insertDoc_eq_some hins).1
            have hmem : f ∈ fs := by
              split at hp <;> exact hp
            rw [hfs] at hmem
            rcases List.mem_append.1 hmem with h1 | h1
            · exact Or.inl h1
            · simp at h1
              subst h1
              exact Or.inr ⟨hu.symm, rfl⟩

/-- Witness of C4 on the sample store: bob creates a project and a forum with
bodies that name another owner and a like; the project body also carries an
`_id` and a `createdAt`, which the stored document keeps. -/
theorem create_sets_owner_and_empty_likes_witness :
    (projectCreate 9 200 (some bob) stampedProjectBody sampleStore =
        (⟨201, .project (newProject 9 200 bob stampedProjectBody)⟩,
          { sampleStore with projects :=
            sampleStore.projects ++ [newProject 9 200 bob stampedProjectBody] }) ∧
      (newProject 9 200 bob stampedProjectBody).owner = bob ∧
      (newProject 9 200 bob stampedProjectBody).likes = [] ∧
      newProject 9 200 bob stampedProjectBody =
        newProject 9 200 bob { stampedProjectBody with owner := none, likes := none }) ∧
    (forumCreate 9 200 (some bob) generalForumBody sampleStore =
        (⟨201, .forum (newForum 9 200 bob generalForumBody)⟩,
          { sampleStore with forums :=
            sampleStore.forums ++ [newForum 9 200 bob generalForumBody] }) ∧
      (newForum 9 200 bob generalForumBody).owner = bob ∧
      (newForum 9 200 bob generalForumBody).likes = [] ∧
      newForum 9 200 bob generalForumBody =
        newForum 9 200 bob { generalForumBody with owner := none, likes := none }) :=
  ⟨(create_sets_owner_and_empty_likes sampleStore bob 9 200).1 stampedProjectBody
      (by decide) (by decide),
    (create_sets_owner_and_empty_likes sampleStore bob 9 200).2.1 generalForumBody
      (by decide) (by decide) (by decide)⟩

/-! ### Likes -/

theorem any_eq_true_iff_mem (likes : List ObjectId) (userId : ObjectId) :
    likes.any (fun like => like == userId) = true ↔ userId ∈ likes := by
  simp [List.any_eq_true]

theorem mem_pull (likes : List ObjectId) (userId v : ObjectId) :
    v ∈ pull likes userId ↔ v ∈ likes ∧ v ≠ userId := by
  simp [pull]

theorem addToSet_of_not_mem (likes : List ObjectId) (userId : ObjectId) (h : userId ∉ likes) :
    addToSet likes userId = likes ++ [userId] := by
  have : ¬ (likes.any (fun like => like == userId) = true) := by
    rw [any_eq_true_iff_mem]
    exact h
  simp only [addToSet, this, if_false, Bool.false_eq_true]

theorem pull_append_self (likes : List ObjectId) (userId : ObjectId) (h : userId ∉ likes) :
    pull (likes ++ [userId]) userId = likes := by
  unfold pull
  rw [List.filter_append]
  have h1 : List.filter (fun like => !(like == userId)) likes = likes := by
    rw [List.filter_eq_self]
    intro a ha
    have : a ≠ userId := fun hEq => h (hEq ▸ ha)
    simpa using this
  simp [h1]

theorem length_pull_of_nodup (likes : List ObjectId) (userId : ObjectId) (hn : likes.Nodup)
    (hm : userId ∈ likes) : (pull likes userId).length + 1 = likes.length := by
  induction likes with
  | nil => simp at hm
  | cons a rest ih =>
    simp only [List.nodup_cons] at hn
    by_cases ha : a = userId
    · subst ha
      have hrest : pull rest a = rest := by
        unfold pull
        rw [List.filter_eq_self]
        intro b hb
        have : b ≠ a := fun hEq => hn.1 (hEq ▸ hb)
        simpa using this
      have hcons : pull (a :: rest) a = pull rest a := by
        simp [pull]
      rw [hcons, hrest]
      simp
    · have hmr : userId ∈ rest := by
        rcases List.mem_cons.1 hm with h | h
        · exact absurd h.symm ha
        · exact h
      have hcons : pull (a :: rest) userId = a :: pull rest userId := by
        simp [pull, ha]
      rw [hcons]
      simp [ih hn.2 hmr]

/-- The like route on a stored project the user likes: `$pull`. -/
theorem projectLike_of_liked {s : Store} {id : String} {p : Project} (now : Nat)
    (userId : ObjectId) (hv : isValidObjectId id = true)
    (hf : findById s.projects (castObjectId id) = some p) (hm : userId ∈ p.likes) :
    projectLike now (some userId) id s =
      (⟨200, .like "Project unliked" (populateLikes s.users (pull p.likes userId)).length⟩,
        { s with projects := (findByIdAndUpdate s.projects (castObjectId id)
          (fun q => { q with likes := pull q.likes userId, updatedAt := now })).2 }) := by
  have hany := (any_eq_true_iff_mem p.likes userId).2 hm
  have h1 := findByIdAndUpdate_fst
    (fun q : Project => { q with likes := pull q.likes userId, updatedAt := now }) hf
  rcases hupd : findByIdAndUpdate s.projects (castObjectId id)
    (fun q : Project => { q with likes := pull q.likes userId, updatedAt := now }) with ⟨a, b⟩
  rw [hupd] at h1
  simp only at h1
  subst h1
  simp only [projectLike, hv, hf, hany, hupd]
  simp

/-- The like route on a stored project the user does not like: `$addToSet`. -/
theorem projectLike_of_not_liked {s : Store} {id : String} {p : Project} (now : Nat)
    (userId : ObjectId) (hv : isValidObjectId id = true)
    (hf : findById s.projects (castObjectId id) = some p) (hm : userId ∉ p.likes) :
    projectLike now (some userId) id s =
      (⟨200, .like "Project liked" (populateLikes s.users (addToSet p.likes userId)).length⟩,
        { s with projects := (findByIdAndUpdate s.projects (castObjectId id)
          (fun q => { q with likes := addToSet q.likes userId, updatedAt := now })).2 }) := by
  have hany : ¬ (p.likes.any (fun like => like == userId) = true) := by
    rw [any_eq_true_iff_mem]
    exact hm
  have h1 := findByIdAndUpdate_fst
    (fun q : Project => { q with likes := addToSet q.likes userId, updatedAt := now }) hf
  rcases hupd : findByIdAndUpdate s.projects (castObjectId id)
    (fun q : Project => { q with likes := addToSet q.likes userId, updatedAt := now }) with ⟨a, b⟩
  rw [hupd] at h1
  simp only at h1
  subst h1
  simp only [projectLike, hv, hf, hany, hupd]
  simp

/-- The like route on a stored forum the user likes: `$pull`. -/
theorem forumLike_of_liked {s : Store} {id : String} {f : Forum} (now : Nat)
    (userId : ObjectId) (hv : isValidObjectId id = true)
    (hf : findById s.forums (castObjectId id) = some f) (hm : userId ∈ f.likes) :
    forumLike now (some userId) id s =
      (⟨200, .like "Forum unliked successfully." (pull f.likes userId).length⟩,
        { s with forums := (findByIdAndUpdate s.forums (castObjectId id)
          (fun q => { q with likes := pull q.likes userId, updatedAt := now })).2 }) := by
  have hany := (any_eq_true_iff_mem f.likes userId).2 hm
  have hv2 : forumIdSchema id = true := hv
  have h1 := findByIdAndUpdate_fst
    (fun q : Forum => { q with likes := pull q.likes userId, updatedAt := now }) hf
  rcases hupd : findByIdAndUpdate s.forums (castObjectId id)
    (fun q : Forum => { q with likes := pull q.likes userId, updatedAt := now }) with ⟨a, b⟩
  rw [hupd] at h1
  simp only at h1
  subst h1
  simp only [forumLike, hv, hv2, hf, hany, hupd]
  simp

/-- The like route on a stored forum the user does not like: `$addToSet`. -/
theorem forumLike_of_not_liked {s : Store} {id : String} {f : Forum} (now : Nat)
    (userId : ObjectId) (hv : isValidObjectId id = true)
    (hf : findById s.forums (castObjectId id) = some f) (hm : userId ∉ f.likes) :
    forumLike now (some userId) id s =
      (⟨200, .like "Forum liked successfully." (addToSet f.likes userId).length⟩,
        { s with forums := (findByIdAndUpdate s.forums (castObjectId id)
          (fun q => { q with likes := addToSet q.likes userId, updatedAt := now })).2 }) := by
  have hany : ¬ (f.likes.any (fun like => like == userId) = true) := by
    rw [any_eq_true_iff_mem]
    exact hm
  have hv2 : forumIdSchema id = true := hv
  have h1 := findByIdAndUpdate_fst
    (fun q : Forum => { q with likes := addToSet q.likes userId, updatedAt := now }) hf
  rcases hupd : findByIdAndUpdate s.forums (castObjectId id)
    (fun q : Forum => { q with likes := addToSet q.likes userId, updatedAt := now }) with ⟨a, b⟩
  rw [hupd] at h1
  simp only at h1
  subst h1
  simp only [forumLike, hv, hv2, hf, hany, hupd]
  simp

theorem toFinset_pull (likes : List ObjectId) (userId : ObjectId) :
    (pull likes userId).toFinset = likes.toFinset \ {userId} := by
  ext v
  simp [mem_pull]

theorem toFinset_addToSet (likes : List ObjectId) (userId : ObjectId) (h : userId ∉ likes) :
    (addToSet likes userId).toFinset = likes.toFinset ∪ {userId} := by
  rw [addToSet_of_not_mem likes userId h]
  ext v
  simp

theorem mem_addToSet (likes : List ObjectId) (userId v : ObjectId) :
    v ∈ addToSet likes userId ↔ v ∈ likes ∨ v = userId := by
  unfold addToSet
  by_cases hm : likes.any (fun like => like == userId) = true
  · simp only [hm, if_true]
    constructor
    · exact Or.inl
    · rintro (h | h)
      · exact h
      · rw [h]
        exact (any_eq_true_iff_mem likes userId).1 hm
  · simp only [hm, if_false, Bool.false_eq_true]
    simp

/-- The like route of projects and of forums on a stored document whose likes
hold no user twice: one toggle by the user removes the user from the like-set
and reports unliked when the user was in it, adds the user and reports liked
otherwise; the stored document changes in likes and in `updatedAt` (set to
the time of the call) only, and nothing else in the store changes.  The forum
route reports the size of the new like-set; the project route reports the
length of the new like array after `populate`, which is the number of its
users that have a user document. -/
theorem like_flips_membership (s : Store) (userId : ObjectId) (id : String)
    (now : Nat) :
    (∀ p : Project, isValidObjectId id = true →
        findById s.projects (castObjectId id) = some p → p.likes.Nodup →
        ∃ likes : List ObjectId,
          likes.toFinset =
            (if userId ∈ p.likes then p.likes.toFinset \ {userId}
              else p.likes.toFinset ∪ {userId}) ∧
          (projectLike now (some userId) id s).1 =
            ⟨200, .like (if userId ∈ p.likes then "Project unliked" else "Project liked")
              (populateLikes s.users likes).length⟩ ∧
          findById (projectLike now (some userId) id s).2.projects (castObjectId id) =
            some { p with likes := likes, updatedAt := now } ∧
          (∀ other, other ≠ castObjectId id →
            findById (projectLike now (some userId) id s).2.projects other =
              findById s.projects other) ∧
          (projectLike now (some userId) id s).2.users = s.users ∧
          (projectLike now (some userId) id s).2.forums = s.forums ∧
          (projectLike now (some userId) id s).2.comments = s.comments) ∧
    (∀ f : Forum, isValidObjectId id = true →
        findById s.forums (castObjectId id) = some f → f.likes.Nodup →
        ∃ likes : List ObjectId,
          likes.toFinset =
            (if userId ∈ f.likes then f.likes.toFinset \ {userId}
              else f.likes.toFinset ∪ {userId}) ∧
          (forumLike now (some userId) id s).1 =
            ⟨200, .like (if userId ∈ f.likes then "Forum unliked successfully."
              else "Forum liked successfully.") likes.toFinset.card⟩ ∧
          findById (forumLike now (some userId) id s).2.forums (castObjectId id) =
            some { f with likes := likes, updatedAt := now } ∧
          (∀ other, other ≠ castObjectId id →
            findById (forumLike now (some userId) id s).2.forums other =
              findById s.forums other) ∧
          (forumLike now (some userId) id s).2.users = s.users ∧
          (forumLike now (some userId) id s).2.projects = s.projects ∧
          (forumLike now (some userId) id s).2.comments = s.comments) := by
  refine ⟨?_, ?_⟩
  · intro p hv hf hn
    by_cases hm : userId ∈ p.likes
    · refine ⟨pull p.likes userId, ?_, ?_, ?_, ?_, ?_⟩
      · simp only [hm, if_true]
        exact toFinset_pull p.likes userId
      · rw [projectLike_of_liked now userId hv hf hm]
        simp [hm]
      · rw [projectLike_of_liked now userId hv hf hm]
        exact findById_update_same _ (fun _ => rfl) hf
      · intro other hne
        rw [projectLike_of_liked now userId hv hf hm]
        exact findById_update_other _ _ _ _ (fun _ => rfl) hne
      · rw [projectLike_of_liked now userId hv hf hm]
        exact ⟨rfl, rfl, rfl⟩
    · refine ⟨addToSet p.likes userId, ?_, ?_, ?_, ?_, ?_⟩
      · simp only [hm, if_false]
        exact toFinset_addToSet p.likes userId hm
      · rw [projectLike_of_not_liked now userId hv hf hm]
        simp [hm]
      · rw [projectLike_of_not_liked now userId hv hf hm]
        exact findById_update_same _ (fun _ => rfl) hf
      · intro other hne
        rw [projectLike_of_not_liked now userId hv hf hm]
        exact findById_update_other _ _ _ _ (fun _ => rfl) hne
      · rw [projectLike_of_not_liked now userId hv hf hm]
        exact ⟨rfl, rfl, rfl⟩
  · intro f hv hf hn
    by_cases hm : userId ∈ f.likes
    · refine ⟨pull f.likes userId, ?_, ?_, ?_, ?_, ?_⟩
      · simp only [hm, if_true]
        exact toFinset_pull f.likes userId
      · rw [forumLike_of_liked now userId hv hf hm,
          List.toFinset_card_of_nodup (pull_nodup userId hn)]
        simp [hm]
      · rw [forumLike_of_liked now userId hv hf hm]
        exact findById_update_same _ (fun _ => rfl) hf
      · intro other hne
        rw [forumLike_of_liked now userId hv hf hm]
        exact findById_update_other _ _ _ _ (fun _ => rfl) hne
      · rw [forumLike_of_liked now userId hv hf hm]
        exact ⟨rfl, rfl, rfl⟩
    · refine ⟨addToSet f.likes userId, ?_, ?_, ?_, ?_, ?_⟩
      · simp only [hm, if_false]
        exact toFinset_addToSet f.likes userId hm
      · rw [forumLike_of_not_liked now userId hv hf hm,
          List.toFinset_card_of_nodup (addToSet_nodup userId hn)]
        simp [hm]
      · rw [forumLike_of_not_liked now userId hv hf hm]
        exact findById_update_same _ (fun _ => rfl) hf
      · intro other hne
        rw [forumLike_of_not_liked now userId hv hf hm]
        exact findById_update_other _ _ _ _ (fun _ => rfl) hne
      · rw [forumLike_of_not_liked now userId hv hf hm]
        exact ⟨rfl, rfl, rfl⟩

/-- C5: the like route of projects does not report the size of the new
like-set.  On the sample store, which holds no user document, bob likes the
sample project at time 9: the stored likes become `[bob]` (and `updatedAt`
becomes 9), and the reply reports `likesCount` 0, the length of the like
array after `populate`.  The forum route reports 1 for the same request on the
sample forum. -/
theorem projectLike_reports_populated_count :
    (projectLike 9 (some bob) "0000000000000000000000a1" sampleStore).1 =
      ⟨200, .like "Project liked" 0⟩ ∧
    findById (projectLike 9 (some bob) "0000000000000000000000a1" sampleStore).2.projects
        (castObjectId "0000000000000000000000a1") =
      some { sampleProject with likes := [bob], updatedAt := 9 } ∧
    (forumLike 9 (some bob) "0000000000000000000000b2" sampleStore).1 =
      ⟨200, .like "Forum liked successfully." 1⟩ ∧
    findById (forumLike 9 (some bob) "0000000000000000000000b2" sampleStore).2.forums
        (castObjectId "0000000000000000000000b2") =
      some { sampleForum with likes := [bob], updatedAt := 9 } := by
  decide

theorem length_addToSet_pull (likes : List ObjectId) (userId : ObjectId) (hn : likes.Nodup)
    (hm : userId ∈ likes) : (addToSet (pull likes userId) userId).length = likes.length := by
  have hnot : userId ∉ pull likes userId := by
    rw [mem_pull]
    exact fun h => h.2 rfl
  rw [addToSet_of_not_mem _ _ hnot, List.length_append]
  exact length_pull_of_nodup likes userId hn hm

theorem pull_addToSet (likes : List ObjectId) (userId : ObjectId) (hm : userId ∉ likes) :
    pull (addToSet likes userId) userId = likes := by
  rw [addToSet_of_not_mem _ _ hm]
  exact pull_append_self likes userId hm

theorem mem_addToSet_self (likes : List ObjectId) (userId : ObjectId) :
    userId ∈ addToSet likes userId := by
  by_cases hm : userId ∈ likes
  · have := (any_eq_true_iff_mem likes userId).2 hm
    simp only [addToSet, this, if_true]
    exact hm
  · rw [addToSet_of_not_mem _ _ hm]
    simp

theorem perm_addToSet_pull (likes : List ObjectId) (userId : ObjectId) (hn : likes.Nodup)
    (hm : userId ∈ likes) : (addToSet (pull likes userId) userId).Perm likes := by
  rw [List.perm_ext_iff_of_nodup (addToSet_nodup userId (pull_nodup userId hn)) hn]
  intro a
  rw [mem_addToSet, mem_pull]
  constructor
  · rintro (h | h)
    · exact h.1
    · rw [h]
      exact hm
  · intro h
    by_cases ha : a = userId
    · exact Or.inr ha
    · exact Or.inl ⟨h, ha⟩

theorem length_populateLikes_addToSet_pull (users : List User) (likes : List ObjectId)
    (userId : ObjectId) (hn : likes.Nodup) (hm : userId ∈ likes) :
    (populateLikes users (addToSet (pull likes userId) userId)).length =
      (populateLikes users likes).length :=
  ((perm_addToSet_pull likes userId hn hm).filter _).length_eq

/-- Two toggles in a row by the same user on a stored project or forum of a
reachable store leave the user liking it exactly when the user did before and
leave the number of likes as it was.  The second reply of the forum route
reports the number of likes from before the first toggle; the second reply of
the project route reports the length of the like array from before the first
toggle after `populate`, which is the number of its users that have a user
document. -/
theorem like_twice_restores [JsRuntime] (s : Store) (userId : ObjectId) (id : String)
    (now1 now2 : Nat) (hr : Reachable s) (hv : isValidObjectId id = true) :
    (∀ p : Project, findById s.projects (castObjectId id) = some p →
        ∃ p2 : Project,
          findById (projectLike now2 (some userId) id
              (projectLike now1 (some userId) id s).2).2.projects (castObjectId id) = some p2 ∧
          (userId ∈ p2.likes ↔ userId ∈ p.likes) ∧
          p2.likes.length = p.likes.length ∧
          (projectLike now2 (some userId) id (projectLike now1 (some userId) id s).2).1 =
            ⟨200, .like (if userId ∈ p.likes then "Project liked" else "Project unliked")
              (populateLikes s.users p.likes).length⟩) ∧
    (∀ f : Forum, findById s.forums (castObjectId id) = some f →
        ∃ f2 : Forum,
          findById (forumLike now2 (some userId) id
              (forumLike now1 (some userId) id s).2).2.forums (castObjectId id) = some f2 ∧
          (userId ∈ f2.likes ↔ userId ∈ f.likes) ∧
          f2.likes.length = f.likes.length ∧
          (forumLike now2 (some userId) id (forumLike now1 (some userId) id s).2).1 =
            ⟨200, .like (if userId ∈ f.likes then "Forum liked successfully."
              else "Forum unliked successfully.") f.likes.length⟩) := by
  have hw := reachable_wellFormed hr
  refine ⟨?_, ?_⟩
  · intro p hf
    have hn := hw.projectLikes p (findById_mem hf)
    have hus : (projectLike now1 (some userId) id s).2.users = s.users := by
      unfold projectLike
      repeat' split
      all_goals rfl
    by_cases hm : userId ∈ p.likes
    · have hf1 : findById (projectLike now1 (some userId) id s).2.projects (castObjectId id) =
          some { p with likes := pull p.likes userId, updatedAt := now1 } := by
        rw [projectLike_of_liked now1 userId hv hf hm]
        exact findById_update_same _ (fun _ => rfl) hf
      have hnot : userId ∉ pull p.likes userId := by
        rw [mem_pull]
        exact fun h => h.2 rfl
      refine ⟨{ p with likes := addToSet (pull p.likes userId) userId, updatedAt := now2 },
        ?_, ?_, ?_, ?_⟩
      · rw [projectLike_of_not_liked now2 userId hv hf1 hnot]
        exact findById_update_same
          (fun q : Project => { q with likes := addToSet q.likes userId, updatedAt := now2 })
          (fun _ => rfl) hf1
      · simp [hm, mem_addToSet_self]
      · exact length_addToSet_pull p.likes userId hn hm
      · rw [projectLike_of_not_liked now2 userId hv hf1 hnot, hus]
        simp [hm, length_populateLikes_addToSet_pull s.users p.likes userId hn hm]
    · have hf1 : findById (projectLike now1 (some userId) id s).2.projects (castObjectId id) =
          some { p with likes := addToSet p.likes userId, updatedAt := now1 } := by
        rw [projectLike_of_not_liked now1 userId hv hf hm]
        exact findById_update_same _ (fun _ => rfl) hf
      have hin : userId ∈ addToSet p.likes userId := mem_addToSet_self p.likes userId
      refine ⟨{ p with likes := pull (addToSet p.likes userId) userId, updatedAt := now2 },
        ?_, ?_, ?_, ?_⟩
      · rw [projectLike_of_liked now2 userId hv hf1 hin]
        exact findById_update_same
          (fun q : Project => { q with likes := pull q.likes userId, updatedAt := now2 })
          (fun _ => rfl) hf1
      · simp [pull_addToSet p.likes userId hm]
      · simp [pull_addToSet p.likes userId hm]
      · rw [projectLike_of_liked now2 userId hv hf1 hin, hus]
        simp [hm, pull_addToSet p.likes userId hm]
  · intro f hf
    have hn := hw.forumLikes f (findById_mem hf)
    by_cases hm : userId ∈ f.likes
    · have hf1 : findById (forumLike now1 (some userId) id s).2.forums (castObjectId id) =
          some { f with likes := pull f.likes userId, updatedAt := now1 } := by
        rw [forumLike_of_liked now1 userId hv hf hm]
        exact findById_update_same _ (fun _ => rfl) hf
      have hnot : userId ∉ pull f.likes userId := by
        rw [mem_pull]
        exact fun h => h.2 rfl
      refine ⟨{ f with likes := addToSet (pull f.likes userId) userId, updatedAt := now2 },
        ?_, ?_, ?_, ?_⟩
      · rw [forumLike_of_not_liked now2 userId hv hf1 hnot]
        exact findById_update_same
          (fun q : Forum => { q with likes := addToSet q.likes userId, updatedAt := now2 })
          (fun _ => rfl) hf1
      · simp [hm, mem_addToSet_self]
      · exact length_addToSet_pull f.likes userId hn hm
      · rw [forumLike_of_not_liked now2 userId hv hf1 hnot]
        simp [hm, length_addToSet_pull f.likes userId hn hm]
    · have hf1 : findById (forumLike now1 (some userId) id s).2.forums (castObjectId id) =
          some { f with likes := addToSet f.likes userId, updatedAt := now1 } := by
        rw [forumLike_of_not_liked now1 userId hv hf hm]
        exact findById_update_same _ (fun _ => rfl) hf
      have hin : userId ∈ addToSet f.likes userId := mem_addToSet_self f.likes userId
      refine ⟨{ f with likes := pull (addToSet f.likes userId) userId, updatedAt := now2 },
        ?_, ?_, ?_, ?_⟩
      · rw [forumLike_of_liked now2 userId hv hf1 hin]
        exact findById_update_same
          (fun q : Forum => { q with likes := pull q.likes userId, updatedAt := now2 })
          (fun _ => rfl) hf1
      · simp [pull_addToSet f.likes userId hm]
      · simp [pull_addToSet f.likes userId hm]
      · rw [forumLike_of_liked now2 userId hv hf1 hin]
        simp [hm, pull_addToSet f.likes userId hm]

/-- C6: after two toggles in a row the like route of projects does not report
the number of likes from before the first one.  In the store reached from the
sample store by a like of bob on the sample project and on the sample forum,
which holds no user document, alice toggles twice on the project, at times 12
and 13: the likes are `[bob]` before and after, and the second reply reports
`likesCount` 0, the length of the like array after `populate`.  The forum
route reports 1 for the same two requests on the sample forum. -/
theorem projectLike_twice_reports_populated_count :
    Reachable bothLikedStore ∧
    (findById bothLikedStore.projects (castObjectId "0000000000000000000000a1")).map
        (fun p => p.likes) = some [bob] ∧
    (findById (projectLike 13 (some alice) "0000000000000000000000a1"
        (projectLike 12 (some alice) "0000000000000000000000a1" bothLikedStore).2).2.projects
        (castObjectId "0000000000000000000000a1")).map (fun p => p.likes) = some [bob] ∧
    (projectLike 13 (some alice) "0000000000000000000000a1"
        (projectLike 12 (some alice) "0000000000000000000000a1" bothLikedStore).2).1 =
      ⟨200, .like "Project unliked" 0⟩ ∧
    (findById bothLikedStore.forums (castObjectId "0000000000000000000000b2")).map
        (fun f => f.likes) = some [bob] ∧
    (forumLike 13 (some alice) "0000000000000000000000b2"
        (forumLike 12 (some alice) "0000000000000000000000b2" bothLikedStore).2).1 =
      ⟨200, .like "Forum unliked successfully." 1⟩ :=
  ⟨Reachable.step 11 0 (.forumLike (some bob) "0000000000000000000000b2") likedStore
      (Reachable.step 10 0 (.projectLike (some bob) "0000000000000000000000a1") sampleStore
        sampleStore_reachable),
    by decide, by decide, by decide, by decide, by decide⟩

/-- C7: for a well-formed id that names no stored project (forum) and any
authenticated user, the like route answers 404 and leaves the store as it
was. -/
theorem toggleLike_missing_is_404 (s : Store) (userId : ObjectId) (id : String) (now : Nat)
    (hv : isValidObjectId id = true) :
    (findById s.projects (castObjectId id) = none →
        projectLike now (some userId) id s = (⟨404, .message "Project not found."⟩, s)) ∧
    (findById s.forums (castObjectId id) = none →
        forumLike now (some userId) id s = (⟨404, .message "Forum not found."⟩, s)) := by
  have hv2 : forumIdSchema id = true := hv
  refine ⟨?_, ?_⟩
  · intro hf
    simp [projectLike, hv, hf]
  · intro hf
    simp [forumLike, hv, hv2, hf]

/-- Witness of C7 on the sample store: no project and no forum has the id
`0000000000000000000000ee`. -/
theorem toggleLike_missing_is_404_witness :
    projectLike 9 (some bob) "0000000000000000000000ee" sampleStore =
        (⟨404, .message "Project not found."⟩, sampleStore) ∧
    forumLike 9 (some bob) "0000000000000000000000ee" sampleStore =
        (⟨404, .message "Forum not found."⟩, sampleStore) :=
  ⟨(toggleLike_missing_is_404 sampleStore bob "0000000000000000000000ee" 9 (by decide)).1
      (by decide),
    (toggleLike_missing_is_404 sampleStore bob "0000000000000000000000ee" 9 (by decide)).2
      (by decide)⟩

/-! ### Comments -/

/-- C8: for any authenticated subject and any content, a comment creation whose
projectId and forumId are both supplied (both carry a non-empty value, the test
the handler makes) or both not supplied answers 400 and leaves the store, so
the stored comments, as it was. -/
theorem commentCreate_both_or_neither_is_400 (s : Store) (authorId : ObjectId) (now : Nat)
    (newId : ObjectId) (body : CommentBody)
    (h : (truthy body.projectId = true ∧ truthy body.forumId = true) ∨
      (truthy body.projectId = false ∧ truthy body.forumId = false)) :
    (commentCreate now newId (some authorId) body s).1.status = 400 ∧
      (commentCreate now newId (some authorId) body s).2 = s := by
  unfold commentCreate
  by_cases hc : truthy body.content = true
  · rcases h with ⟨h1, h2⟩ | ⟨h1, h2⟩ <;> simp [hc, h1, h2]
  · simp [hc]

/-- Witness of C8: both parents supplied, with some content and a fresh id. -/
theorem commentCreate_both_or_neither_is_400_witness :
    (commentCreate 9 200 (some bob)
        ⟨some "hello", some "0000000000000000000000a1", some "0000000000000000000000b2"⟩
        sampleStore).1.status = 400 ∧
      (commentCreate 9 200 (some bob)
        ⟨some "hello", some "0000000000000000000000a1", some "0000000000000000000000b2"⟩
        sampleStore).2 = sampleStore :=
  commentCreate_both_or_neither_is_400 sampleStore bob 9 200
    ⟨some "hello", some "0000000000000000000000a1", some "0000000000000000000000b2"⟩
    (Or.inl ⟨by decide, by decide⟩)

theorem truthy_of_isValidObjectId {x : String} (h : isValidObjectId x = true) :
    truthy (some x) = true := by
  simp only [isValidObjectId, Bool.and_eq_true, beq_iff_eq] at h
  simp only [truthy]
  cases hx : x.data with
  | nil => simp [hx] at h
  | cons a l => simp

theorem truthy_of_required_trim {x : String} (h : requiredString (some (jsTrim x)) = true) :
    truthy (some x) = true := by
  simp only [requiredString, jsTrim] at h
  simp only [truthy]
  cases hx : x.data with
  | nil => simp [hx] at h
  | cons a l => simp

/-- C9 fails as stated: bob comments on the stored sample project with a
content of one space, which is not empty; the content is empty once trimmed,
validation fails, the answer is 400 and no comment is added. -/
theorem commentCreate_blank_content_is_400 :
    findById sampleStore.projects (castObjectId "0000000000000000000000a1") =
        some sampleProject ∧
      findById sampleStore.comments 200 = none ∧
      commentCreate 9 200 (some bob) ⟨some " ", some "0000000000000000000000a1", none⟩
          sampleStore =
        (⟨400, .validationError "Comment validation failed: content: Path `content` is required."⟩, sampleStore) := by
  decide

/-- C9 as amended: for a comment creation whose content is non-empty once
trimmed and that names exactly one parent by a well-formed id (the other parent
property is missing or empty): when the id names no stored project (forum) the
answer is 404 and the store is as it was; otherwise (the generated id not yet
being in the collection) the answer is 201 and exactly one comment is appended,
with the trimmed content, the subject as author, the given project (forum) as
parent and the other parent reference unset. -/
theorem commentCreate_checks_parent_then_stores (s : Store) (authorId : ObjectId) (now : Nat)
    (newId : ObjectId) (content parentId : String) (other : Option String)
    (hc : requiredString (some (jsTrim content)) = true)
    (hv : isValidObjectId parentId = true) (ho : truthy other = false) :
    (findById s.projects (castObjectId parentId) = none →
        commentCreate now newId (some authorId) ⟨some content, some parentId, other⟩ s =
          (⟨404, .message "Project not found."⟩, s)) ∧
    (∀ p : Project, findById s.projects (castObjectId parentId) = some p →
        findById s.comments newId = none →
        commentCreate now newId (some authorId) ⟨some content, some parentId, other⟩ s =
          (⟨201, .comment
              { _id := newId, content := jsTrim content, author := authorId,
                project := some (castObjectId parentId), forum := none, createdAt := now,
                updatedAt := now }⟩,
            { s with comments := s.comments ++ [
              { _id := newId, content := jsTrim content, author := authorId,
                project := some (castObjectId parentId), forum := none, createdAt := now,
                updatedAt := now }] })) ∧
    (findById s.forums (castObjectId parentId) = none →
        commentCreate now newId (some authorId) ⟨some content, other, some parentId⟩ s =
          (⟨404, .message "Forum not found."⟩, s)) ∧
    (∀ f : Forum, findById s.forums (castObjectId parentId) = some f →
        findById s.comments newId = none →
        commentCreate now newId (some authorId) ⟨some content, other, some parentId⟩ s =
          (⟨201, .comment
              { _id := newId, content := jsTrim content, author := authorId,
                project := none, forum := some (castObjectId parentId), createdAt := now,
                updatedAt := now }⟩,
            { s with comments := s.comments ++ [
              { _id := newId, content := jsTrim content, author := authorId,
                project := none, forum := some (castObjectId parentId), createdAt := now,
                updatedAt := now }] })) := by
  have htc := truthy_of_required_trim hc
  have htp := truthy_of_isValidObjectId hv
  refine ⟨?_, ?_, ?_, ?_⟩
  · intro hf
    simp [commentCreate, checkParentExists, htc, htp, ho, hv, hf]
  · intro p hf hfresh
    have hfresh2 : findById s.comments (Document.oid
        ({ _id := newId, content := jsTrim content, author := authorId,
           project := some (castObjectId parentId), forum := none, createdAt := now,
           updatedAt := now } : Comment)) = none := hfresh
    have hfound := findById_append_fresh s.comments _ hfresh2
    have hins := insertDoc_of_fresh s.comments _ hfresh2
    have hfound2 : findById (s.comments ++ [
        ({ _id := newId, content := jsTrim content, author := authorId,
           project := some (castObjectId parentId), forum := none, createdAt := now,
           updatedAt := now } : Comment)]) newId = some _ := hfound
    simp [commentCreate, checkParentExists, newComment, commentPreValidate, htc, htp, ho, hv,
      hf, hc, hins, hfound2]
  · intro hf
    simp [commentCreate, checkParentExists, htc, htp, ho, hv, hf]
  · intro f hf hfresh
    have hfresh2 : findById s.comments (Document.oid
        ({ _id := newId, content := jsTrim content, author := authorId,
           project := none, forum := some (castObjectId parentId), createdAt := now,
           updatedAt := now } : Comment)) = none := hfresh
    have hfound := findById_append_fresh s.comments _ hfresh2
    have hins := insertDoc_of_fresh s.comments _ hfresh2
    have hfound2 : findById (s.comments ++ [
        ({ _id := newId, content := jsTrim content, author := authorId,
           project := none, forum := some (castObjectId parentId), createdAt := now,
           updatedAt := now } : Comment)]) newId = some _ := hfound
    simp [commentCreate, checkParentExists, newComment, commentPreValidate, htc, htp, ho, hv,
      hf, hc, hins, hfound2]

/-- Witness of C9 as amended on the sample store: bob comments on the sample
project and on the sample forum, and on ids that name nothing. -/
theorem commentCreate_checks_parent_then_stores_witness :
    commentCreate 9 200 (some bob) ⟨some " hi ", some "0000000000000000000000ee", none⟩
        sampleStore = (⟨404, .message "Project not found."⟩, sampleStore) ∧
    commentCreate 9 200 (some bob) ⟨some " hi ", some "0000000000000000000000a1", none⟩
        sampleStore =
      (⟨201, .comment
          { _id := 200, content := jsTrim " hi ", author := bob,
            project := some (castObjectId "0000000000000000000000a1"), forum := none,
            createdAt := 9, updatedAt := 9 }⟩,
        { sampleStore with comments := sampleStore.comments ++ [
          { _id := 200, content := jsTrim " hi ", author := bob,
            project := some (castObjectId "0000000000000000000000a1"), forum := none,
            createdAt := 9, updatedAt := 9 }] }) ∧
    commentCreate 9 200 (some bob) ⟨some " hi ", some "", some "0000000000000000000000ee"⟩
        sampleStore = (⟨404, .message "Forum not found."⟩, sampleStore) ∧
    commentCreate 9 200 (some bob) ⟨some " hi ", some "", some "0000000000000000000000b2"⟩
        sampleStore =
      (⟨201, .comment
          { _id := 200, content := jsTrim " hi ", author := bob, project := none,
            forum := some (castObjectId "0000000000000000000000b2"), createdAt := 9,
            updatedAt := 9 }⟩,
        { sampleStore with comments := sampleStore.comments ++ [
          { _id := 200, content := jsTrim " hi ", author := bob, project := none,
            forum := some (castObjectId "0000000000000000000000b2"), createdAt := 9,
            updatedAt := 9 }] }) :=
  ⟨(commentCreate_checks_parent_then_stores sampleStore bob 9 200 " hi "
      "0000000000000000000000ee" none (by decide) (by decide) (by decide)).1 (by decide),
    (commentCreate_checks_parent_then_stores sampleStore bob 9 200 " hi "
      "0000000000000000000000a1" none (by decide) (by decide) (by decide)).2.1
      sampleProject (by decide) (by decide),
    (commentCreate_checks_parent_then_stores sampleStore bob 9 200 " hi "
      "0000000000000000000000ee" (some "") (by decide) (by decide) (by decide)).2.2.1
      (by decide),
    (commentCreate_checks_parent_then_stores sampleStore bob 9 200 " hi "
      "0000000000000000000000b2" (some "") (by decide) (by decide) (by decide)).2.2.2
      sampleForum (by decide) (by decide)⟩

/-- C10: in every store reachable from the empty store through the project,
forum and comment requests, every stored comment has exactly one of its
project and forum references set: never both, never neither. -/
theorem reachable_comments_have_exactly_one_parent [JsRuntime] (s : Store) (hr : Reachable s) :
    ∀ c ∈ s.comments,
      (c.project.isSome = true ∧ c.forum = none) ∨ (c.project = none ∧ c.forum.isSome = true) :=
  fun c hc => (reachable_wellFormed hr).commentParent c hc

/-- Witness of C10 on the sample store, which is reachable and holds a
comment. -/
theorem reachable_comments_have_exactly_one_parent_witness :
    sampleStore.comments ≠ [] ∧
      ∀ c ∈ sampleStore.comments,
        (c.project.isSome = true ∧ c.forum = none) ∨
          (c.project = none ∧ c.forum.isSome = true) :=
  ⟨by decide, reachable_comments_have_exactly_one_parent sampleStore sampleStore_reachable⟩

/-! ### Listing -/

theorem sortCommentsAsc_perm (xs : List Comment) : (sortCommentsAsc xs).Perm xs :=
  List.perm_insertionSort _ xs

theorem sortCommentsAsc_sorted (xs : List Comment) :
    (sortCommentsAsc xs).Sorted (fun a b => a.createdAt ≤ b.createdAt) := by
  have htotal : IsTotal Comment (fun a b => a.createdAt ≤ b.createdAt) :=
    ⟨fun a b => Nat.le_total a.createdAt b.createdAt⟩
  have htrans : IsTrans Comment (fun a b => a.createdAt ≤ b.createdAt) :=
    ⟨fun _ _ _ h1 h2 => Nat.le_trans h1 h2⟩
  exact List.sorted_insertionSort _ xs

/-- C11: the comment listing answers 400 when neither or both of projectId and
forumId are given (carry a non-empty value) and when the one given id is not
a well-formed ObjectId; otherwise it answers 200 with exactly the stored
comments whose project (forum) reference is the given id, oldest first. -/
theorem commentList_filters_and_sorts (s : Store) (id : String) (other : Option String) :
    (∀ a b : Option String, truthy a = false → truthy b = false →
        (commentList a b s).status = 400) ∧
    (∀ a b : Option String, truthy a = true → truthy b = true →
        (commentList a b s).status = 400) ∧
    (truthy (some id) = true → truthy other = false → isValidObjectId id = false →
        (commentList (some id) other s).status = 400 ∧
        (commentList other (some id) s).status = 400) ∧
    (isValidObjectId id = true → truthy other = false →
        (∃ docs : List Comment,
          commentList (some id) other s = ⟨200, .comments docs⟩ ∧
          docs.Perm (s.comments.filter (fun c => c.project == some (castObjectId id))) ∧
          docs.Sorted (fun a b => a.createdAt ≤ b.createdAt)) ∧
        (∃ docs : List Comment,
          commentList other (some id) s = ⟨200, .comments docs⟩ ∧
          docs.Perm (s.comments.filter (fun c => c.forum == some (castObjectId id))) ∧
          docs.Sorted (fun a b => a.createdAt ≤ b.createdAt))) := by
  refine ⟨?_, ?_, ?_, ?_⟩
  · intro a b ha hb
    simp [commentList, ha, hb]
  · intro a b ha hb
    simp [commentList, ha, hb]
  · intro ht ho hv
    simp [commentList, ht, ho, hv]
  · intro hv ho
    have ht : truthy (some id) = true := by
      simp only [isValidObjectId, Bool.and_eq_true, beq_iff_eq] at hv
      simp only [truthy]
      cases hx : id.data with
      | nil => simp [hx] at hv
      | cons a l => simp
    refine ⟨⟨_, ?_, sortCommentsAsc_perm _, sortCommentsAsc_sorted _⟩,
      ⟨_, ?_, sortCommentsAsc_perm _, sortCommentsAsc_sorted _⟩⟩
    · simp [commentList, ht, ho, hv]
    · simp [commentList, ht, ho, hv]

/-- Witness of C11 on the sample store: no filter, both filters, a malformed
id, and the comments of the sample project and of the sample forum. -/
theorem commentList_filters_and_sorts_witness :
    (commentList none (some "") sampleStore).status = 400 ∧
    (commentList (some "0000000000000000000000a1") (some "0000000000000000000000b2")
      sampleStore).status = 400 ∧
    ((commentList (some "xyz") none sampleStore).status = 400 ∧
      (commentList none (some "xyz") sampleStore).status = 400) ∧
    ((∃ docs : List Comment,
        commentList (some "0000000000000000000000a1") none sampleStore =
          ⟨200, .comments docs⟩ ∧
        docs.Perm (sampleStore.comments.filter
          (fun c => c.project == some (castObjectId "0000000000000000000000a1"))) ∧
        docs.Sorted (fun a b => a.createdAt ≤ b.createdAt)) ∧
      (∃ docs : List Comment,
        commentList none (some "0000000000000000000000a1") sampleStore =
          ⟨200, .comments docs⟩ ∧
        docs.Perm (sampleStore.comments.filter
          (fun c => c.forum == some (castObjectId "0000000000000000000000a1"))) ∧
        docs.Sorted (fun a b => a.createdAt ≤ b.createdAt))) :=
  ⟨(commentList_filters_and_sorts sampleStore "xyz" none).1 none (some "")
      (by decide) (by decide),
    (commentList_filters_and_sorts sampleStore "xyz" none).2.1
      (some "0000000000000000000000a1") (some "0000000000000000000000b2")
      (by decide) (by decide),
    (commentList_filters_and_sorts sampleStore "xyz" none).2.2.1
      (by decide) (by decide) (by decide),
    (commentList_filters_and_sorts sampleStore "0000000000000000000000a1" none).2.2.2
      (by decide) (by decide)⟩

theorem ceilDiv_eq_ceil (n l : Nat) (hl : 1 ≤ l) :
    ceilDiv (n : Int) (l : Int) = ⌈(n : ℚ) / (l : ℚ)⌉ := by
  unfold ceilDiv
  rw [Int.fdiv_eq_ediv _ (by omega : (0 : Int) ≤ (l : Int))]
  have h := Rat.floor_intCast_div_natCast (-(n : ℤ)) l
  have h2 : ((-(n : ℤ) : ℤ) : ℚ) / (l : ℚ) = -((n : ℚ) / (l : ℚ)) := by
    push_cast
    ring
  rw [h2, Int.floor_neg] at h
  omega

theorem skip_toNat (page limit : Nat) (hp : 1 ≤ page) :
    (((page : Int) - 1) * (limit : Int)).toNat = (page - 1) * limit := by
  have h : ((page : Int) - 1) * (limit : Int) = (((page - 1) * limit : Nat) : Int) := by
    push_cast [Nat.cast_sub hp]
    ring
  rw [h]
  exact Int.toNat_natCast _

theorem skip_nonneg (page limit : Nat) (hp : 1 ≤ page) :
    ¬ (((page : Int) - 1) * (limit : Int) < 0) := by
  have h : ((page : Int) - 1) * (limit : Int) = (((page - 1) * limit : Nat) : Int) := by
    push_cast [Nat.cast_sub hp]
    ring
  rw [h]
  omega

theorem orDefault_pos (n : Nat) (h : 1 ≤ n) (fallback : Int) :
    orDefault (some (n : Int)) fallback = (n : Int) := by
  have hne : ¬ ((n : Int) = 0) := by omega
  simp [orDefault, hne]

theorem sortProjectsDesc_perm (xs : List Project) : (sortProjectsDesc xs).Perm xs :=
  List.perm_insertionSort _ xs

theorem sortProjectsDesc_sorted (xs : List Project) :
    (sortProjectsDesc xs).Sorted (fun a b => b.createdAt ≤ a.createdAt) := by
  have htotal : IsTotal Project (fun a b => b.createdAt ≤ a.createdAt) :=
    ⟨fun a b => Nat.le_total b.createdAt a.createdAt⟩
  have htrans : IsTrans Project (fun a b => b.createdAt ≤ a.createdAt) :=
    ⟨fun _ _ _ h1 h2 => Nat.le_trans h2 h1⟩
  exact List.sorted_insertionSort _ xs

theorem sortForumsDesc_perm (xs : List Forum) : (sortForumsDesc xs).Perm xs :=
  List.perm_insertionSort _ xs

theorem sortForumsDesc_sorted (xs : List Forum) :
    (sortForumsDesc xs).Sorted (fun a b => b.createdAt ≤ a.createdAt) := by
  have htotal : IsTotal Forum (fun a b => b.createdAt ≤ a.createdAt) :=
    ⟨fun a b => Nat.le_total b.createdAt a.createdAt⟩
  have htrans : IsTrans Forum (fun a b => b.createdAt ≤ a.createdAt) :=
    ⟨fun _ _ _ h1 h2 => Nat.le_trans h2 h1⟩
  exact List.sorted_insertionSort _ xs

theorem projectList_in_range (s : Store) (page limit : Nat) (hp : 1 ≤ page) (hl : 1 ≤ limit) :
    projectList (some (page : Int)) (some (limit : Int)) s =
      ⟨200, .projectPage
        (((sortProjectsDesc s.projects).drop ((page - 1) * limit)).take limit)
        page ⌈(s.projects.length : ℚ) / (limit : ℚ)⌉ s.projects.length limit⟩ := by
  unfold projectList
  rw [orDefault_pos page hp, orDefault_pos limit hl, if_neg (skip_nonneg page limit hp),
    skip_toNat page limit hp, ceilDiv_eq_ceil _ _ hl]
  simp

theorem forumList_in_range (s : Store) (page limit : Nat) (hp : 1 ≤ page) (hl : 1 ≤ limit)
    (hl2 : limit ≤ 100) :
    forumList (some (page : Int)) (some (limit : Int)) s =
      ⟨200, .forumPage
        (((sortForumsDesc s.forums).drop ((page - 1) * limit)).take limit)
        page ⌈(s.forums.length : ℚ) / (limit : ℚ)⌉ s.forums.length limit⟩ := by
  have hsch : paginationQuerySchema (some (page : Int)) (some (limit : Int)) = true := by
    simp only [paginationQuerySchema, Bool.and_eq_true, decide_eq_true_eq]
    omega
  unfold forumList
  simp only [hsch, Option.getD_some, Bool.not_true, Bool.false_eq_true, if_false]
  rw [if_neg (skip_nonneg page limit hp), skip_toNat page limit hp, ceilDiv_eq_ceil _ _ hl]
  simp

/-- C12: for a page of at least 1 and a limit from 1 to 100, the project
(forum) listing answers 200 with the items at offsets (page-1)*limit up to
page*limit of the collection sorted by creation time, newest first, so with
min(limit, N-(page-1)*limit) items (the difference cut at 0), together with
totalPages = ceil(N/limit) and the total N; with 25 items, page 2 and limit 10
it returns 10 items and totalPages 3. -/
theorem list_returns_requested_page (s : Store) (page limit : Nat) (hp : 1 ≤ page)
    (hl : 1 ≤ limit) (hl2 : limit ≤ 100) :
    (∃ sorted data : List Project,
      sorted.Perm s.projects ∧ sorted.Sorted (fun a b => b.createdAt ≤ a.createdAt) ∧
      data = (sorted.drop ((page - 1) * limit)).take limit ∧
      data.length = min limit (s.projects.length - (page - 1) * limit) ∧
      projectList (some (page : Int)) (some (limit : Int)) s =
        ⟨200, .projectPage data page ⌈(s.projects.length : ℚ) / (limit : ℚ)⌉
          s.projects.length limit⟩) ∧
    (∃ sorted data : List Forum,
      sorted.Perm s.forums ∧ sorted.Sorted (fun a b => b.createdAt ≤ a.createdAt) ∧
      data = (sorted.drop ((page - 1) * limit)).take limit ∧
      data.length = min limit (s.forums.length - (page - 1) * limit) ∧
      forumList (some (page : Int)) (some (limit : Int)) s =
        ⟨200, .forumPage data page ⌈(s.forums.length : ℚ) / (limit : ℚ)⌉
          s.forums.length limit⟩) ∧
    (s.projects.length = 25 →
      ∃ data : List Project,
        projectList (some 2) (some 10) s = ⟨200, .projectPage data 2 3 25 10⟩ ∧
        data.length = 10) ∧
    (s.forums.length = 25 →
      ∃ data : List Forum,
        forumList (some 2) (some 10) s = ⟨200, .forumPage data 2 3 25 10⟩ ∧
        data.length = 10) := by
  have hc : ⌈((25 : ℕ) : ℚ) / ((10 : ℕ) : ℚ)⌉ = 3 := by
    rw [← ceilDiv_eq_ceil 25 10 (by omega)]
    decide
  refine ⟨?_, ?_, ?_, ?_⟩
  · refine ⟨sortProjectsDesc s.projects, _, sortProjectsDesc_perm _, sortProjectsDesc_sorted _,
      rfl, ?_, projectList_in_range s page limit hp hl⟩
    rw [List.length_take, List.length_drop, (sortProjectsDesc_perm s.projects).length_eq]
  · refine ⟨sortForumsDesc s.forums, _, sortForumsDesc_perm _, sortForumsDesc_sorted _,
      rfl, ?_, forumList_in_range s page limit hp hl hl2⟩
    rw [List.length_take, List.length_drop, (sortForumsDesc_perm s.forums).length_eq]
  · intro h25
    have h := projectList_in_range s 2 10 (by omega) (by omega)
    rw [h25, hc] at h
    refine ⟨((sortProjectsDesc s.projects).drop ((2 - 1) * 10)).take 10, ?_, ?_⟩
    · simpa using h
    · rw [List.length_take, List.length_drop, (sortProjectsDesc_perm s.projects).length_eq, h25]
      decide
  · intro h25
    have h := forumList_in_range s 2 10 (by omega) (by omega) (by omega)
    rw [h25, hc] at h
    refine ⟨((sortForumsDesc s.forums).drop ((2 - 1) * 10)).take 10, ?_, ?_⟩
    · simpa using h
    · rw [List.length_take, List.length_drop, (sortForumsDesc_perm s.forums).length_eq, h25]
      decide

/-- Witness of C12 on the store with 25 projects and 25 forums: page 2 with
limit 10. -/
theorem list_returns_requested_page_witness :
    (∃ sorted data : List Project,
      sorted.Perm manyProjectsStore.projects ∧
      sorted.Sorted (fun a b => b.createdAt ≤ a.createdAt) ∧
      data = (sorted.drop ((2 - 1) * 10)).take 10 ∧
      data.length = min 10 (manyProjectsStore.projects.length - (2 - 1) * 10) ∧
      projectList (some ((2 : Nat) : Int)) (some ((10 : Nat) : Int)) manyProjectsStore =
        ⟨200, .projectPage data (2 : Nat)
          ⌈(manyProjectsStore.projects.length : ℚ) / ((10 : Nat) : ℚ)⌉
          manyProjectsStore.projects.length (10 : Nat)⟩) ∧
    (∃ data : List Project,
      projectList (some 2) (some 10) manyProjectsStore = ⟨200, .projectPage data 2 3 25 10⟩ ∧
      data.length = 10) ∧
    (∃ data : List Forum,
      forumList (some 2) (some 10) manyProjectsStore = ⟨200, .forumPage data 2 3 25 10⟩ ∧
      data.length = 10) :=
  ⟨(list_returns_requested_page manyProjectsStore 2 10 (by decide) (by decide) (by decide)).1,
    (list_returns_requested_page manyProjectsStore 2 10 (by decide) (by decide)
      (by decide)).2.2.1 (by decide),
    (list_returns_requested_page manyProjectsStore 2 10 (by decide) (by decide)
      (by decide)).2.2.2 (by decide)⟩

/-! ### Update and delete frames -/

/-- C13 fails as stated: alice renames her sample project at time 9; the update
succeeds and the stored project changes in `updatedAt` (5 before, 9 after),
which is not in the allow-list. -/
theorem update_also_changes_updatedAt :
    (projectUpdate 9 (some alice) "0000000000000000000000a1" renameProjectBody
        sampleStore).1.status = 200 ∧
      findById sampleStore.projects (castObjectId "0000000000000000000000a1") =
        some sampleProject ∧
      findById (projectUpdate 9 (some alice) "0000000000000000000000a1" renameProjectBody
          sampleStore).2.projects (castObjectId "0000000000000000000000a1") =
        some { sampleProject with title := "Renamed", updatedAt := 9 } ∧
      sampleProject.updatedAt = 5 := by
  decide

theorem projectUpdate_status_200 [JsRuntime]
    {s : Store} {userId : ObjectId} {id : String} {now : Nat}
    {p : Project} {body : ProjectBody} (hv : isValidObjectId id = true)
    (hf : findById s.projects (castObjectId id) = some p) (ho : p.owner = userId)
    (h200 : (projectUpdate now (some userId) id body s).1.status = 200) :
    (projectUpdate now (some userId) id body s).2 =
      { s with projects :=
        (findByIdAndUpdate s.projects (castObjectId id) (applyProjectUpdates now body)).2 } := by
  have hb : (p.owner == userId) = true := by simpa using ho
  have h1 := findByIdAndUpdate_fst (applyProjectUpdates now body) hf
  rcases hupd : findByIdAndUpdate s.projects (castObjectId id) (applyProjectUpdates now body)
    with ⟨a, b⟩
  rw [hupd] at h1
  simp only at h1
  subst h1
  by_cases hval : validateUpdates body.title body.description = true
  · simp [projectUpdate, checkProjectOwnership, hv, hf, hb, hval, hupd]
  · simp [projectUpdate, checkProjectOwnership, hv, hf, hb, hval] at h200

theorem forumUpdate_status_200 {s : Store} {userId : ObjectId} {id : String} {now : Nat}
    {f : Forum} {body : ForumBody} (hv : isValidObjectId id = true)
    (hf : findById s.forums (castObjectId id) = some f) (ho : f.owner = userId)
    (h200 : (forumUpdate now (some userId) id body s).1.status = 200) :
    (forumUpdate now (some userId) id body s).2 =
      { s with forums :=
        (findByIdAndUpdate s.forums (castObjectId id) (applyForumUpdates now body)).2 } := by
  have hb : (f.owner == userId) = true := by simpa using ho
  have h1 := findByIdAndUpdate_fst (applyForumUpdates now body) hf
  rcases hupd : findByIdAndUpdate s.forums (castObjectId id) (applyForumUpdates now body)
    with ⟨a, b⟩
  rw [hupd] at h1
  simp only at h1
  subst h1
  by_cases hsch : updateForumSchema id body = true
  · by_cases hnone : (body.title.isNone && body.description.isNone) = true
    · simp [forumUpdate, checkForumOwnership, hsch, hv, hf, hb, hnone] at h200
    · by_cases hval : validateUpdates body.title body.description = true
      · simp [forumUpdate, checkForumOwnership, hsch, hv, hf, hb, hnone, hval, hupd]
      · simp [forumUpdate, checkForumOwnership, hsch, hv, hf, hb, hnone, hval] at h200
  · simp [forumUpdate, hsch, schemaRejected] at h200

/-- C13 as amended: a successful update (200) of a stored project (forum) by its
owner leaves its id, owner, likes and `createdAt` as they were, whatever the
body carries, sets `updatedAt` to the time of the call, leaves every field of
the allow-list that the body does not set as it was, and changes no other
stored project (forum), forum (project), comment or user. -/
theorem update_changes_only_allowed_fields [JsRuntime] (s : Store) (userId : ObjectId) (id : String)
    (now : Nat) (hv : isValidObjectId id = true) :
    (∀ (p : Project) (body : ProjectBody),
        findById s.projects (castObjectId id) = some p → p.owner = userId →
        (projectUpdate now (some userId) id body s).1.status = 200 →
        ∃ q : Project,
          findById (projectUpdate now (some userId) id body s).2.projects (castObjectId id) =
            some q ∧
          q._id = p._id ∧ q.owner = p.owner ∧ q.likes = p.likes ∧ q.createdAt = p.createdAt ∧
          q.updatedAt = now ∧
          (body.title = none → q.title = p.title) ∧
          (body.description = none → q.description = p.description) ∧
          (body.tags = none → q.tags = p.tags) ∧
          (body.repoUrl = none → q.repoUrl = p.repoUrl) ∧
          (body.liveUrl = none → q.liveUrl = p.liveUrl) ∧
          (∀ other, other ≠ castObjectId id →
            findById (projectUpdate now (some userId) id body s).2.projects other =
              findById s.projects other) ∧
          (projectUpdate now (some userId) id body s).2.forums = s.forums ∧
          (projectUpdate now (some userId) id body s).2.comments = s.comments ∧
          (projectUpdate now (some userId) id body s).2.users = s.users) ∧
    (∀ (f : Forum) (body : ForumBody),
        findById s.forums (castObjectId id) = some f → f.owner = userId →
        (forumUpdate now (some userId) id body s).1.status = 200 →
        ∃ g : Forum,
          findById (forumUpdate now (some userId) id body s).2.forums (castObjectId id) =
            some g ∧
          g._id = f._id ∧ g.owner = f.owner ∧ g.likes = f.likes ∧ g.createdAt = f.createdAt ∧
          g.updatedAt = now ∧
          (body.title = none → g.title = f.title) ∧
          (body.description = none → g.description = f.description) ∧
          (∀ other, other ≠ castObjectId id →
            findById (forumUpdate now (some userId) id body s).2.forums other =
              findById s.forums other) ∧
          (forumUpdate now (some userId) id body s).2.projects = s.projects ∧
          (forumUpdate now (some userId) id body s).2.comments = s.comments ∧
          (forumUpdate now (some userId) id body s).2.users = s.users) := by
  refine ⟨?_, ?_⟩
  · intro p body hf ho h200
    rw [projectUpdate_status_200 hv hf ho h200]
    refine ⟨applyProjectUpdates now body p,
      findById_update_same (applyProjectUpdates now body) (fun _ => rfl) hf,
      rfl, rfl, rfl, rfl, rfl, ?_, ?_, ?_, ?_, ?_, ?_, rfl, rfl, rfl⟩
    · intro h
      simp [applyProjectUpdates, h]
    · intro h
      simp [applyProjectUpdates, h]
    · intro h
      simp [applyProjectUpdates, h]
    · intro h
      simp [applyProjectUpdates, h]
    · intro h
      simp [applyProjectUpdates, h]
    · intro other hne
      exact findById_update_other _ _ _ _ (fun _ => rfl) hne
  · intro f body hf ho h200
    rw [forumUpdate_status_200 hv hf ho h200]
    refine ⟨applyForumUpdates now body f,
      findById_update_same (applyForumUpdates now body) (fun _ => rfl) hf,
      rfl, rfl, rfl, rfl, rfl, ?_, ?_, ?_, rfl, rfl, rfl⟩
    · intro h
      simp [applyForumUpdates, h]
    · intro h
      simp [applyForumUpdates, h]
    · intro other hne
      exact findById_update_other _ _ _ _ (fun _ => rfl) hne

/-- Witness of C13 as amended: alice renames her sample project and her sample
forum at time 9. -/
theorem update_changes_only_allowed_fields_witness :
    (∃ q : Project,
      findById (projectUpdate 9 (some alice) "0000000000000000000000a1" renameProjectBody sampleStore).2.projects (castObjectId "0000000000000000000000a1") =
        some q ∧
      q._id = sampleProject._id ∧ q.owner = sampleProject.owner ∧ q.likes = sampleProject.likes ∧
      q.createdAt = sampleProject.createdAt ∧ q.updatedAt = 9 ∧
      (renameProjectBody.title = none → q.title = sampleProject.title) ∧
      (renameProjectBody.description = none → q.description = sampleProject.description) ∧
      (renameProjectBody.tags = none → q.tags = sampleProject.tags) ∧
      (renameProjectBody.repoUrl = none → q.repoUrl = sampleProject.repoUrl) ∧
      (renameProjectBody.liveUrl = none → q.liveUrl = sampleProject.liveUrl) ∧
      (∀ other, other ≠ castObjectId "0000000000000000000000a1" →
        findById (projectUpdate 9 (some alice) "0000000000000000000000a1" renameProjectBody sampleStore).2.projects other =
          findById sampleStore.projects other) ∧
      (projectUpdate 9 (some alice) "0000000000000000000000a1" renameProjectBody sampleStore).2.forums = sampleStore.forums ∧
      (projectUpdate 9 (some alice) "0000000000000000000000a1" renameProjectBody sampleStore).2.comments = sampleStore.comments ∧
      (projectUpdate 9 (some alice) "0000000000000000000000a1" renameProjectBody sampleStore).2.users = sampleStore.users) ∧
    (∃ g : Forum,
      findById (forumUpdate 9 (some alice) "0000000000000000000000b2" renameForumBody sampleStore).2.forums (castObjectId "0000000000000000000000b2") =
        some g ∧
      g._id = sampleForum._id ∧ g.owner = sampleForum.owner ∧ g.likes = sampleForum.likes ∧
      g.createdAt = sampleForum.createdAt ∧ g.updatedAt = 9 ∧
      (renameForumBody.title = none → g.title = sampleForum.title) ∧
      (renameForumBody.description = none → g.description = sampleForum.description) ∧
      (∀ other, other ≠ castObjectId "0000000000000000000000b2" →
        findById (forumUpdate 9 (some alice) "0000000000000000000000b2" renameForumBody sampleStore).2.forums other =
          findById sampleStore.forums other) ∧
      (forumUpdate 9 (some alice) "0000000000000000000000b2" renameForumBody sampleStore).2.projects = sampleStore.projects ∧
      (forumUpdate 9 (some alice) "0000000000000000000000b2" renameForumBody sampleStore).2.comments = sampleStore.comments ∧
      (forumUpdate 9 (some alice) "0000000000000000000000b2" renameForumBody sampleStore).2.users = sampleStore.users) :=
  ⟨(update_changes_only_allowed_fields sampleStore alice "0000000000000000000000a1" 9
      (by decide)).1 sampleProject renameProjectBody (by decide) (by decide) (by decide),
    (update_changes_only_allowed_fields sampleStore alice "0000000000000000000000b2" 9
      (by decide)).2 sampleForum renameForumBody (by decide) (by decide) (by decide)⟩

/-- C14, evaluated on the sample store: alice updates her sample project with a
body that sets nothing, and with a body that carries only `owner` and `likes`;
the answer is 200, not 400, and the stored `updatedAt` moves from 5 to 9.  On
the sample forum the same two bodies are answered with 400 and nothing
changes. -/
theorem projectUpdate_without_fields_is_200 :
    projectUpdate 9 (some alice) "0000000000000000000000a1" emptyProjectBody sampleStore =
        (⟨200, .project { sampleProject with updatedAt := 9 }⟩,
          { sampleStore with projects := [{ sampleProject with updatedAt := 9 }] }) ∧
      projectUpdate 9 (some alice) "0000000000000000000000a1"
          ownerOnlyProjectBody sampleStore =
        (⟨200, .project { sampleProject with updatedAt := 9 }⟩,
          { sampleStore with projects := [{ sampleProject with updatedAt := 9 }] }) ∧
      sampleProject.updatedAt = 5 ∧
      forumUpdate 9 (some alice) "0000000000000000000000b2" emptyForumBody sampleStore =
        (⟨400, .schemaError⟩, sampleStore) ∧
      forumUpdate 9 (some alice) "0000000000000000000000b2"
          ownerOnlyForumBody sampleStore =
        (⟨400, .message "No valid fields provided for update."⟩, sampleStore) := by
  decide

theorem findById_delete_other {α : Type} [Document α] (xs : List α) (id other : ObjectId)
    (hne : other ≠ id) : findById (findByIdAndDelete xs id) other = findById xs other := by
  induction xs with
  | nil => rfl
  | cons y rest ih =>
    unfold findByIdAndDelete
    by_cases hy : (Document.oid y == id) = true
    · have hyo : ¬ (Document.oid y = other) := by
        intro h
        apply hne
        rw [← h]
        simpa using hy
      simp [hy, findById, hyo]
    · simp [hy, findById, ih]

theorem perm_cons_delete {α : Type} [Document α] {xs : List α} {id : ObjectId} {x : α}
    (h : findById xs id = some x) : xs.Perm (x :: findByIdAndDelete xs id) := by
  induction xs with
  | nil => simp [findById] at h
  | cons y rest ih =>
    unfold findById at h
    unfold findByIdAndDelete
    by_cases hy : (Document.oid y == id) = true
    · simp [hy] at h
      subst h
      simp [hy]
    · simp [hy] at h
      simp only [hy]
      exact (List.Perm.cons y (ih h)).trans (List.Perm.swap x y _)

/-- C20: in a reachable store, a delete of a stored project (forum) by its owner
answers 204 and removes exactly that document: the collection before is the
deleted document plus the collection after, a read of the id then answers
404, every other id reads as before, and the forums (projects), the users and
the comments, those of the deleted parent included, are as they were. -/
theorem delete_removes_exactly_that_entity [JsRuntime] (s : Store) (hr : Reachable s)
    (userId : ObjectId) (id : String) (hv : isValidObjectId id = true) :
    (∀ p : Project, findById s.projects (castObjectId id) = some p → p.owner = userId →
        (projectDelete (some userId) id s).1 = ⟨204, .empty⟩ ∧
        s.projects.Perm (p :: (projectDelete (some userId) id s).2.projects) ∧
        projectGetById id (projectDelete (some userId) id s).2 =
          ⟨404, .message "Project not found."⟩ ∧
        (∀ other, other ≠ castObjectId id →
          findById (projectDelete (some userId) id s).2.projects other =
            findById s.projects other) ∧
        (projectDelete (some userId) id s).2.forums = s.forums ∧
        (projectDelete (some userId) id s).2.users = s.users ∧
        (projectDelete (some userId) id s).2.comments = s.comments) ∧
    (∀ f : Forum, findById s.forums (castObjectId id) = some f → f.owner = userId →
        (forumDelete (some userId) id s).1 = ⟨204, .empty⟩ ∧
        s.forums.Perm (f :: (forumDelete (some userId) id s).2.forums) ∧
        forumGetById id (forumDelete (some userId) id s).2 =
          ⟨404, .message "Forum not found."⟩ ∧
        (∀ other, other ≠ castObjectId id →
          findById (forumDelete (some userId) id s).2.forums other =
            findById s.forums other) ∧
        (forumDelete (some userId) id s).2.projects = s.projects ∧
        (forumDelete (some userId) id s).2.users = s.users ∧
        (forumDelete (some userId) id s).2.comments = s.comments) := by
  have hw := reachable_wellFormed hr
  have hv2 : objectIdSchema id = true := hv
  refine ⟨?_, ?_⟩
  · intro p hf ho
    have hb : (p.owner == userId) = true := by simpa using ho
    have hdel : projectDelete (some userId) id s =
        (⟨204, .empty⟩,
          { s with projects := findByIdAndDelete s.projects (castObjectId id) }) := by
      simp [projectDelete, checkProjectOwnership, hv, hf, hb]
    rw [hdel]
    refine ⟨rfl, perm_cons_delete hf, ?_, ?_, rfl, rfl, rfl⟩
    · simp [projectGetById, hv, findById_delete_same (castObjectId id) hw.projectIds]
    · intro other hne
      exact findById_delete_other _ _ _ hne
  · intro f hf ho
    have hb : (f.owner == userId) = true := by simpa using ho
    have hdel : forumDelete (some userId) id s =
        (⟨204, .empty⟩,
          { s with forums := findByIdAndDelete s.forums (castObjectId id) }) := by
      simp [forumDelete, forumIdSchema, checkForumOwnership, hv, hv2, hf, hb]
    rw [hdel]
    refine ⟨rfl, perm_cons_delete hf, ?_, ?_, rfl, rfl, rfl⟩
    · simp [forumGetById, hv, hv2, findById_delete_same (castObjectId id) hw.forumIds]
    · intro other hne
      exact findById_delete_other _ _ _ hne

/-- Witness of C20 on the sample store, which is reachable: alice deletes her
sample project, which has a comment, and her sample forum. -/
theorem delete_removes_exactly_that_entity_witness :
    ((projectDelete (some alice) "0000000000000000000000a1" sampleStore).1 = ⟨204, .empty⟩ ∧
      sampleStore.projects.Perm (sampleProject ::
        (projectDelete (some alice) "0000000000000000000000a1" sampleStore).2.projects) ∧
      projectGetById "0000000000000000000000a1"
          (projectDelete (some alice) "0000000000000000000000a1" sampleStore).2 =
        ⟨404, .message "Project not found."⟩ ∧
      (∀ other, other ≠ castObjectId "0000000000000000000000a1" →
        findById (projectDelete (some alice) "0000000000000000000000a1"
            sampleStore).2.projects other =
          findById sampleStore.projects other) ∧
      (projectDelete (some alice) "0000000000000000000000a1" sampleStore).2.forums =
        sampleStore.forums ∧
      (projectDelete (some alice) "0000000000000000000000a1" sampleStore).2.users =
        sampleStore.users ∧
      (projectDelete (some alice) "0000000000000000000000a1" sampleStore).2.comments =
        sampleStore.comments) ∧
    ((forumDelete (some alice) "0000000000000000000000b2" sampleStore).1 = ⟨204, .empty⟩ ∧
      sampleStore.forums.Perm (sampleForum ::
        (forumDelete (some alice) "0000000000000000000000b2" sampleStore).2.forums) ∧
      forumGetById "0000000000000000000000b2"
          (forumDelete (some alice) "0000000000000000000000b2" sampleStore).2 =
        ⟨404, .message "Forum not found."⟩ ∧
      (∀ other, other ≠ castObjectId "0000000000000000000000b2" →
        findById (forumDelete (some alice) "0000000000000000000000b2"
            sampleStore).2.forums other =
          findById sampleStore.forums other) ∧
      (forumDelete (some alice) "0000000000000000000000b2" sampleStore).2.projects =
        sampleStore.projects ∧
      (forumDelete (some alice) "0000000000000000000000b2" sampleStore).2.users =
        sampleStore.users ∧
      (forumDelete (some alice) "0000000000000000000000b2" sampleStore).2.comments =
        sampleStore.comments) :=
  ⟨(delete_removes_exactly_that_entity sampleStore sampleStore_reachable alice
      "0000000000000000000000a1" (by decide)).1 sampleProject (by decide) (by decide),
    (delete_removes_exactly_that_entity sampleStore sampleStore_reachable alice
      "0000000000000000000000b2" (by decide)).2 sampleForum (by decide) (by decide)⟩

/-! ### Users -/

theorem toNat_ofNat_small (n : Nat) (h : n < 55296) : (Char.ofNat n).toNat = n := by
  have hv : n.isValidChar := Or.inl h
  unfold Char.ofNat
  rw [dif_pos hv]
  simp [Char.ofNatAux, Char.toNat, UInt32.toNat]

theorem toLower_def (c : Char) :
    c.toLower = if 65 ≤ c.toNat ∧ c.toNat ≤ 90 then Char.ofNat (c.toNat + 32) else c := rfl

theorem toNat_toLower (c : Char) :
    c.toLower.toNat = if 65 ≤ c.toNat ∧ c.toNat ≤ 90 then c.toNat + 32 else c.toNat := by
  rw [toLower_def]
  by_cases h : 65 ≤ c.toNat ∧ c.toNat ≤ 90
  · rw [if_pos h, if_pos h]
    exact toNat_ofNat_small _ (by omega)
  · rw [if_neg h, if_neg h]

theorem toLower_toLower (c : Char) : c.toLower.toLower = c.toLower := by
  have h := toNat_toLower c
  have h2 : ¬ (65 ≤ c.toLower.toNat ∧ c.toLower.toNat ≤ 90) := by
    rw [h]
    split <;> omega
  rw [toLower_def c.toLower, if_neg h2]

theorem jsTrim_data (x : String) :
    (jsTrim x).data = (x.data.dropWhile isJsWhiteSpace).rdropWhile isJsWhiteSpace := rfl

theorem dropWhile_prefix_of_head (p : Char → Bool) (m t : List Char) (hpre : t <+: m)
    (hm : m.dropWhile p = m) : t.dropWhile p = t := by
  cases t with
  | nil => rfl
  | cons a rest =>
    obtain ⟨r, hr⟩ := hpre
    subst hr
    simp only [List.cons_append, List.dropWhile_cons] at hm ⊢
    by_cases ha : p a = true
    · simp only [ha, if_true] at hm
      have hlen := congrArg List.length hm
      have hsuf := (List.dropWhile_suffix p (l := rest ++ r)).length_le
      simp only [List.length_cons] at hlen
      omega
    · simp [ha]

theorem jsTrim_jsTrim (x : String) : jsTrim (jsTrim x) = jsTrim x := by
  have h1 : ((x.data.dropWhile isJsWhiteSpace).rdropWhile isJsWhiteSpace).dropWhile
      isJsWhiteSpace = (x.data.dropWhile isJsWhiteSpace).rdropWhile isJsWhiteSpace :=
    dropWhile_prefix_of_head _ _ _ (List.rdropWhile_prefix _ _) (List.dropWhile_idempotent _ _)
  have h2 : (jsTrim (jsTrim x)).data = (jsTrim x).data := by
    rw [jsTrim_data (jsTrim x), jsTrim_data x, h1, List.rdropWhile_idempotent]
  exact String.ext h2

theorem asciiToLowerCase_jsTrim_asciiToLowerCase (x : String) :
    asciiToLowerCase (jsTrim (asciiToLowerCase x)) = jsTrim (asciiToLowerCase x) := by
  apply String.ext
  show (jsTrim (asciiToLowerCase x)).data.map Char.toLower = (jsTrim (asciiToLowerCase x)).data
  have hsub : ∀ c ∈ (jsTrim (asciiToLowerCase x)).data, c.toLower = c := by
    intro c hc
    rw [jsTrim_data] at hc
    have hmem : c ∈ (asciiToLowerCase x).data :=
      (List.dropWhile_suffix _).subset ((List.rdropWhile_prefix _ _).subset hc)
    have hmem2 : c ∈ x.data.map Char.toLower := hmem
    obtain ⟨d, _, hd⟩ := List.mem_map.1 hmem2
    rw [← hd]
    exact toLower_toLower d
  calc (jsTrim (asciiToLowerCase x)).data.map Char.toLower
      = (jsTrim (asciiToLowerCase x)).data.map id := List.map_congr_left hsub
    _ = (jsTrim (asciiToLowerCase x)).data := List.map_id _

theorem asciiToLowerCase_asciiToLowerCase (x : String) :
    asciiToLowerCase (asciiToLowerCase x) = asciiToLowerCase x := by
  apply String.ext
  show (x.data.map Char.toLower).map Char.toLower = x.data.map Char.toLower
  rw [List.map_map]
  exact List.map_congr_left (fun c _ => toLower_toLower c)

/-- The stand-in of the examples for `toLowerCase` has the properties assumed
of the function of the runtime. -/
theorem sampleRuntime_lowerCaseLaws : LowerCaseLaws :=
  ⟨asciiToLowerCase_asciiToLowerCase, asciiToLowerCase_jsTrim_asciiToLowerCase⟩

theorem lowerTrim_lowerTrim [JsRuntime] (hl : LowerCaseLaws) (x : String) :
    lowerTrim (lowerTrim x) = lowerTrim x := by
  unfold lowerTrim
  rw [hl.2, jsTrim_jsTrim]

theorem insertUser_eq_some {users new : List User} {doc : User}
    (h : insertUser users doc = some new) :
    new = users ++ [doc] ∧
      ∀ x ∈ users, x._id ≠ doc._id ∧ x.username ≠ doc.username ∧ x.email ≠ doc.email := by
  unfold insertUser at h
  by_cases hany : users.any
      (fun x => x._id == doc._id || x.username == doc.username || x.email == doc.email) = true
  · simp [hany] at h
  · simp only [hany, if_false, Option.some.injEq, Bool.false_eq_true] at h
    refine ⟨h.symm, ?_⟩
    intro x hx
    simp only [List.any_eq_true, not_exists, not_and, Bool.or_eq_true, beq_iff_eq, not_or] at hany
    have := hany x hx
    exact ⟨this.1.1, this.1.2, this.2⟩

theorem bcryptHash_ne_empty (saltAndHash : String) : (bcryptHash saltAndHash).data ≠ [] := by
  unfold bcryptHash
  rw [String.data_append]
  simp

theorem registerSave_usersWellFormed [JsRuntime] (hl : LowerCaseLaws) (now : Nat)
    (newId : ObjectId) (saltAndHash : String) (body : RegisterBody) (s : Store)
    (h : UsersWellFormed s) :
    UsersWellFormed (registerSave now newId saltAndHash body s).2 := by
  unfold registerSave
  split
  · exact h
  · split
    · exact h
    · rename_i users hins
      obtain ⟨hnew, hfresh⟩ := insertUser_eq_some hins
      subst hnew
      refine ⟨?_, ?_, ?_, ?_⟩
      · have hu := h.userIds
        unfold uniqueIds at hu ⊢
        rw [List.map_append, List.nodup_append]
        refine ⟨hu, by simp, ?_⟩
        intro a ha hb
        simp at hb
        obtain ⟨x, hx, hxa⟩ := List.mem_map.1 ha
        exact (hfresh x hx).1 (hxa.trans hb)
      · intro u hu
        rcases List.mem_append.1 hu with h1 | h1
        · exact h.usernames u h1
        · simp at h1
          subst h1
          exact (lowerTrim_lowerTrim hl _).symm
      · intro u hu
        rcases List.mem_append.1 hu with h1 | h1
        · exact h.emails u h1
        · simp at h1
          subst h1
          exact (lowerTrim_lowerTrim hl _).symm
      · intro u hu
        rcases List.mem_append.1 hu with h1 | h1
        · exact h.passwords u h1
        · simp at h1
          subst h1
          exact bcryptHash_ne_empty saltAndHash

theorem register_usersWellFormed [JsRuntime] (hl : LowerCaseLaws) (now : Nat)
    (newId : ObjectId) (saltAndHash : String) (body : RegisterBody) (s : Store)
    (h : UsersWellFormed s) :
    UsersWellFormed (register now newId saltAndHash body s).2 := by
  unfold register
  split
  · exact h
  · split
    · exact h
    · exact registerSave_usersWellFormed hl now newId saltAndHash body s h

theorem projectCreate_users [JsRuntime] (now : Nat) (newId : ObjectId)
    (auth : Option ObjectId) (body : ProjectBody) (s : Store) :
    (projectCreate now newId auth body s).2.users = s.users := by
  unfold projectCreate
  repeat' split
  all_goals rfl

theorem projectUpdate_users [JsRuntime] (now : Nat) (auth : Option ObjectId) (id : String)
    (body : ProjectBody) (s : Store) :
    (projectUpdate now auth id body s).2.users = s.users := by
  unfold projectUpdate
  repeat' split
  all_goals rfl

theorem projectDelete_users (auth : Option ObjectId) (id : String) (s : Store) :
    (projectDelete auth id s).2.users = s.users := by
  unfold projectDelete
  repeat' split
  all_goals rfl

theorem projectLike_users (now : Nat) (auth : Option ObjectId) (id : String) (s : Store) :
    (projectLike now auth id s).2.users = s.users := by
  unfold projectLike
  repeat' split
  all_goals rfl

theorem forumCreate_users (now : Nat) (newId : ObjectId) (auth : Option ObjectId)
    (body : ForumBody) (s : Store) : (forumCreate now newId auth body s).2.users = s.users := by
  unfold forumCreate
  repeat' split
  all_goals rfl

theorem forumUpdate_users (now : Nat) (auth : Option ObjectId) (id : String)
    (body : ForumBody) (s : Store) : (forumUpdate now auth id body s).2.users = s.users := by
  unfold forumUpdate
  repeat' split
  all_goals rfl

theorem forumDelete_users (auth : Option ObjectId) (id : String) (s : Store) :
    (forumDelete auth id s).2.users = s.users := by
  unfold forumDelete
  repeat' split
  all_goals rfl

theorem forumLike_users (now : Nat) (auth : Option ObjectId) (id : String) (s : Store) :
    (forumLike now auth id s).2.users = s.users := by
  unfold forumLike
  repeat' split
  all_goals rfl

theorem commentCreate_users (now : Nat) (newId : ObjectId) (auth : Option ObjectId)
    (body : CommentBody) (s : Store) : (commentCreate now newId auth body s).2.users = s.users := by
  unfold commentCreate
  repeat' split
  all_goals rfl

theorem commentUpdate_users (now : Nat) (auth : Option ObjectId) (id : String)
    (body : CommentUpdateBody) (s : Store) :
    (commentUpdate now auth id body s).2.users = s.users := by
  unfold commentUpdate
  repeat' split
  all_goals rfl

theorem commentDelete_users (auth : Option ObjectId) (id : String) (s : Store) :
    (commentDelete auth id s).2.users = s.users := by
  unfold commentDelete
  repeat' split
  all_goals rfl

theorem usersWellFormed_of_users_eq [JsRuntime] {s t : Store} (h : UsersWellFormed s)
    (he : t.users = s.users) : UsersWellFormed t := by
  refine ⟨?_, ?_, ?_, ?_⟩
  · rw [he]
    exact h.userIds
  · rw [he]
    exact h.usernames
  · rw [he]
    exact h.emails
  · rw [he]
    exact h.passwords

theorem handle_usersWellFormed [JsRuntime] (hl : LowerCaseLaws) (now : Nat) (newId : ObjectId)
    (req : Request) (s : Store) (h : UsersWellFormed s) :
    UsersWellFormed (handle now newId req s).2 := by
  cases req with
  | projectCreate auth body =>
    exact usersWellFormed_of_users_eq h (projectCreate_users now newId auth body s)
  | projectUpdate auth id body =>
    exact usersWellFormed_of_users_eq h (projectUpdate_users now auth id body s)
  | projectDelete auth id => exact usersWellFormed_of_users_eq h (projectDelete_users auth id s)
  | projectLike auth id => exact usersWellFormed_of_users_eq h (projectLike_users now auth id s)
  | forumCreate auth body =>
    exact usersWellFormed_of_users_eq h (forumCreate_users now newId auth body s)
  | forumUpdate auth id body =>
    exact usersWellFormed_of_users_eq h (forumUpdate_users now auth id body s)
  | forumDelete auth id => exact usersWellFormed_of_users_eq h (forumDelete_users auth id s)
  | forumLike auth id => exact usersWellFormed_of_users_eq h (forumLike_users now auth id s)
  | commentCreate auth body =>
    exact usersWellFormed_of_users_eq h (commentCreate_users now newId auth body s)
  | commentUpdate auth id body =>
    exact usersWellFormed_of_users_eq h (commentUpdate_users now auth id body s)
  | commentDelete auth id => exact usersWellFormed_of_users_eq h (commentDelete_users auth id s)
  | register saltAndHash body =>
    exact register_usersWellFormed hl now newId saltAndHash body s h

theorem reachable_usersWellFormed [JsRuntime] (hl : LowerCaseLaws) {s : Store}
    (h : Reachable s) : UsersWellFormed s := by
  induction h with
  | init => constructor <;> simp [Store.empty, uniqueIds]
  | step now newId req s _ ih => exact handle_usersWellFormed hl now newId req s ih

theorem carolStore_reachable : Reachable carolStore :=
  Reachable.step 3 300 (.register "saltsaltsaltsaltsalthashhashhashhash" carolBody) Store.empty
    Reachable.init

theorem lowerTrim_eq_of_lower_eq [JsRuntime] {a b : String}
    (h : jsToLowerCase a = jsToLowerCase b) (hb : b = lowerTrim b) : lowerTrim a = b := by
  unfold lowerTrim at hb ⊢
  rw [h]
  exact hb.symm

/-- C15: in every reachable store, a registration request that passes the route
schema and whose username equals, ignoring letter case, the username of a
stored user, or whose email equals, ignoring letter case, the email of a stored
user, is answered with 409 and leaves the store as it was.  Two strings are
equal ignoring letter case when `toLowerCase` of the runtime maps them to the
same string; `toLowerCase` is assumed to yield lower-case strings. -/
theorem register_existing_name_is_409 [JsRuntime] (hl : LowerCaseLaws) (s : Store)
    (hr : Reachable s) (now : Nat)
    (newId : ObjectId) (saltAndHash username email password : String)
    (hs : registerSchema ⟨some username, some email, some password⟩ = true)
    (x : User) (hx : x ∈ s.users)
    (hm : jsToLowerCase username = jsToLowerCase x.username ∨
      jsToLowerCase email = jsToLowerCase x.email) :
    register now newId saltAndHash ⟨some username, some email, some password⟩ s =
      (⟨409, .message "Username or Email already exists."⟩, s) := by
  have hw := reachable_usersWellFormed hl hr
  have hp : (x.email == lowerTrim email || x.username == lowerTrim username) = true := by
    rcases hm with h | h
    · have := lowerTrim_eq_of_lower_eq h (hw.usernames x hx)
      simp [this]
    · have := lowerTrim_eq_of_lower_eq h (hw.emails x hx)
      simp [this]
  cases hfind : findOneByEmailOrUsername s.users email username with
  | none =>
    unfold findOneByEmailOrUsername at hfind
    rw [List.find?_eq_none] at hfind
    exact absurd hp (hfind x hx)
  | some y =>
    simp [register, hs, hfind]

/-- Witness of C15 on the store where carol is registered: her username in
capitals with another email, and her email in capitals with another
username. -/
theorem register_existing_name_is_409_witness :
    register 4 301 "othersalt" ⟨some "CAROL", some "other@example.com", some "secret2"⟩
        carolStore =
      (⟨409, .message "Username or Email already exists."⟩, carolStore) ∧
    register 4 301 "othersalt" ⟨some "carla", some "CAROL@EXAMPLE.COM", some "secret2"⟩
        carolStore =
      (⟨409, .message "Username or Email already exists."⟩, carolStore) :=
  ⟨register_existing_name_is_409 sampleRuntime_lowerCaseLaws carolStore carolStore_reachable
      4 301 "othersalt" "CAROL" "other@example.com" "secret2" (by decide)
      (newUser 3 300 "saltsaltsaltsaltsalthashhashhashhash" carolBody) (by decide)
      (Or.inl (by decide)),
    register_existing_name_is_409 sampleRuntime_lowerCaseLaws carolStore carolStore_reachable
      4 301 "othersalt" "carla" "CAROL@EXAMPLE.COM" "secret2" (by decide)
      (newUser 3 300 "saltsaltsaltsaltsalthashhashhashhash" carolBody) (by decide)
      (Or.inr (by decide))⟩

/-- C16, evaluated: carol registers on the empty store, where the existence
check finds nobody.  A second save of the same registration on the store that
already holds carol (the check of the second request having run before the
first save) hits the unique index and is answered with 500; so is a
registration, and a project creation, whose generated id is already in the
collection, and a project creation whose body carries the `_id` of a stored
project.  No duplicate key error is answered with 409. -/
theorem duplicate_key_is_answered_500 :
    findOneByEmailOrUsername Store.empty.users "Carol@Example.com" " Carol " = none ∧
      register 3 300 "saltsaltsaltsaltsalthashhashhashhash" carolBody Store.empty =
        (⟨201, .registered "User registered successfully." 300⟩, carolStore) ∧
      insertUser carolStore.users (newUser 4 301 "othersalt" carolBody) = none ∧
      registerSave 4 301 "othersalt" carolBody carolStore =
        (⟨500, .message "Error registering user"⟩, carolStore) ∧
      register 4 300 "othersalt" ⟨some "david", some "david@example.com", some "secret2"⟩
          carolStore =
        (⟨500, .message "Error registering user"⟩, carolStore) ∧
      projectCreate 9 161 (some bob) fooProjectBody sampleStore =
        (⟨500, .message "Error creating project"⟩, sampleStore) ∧
      projectCreate 9 200 (some bob) collidingProjectBody sampleStore =
        (⟨500, .message "Error creating project"⟩, sampleStore) := by
  decide

theorem findById_of_mem {α : Type} [Document α] {xs : List α} {x : α} (hu : uniqueIds xs)
    (hx : x ∈ xs) : findById xs (Document.oid x) = some x := by
  induction xs with
  | nil => simp at hx
  | cons y rest ih =>
    unfold uniqueIds at hu
    simp only [List.map_cons, List.nodup_cons] at hu
    unfold findById
    rcases List.mem_cons.1 hx with h | h
    · subst h
      simp
    · have hne : ¬ (Document.oid y = Document.oid x) := by
        intro heq
        apply hu.1
        rw [heq]
        exact List.mem_map_of_mem _ h
      simp [hne, ih hu.2 h]

theorem lowerTrim_jsToLowerCase [JsRuntime] (hl : LowerCaseLaws) (x : String) :
    lowerTrim (jsToLowerCase x) = lowerTrim x := by
  unfold lowerTrim
  rw [hl.1]

/-- C17: in every reachable store, a login with a username no stored user has
and a login with the username of a stored user and a password that
`bcrypt.compare` rejects get the same reply, 401 with the same message
(`toLowerCase` is assumed to yield lower-case strings). -/
theorem login_failures_look_the_same [JsRuntime] (hl : LowerCaseLaws) (s : Store)
    (hr : Reachable s)
    (compare : String → String → Bool) (sign : ObjectId → String → String)
    (unknown known password1 password2 : String)
    (hunknown : ∀ y ∈ s.users, y.username ≠ lowerTrim unknown)
    (hknown : ∃ x ∈ s.users, x.username = lowerTrim known)
    (hwrong : ∀ x ∈ s.users, x.username = lowerTrim known → compare password2 x.password = false) :
    login compare sign ⟨some unknown, some password1⟩ s =
        ⟨401, .message "Invalid credentials."⟩ ∧
      login compare sign ⟨some known, some password2⟩ s =
        ⟨401, .message "Invalid credentials."⟩ ∧
      login compare sign ⟨some unknown, some password1⟩ s =
        login compare sign ⟨some known, some password2⟩ s := by
  have hw := reachable_usersWellFormed hl hr
  have h1 : login compare sign ⟨some unknown, some password1⟩ s =
      ⟨401, .message "Invalid credentials."⟩ := by
    have hnone : findOneByUsername s.users (jsToLowerCase unknown) = none := by
      unfold findOneByUsername
      rw [List.find?_eq_none, lowerTrim_jsToLowerCase hl]
      intro y hy
      simpa using hunknown y hy
    simp [login, loginSchema, hnone]
  have h2 : login compare sign ⟨some known, some password2⟩ s =
      ⟨401, .message "Invalid credentials."⟩ := by
    cases hfind : findOneByUsername s.users (jsToLowerCase known) with
    | none =>
      unfold findOneByUsername at hfind
      rw [List.find?_eq_none, lowerTrim_jsToLowerCase hl] at hfind
      obtain ⟨x, hx, hxn⟩ := hknown
      exact absurd (by simpa using hxn) (hfind x hx)
    | some y =>
      have hy : y ∈ s.users := List.mem_of_find?_eq_some hfind
      have hyn : y.username = lowerTrim known := by
        have := List.find?_some hfind
        rw [lowerTrim_jsToLowerCase hl] at this
        simpa using this
      have hid : findById s.users y._id = some y := findById_of_mem hw.userIds hy
      have hpw : y.password.data.isEmpty = false := by
        have := hw.passwords y hy
        cases hd : y.password.data with
        | nil => exact absurd hd this
        | cons a l => rfl
      simp [login, loginSchema, hfind, hid, hpw, hwrong y hy hyn]
  exact ⟨h1, h2, h1.trans h2.symm⟩

/-- Witness of C17 on the store where carol is registered: nobody is called
dave, and the password of carol is not `wrong`. -/
theorem login_failures_look_the_same_witness :
    login sampleCompare sampleSign ⟨some "dave", some "secret1"⟩ carolStore =
        ⟨401, .message "Invalid credentials."⟩ ∧
      login sampleCompare sampleSign ⟨some "Carol", some "wrong"⟩ carolStore =
        ⟨401, .message "Invalid credentials."⟩ ∧
      login sampleCompare sampleSign ⟨some "dave", some "secret1"⟩ carolStore =
        login sampleCompare sampleSign ⟨some "Carol", some "wrong"⟩ carolStore :=
  login_failures_look_the_same sampleRuntime_lowerCaseLaws carolStore carolStore_reachable
    sampleCompare sampleSign "dave" "Carol" "secret1" "wrong" (by decide)
    ⟨newUser 3 300 "saltsaltsaltsaltsalthashhashhashhash" carolBody, by decide, by decide⟩
    (by decide)

theorem register_status_201 [JsRuntime] {s : Store} {now : Nat} {newId : ObjectId}
    {saltAndHash : String} {body : RegisterBody}
    (h : (register now newId saltAndHash body s).1.status = 201) :
    register now newId saltAndHash body s =
        (⟨201, .registered "User registered successfully." newId⟩,
          { s with users := s.users ++ [newUser now newId saltAndHash body] }) ∧
      registerSchema body = true ∧
      (∀ x ∈ s.users, x._id ≠ newId ∧
        x.username ≠ lowerTrim (body.username.getD "") ∧
        x.email ≠ lowerTrim (body.email.getD "")) := by
  by_cases hs : registerSchema body = true
  · cases hfind : findOneByEmailOrUsername s.users (body.email.getD "")
        (body.username.getD "") with
    | some y => simp [register, hs, hfind] at h
    | none =>
      by_cases hval : validateNewUser body = true
      · cases hins : insertUser s.users (newUser now newId saltAndHash body) with
        | none => simp [register, registerSave, hs, hfind, hval, hins] at h
        | some users =>
          obtain ⟨hnew, hfresh⟩ := insertUser_eq_some hins
          subst hnew
          refine ⟨by simp [register, registerSave, hs, hfind, hval, hins], hs, ?_⟩
          intro x hx
          exact hfresh x hx
      · simp [register, registerSave, hs, hfind, hval] at h
  · simp [register, hs, schemaRejected] at h

/-- C18: when register accepts a username, email and password (answers 201), a
login right afterwards with the same username and password answers 200 with
a token whose verified claims carry the id of the new user, provided
`bcrypt.compare` accepts the password against the digest stored for it,
`verify` undoes `sign`, and `toLowerCase` yields lower-case strings. -/
theorem login_after_register_succeeds [JsRuntime] (hl : LowerCaseLaws) (s : Store) (now : Nat)
    (newId : ObjectId)
    (saltAndHash username email password : String)
    (compare : String → String → Bool) (sign : ObjectId → String → String)
    (verify : String → Option (ObjectId × String))
    (hreg : (register now newId saltAndHash ⟨some username, some email, some password⟩
      s).1.status = 201)
    (hcompare : compare password (bcryptHash saltAndHash) = true)
    (hverify : ∀ id name, verify (sign id name) = some (id, name)) :
    (register now newId saltAndHash ⟨some username, some email, some password⟩ s).1 =
        ⟨201, .registered "User registered successfully." newId⟩ ∧
      ∃ token : String,
        login compare sign ⟨some username, some password⟩
            (register now newId saltAndHash ⟨some username, some email, some password⟩ s).2 =
          ⟨200, .token token⟩ ∧
        verify token = some (newId, lowerTrim username) := by
  obtain ⟨heq, _, hfresh⟩ := register_status_201 hreg
  rw [heq]
  refine ⟨rfl, sign newId (lowerTrim username), ?_, hverify _ _⟩
  have hnone : List.find? (fun x : User => x.username == lowerTrim username) s.users = none := by
    rw [List.find?_eq_none]
    intro x hx
    simpa using (hfresh x hx).2.1
  have hfind : findOneByUsername
      (s.users ++ [newUser now newId saltAndHash ⟨some username, some email, some password⟩])
      (jsToLowerCase username) =
      some (newUser now newId saltAndHash ⟨some username, some email, some password⟩) := by
    unfold findOneByUsername
    rw [lowerTrim_jsToLowerCase hl, List.find?_append, hnone]
    simp [newUser]
  have hidnone : findById s.users
      (Document.oid (newUser now newId saltAndHash ⟨some username, some email, some password⟩)) =
      none := by
    rw [findById_eq_none_iff]
    intro hmem
    obtain ⟨x, hx, hxid⟩ := List.mem_map.1 hmem
    exact (hfresh x hx).1 hxid
  have hid : findById
      (s.users ++ [newUser now newId saltAndHash ⟨some username, some email, some password⟩])
      newId =
      some (newUser now newId saltAndHash ⟨some username, some email, some password⟩) :=
    findById_append_fresh s.users _ hidnone
  have hpw : (bcryptHash saltAndHash).data.isEmpty = false := by
    have := bcryptHash_ne_empty saltAndHash
    cases hd : (bcryptHash saltAndHash).data with
    | nil => exact absurd hd this
    | cons a l => rfl
  have hid2 : findById
      (s.users ++ [newUser now newId saltAndHash ⟨some username, some email, some password⟩])
      (newUser now newId saltAndHash ⟨some username, some email, some password⟩)._id =
      some (newUser now newId saltAndHash ⟨some username, some email, some password⟩) := hid
  have hpw2 : (newUser now newId saltAndHash
      ⟨some username, some email, some password⟩).password.data.isEmpty = false := hpw
  have hcompare2 : compare password (newUser now newId saltAndHash
      ⟨some username, some email, some password⟩).password = true := hcompare
  simp only [login, loginSchema, hfind, hid2, hpw2, hcompare2, Option.isSome_some,
    Bool.and_self, Bool.not_true, Bool.false_eq_true, if_false, Option.getD_some]
  rfl

theorem sampleVerify_sampleSign (id : ObjectId) (name : String) :
    sampleVerify (sampleSign id name) = some (id, name) := by
  have h1 : ∀ n : Nat, (List.replicate n (Char.ofNat 49) ++ Char.ofNat 58 :: name.data).dropWhile
      (fun c => c == Char.ofNat 49) = Char.ofNat 58 :: name.data := by
    intro n
    induction n with
    | zero =>
      have : (Char.ofNat 58 == Char.ofNat 49) = false := by decide
      simp [List.dropWhile, this]
    | succ k ih =>
      simp [List.replicate_succ, List.dropWhile, ih]
  have h2 : ∀ n : Nat, ((List.replicate n (Char.ofNat 49) ++ Char.ofNat 58 :: name.data).takeWhile
      (fun c => c == Char.ofNat 49)).length = n := by
    intro n
    induction n with
    | zero =>
      have : (Char.ofNat 58 == Char.ofNat 49) = false := by decide
      simp [List.takeWhile, this]
    | succ k ih =>
      simp [List.replicate_succ, List.takeWhile, ih]
  unfold sampleVerify sampleSign
  simp only [h1, h2]

/-- Witness of C18: carol registers on the empty store and logs in. -/
theorem login_after_register_succeeds_witness :
    (register 3 300 "saltsaltsaltsaltsalthashhashhashhash"
        ⟨some " Carol ", some "Carol@Example.com", some "secret1"⟩ Store.empty).1 =
        ⟨201, .registered "User registered successfully." 300⟩ ∧
      ∃ token : String,
        login sampleCompare sampleSign ⟨some " Carol ", some "secret1"⟩
            (register 3 300 "saltsaltsaltsaltsalthashhashhashhash"
              ⟨some " Carol ", some "Carol@Example.com", some "secret1"⟩ Store.empty).2 =
          ⟨200, .token token⟩ ∧
        sampleVerify token = some (300, lowerTrim " Carol ") :=
  login_after_register_succeeds sampleRuntime_lowerCaseLaws Store.empty 3 300
    "saltsaltsaltsaltsalthashhashhashhash"
    " Carol " "Carol@Example.com" "secret1" sampleCompare sampleSign sampleVerify
    (by decide) (by decide) sampleVerify_sampleSign

theorem findById_map {α : Type} [Document α] (xs : List α) (f : α → α)
    (hf : ∀ y, Document.oid (f y) = Document.oid y) (id : ObjectId) :
    findById (xs.map f) id = (findById xs id).map f := by
  induction xs with
  | nil => rfl
  | cons y rest ih =>
    simp only [List.map_cons, findById, hf]
    by_cases hy : (Document.oid y == id) = true
    · simp [hy]
    · simp [hy, ih]

theorem login_status_200 [JsRuntime] {s : Store} {compare : String → String → Bool}
    {sign : ObjectId → String → String} {body : LoginBody}
    (h : (login compare sign body s).status = 200) :
    ∃ u ∈ s.users, login compare sign body s = ⟨200, .token (sign u._id u.username)⟩ := by
  unfold login at h ⊢
  split at h
  · simp [schemaRejected] at h
  · split at h
    · simp at h
    · rename_i user hfind
      split at h
      · simp at h
      · split at h
        · simp at h
        · split at h
          · simp at h
          · rename_i hn1 hn2
            refine ⟨user, List.mem_of_find?_eq_some hfind, ?_⟩
            simp_all

/-- C19: for an authenticated subject, `GET /me` answers 404 when no user with
that id is stored and otherwise 200 with the id, username, email and
timestamps of that user; the answer is the same when every stored password is
erased.  A 201 of register carries a fixed message and the new id, a 200 of
login carries the token signed over the id and username of a stored user:
none of the three carries the password or its digest. -/
theorem replies_never_carry_the_password [JsRuntime] (s : Store) :
    (∀ userId : ObjectId, findById s.users userId = none →
        getMe (some userId) s = ⟨404, .message "User not found."⟩) ∧
    (∀ (userId : ObjectId) (u : User), findById s.users userId = some u →
        getMe (some userId) s =
          ⟨200, .user
            { _id := u._id, username := u.username, email := u.email,
              createdAt := u.createdAt, updatedAt := u.updatedAt }⟩) ∧
    (∀ auth : Option ObjectId, getMe auth (erasePasswords s) = getMe auth s) ∧
    (∀ (now : Nat) (newId : ObjectId) (saltAndHash : String) (body : RegisterBody),
        (register now newId saltAndHash body s).1.status = 201 →
        (register now newId saltAndHash body s).1 =
          ⟨201, .registered "User registered successfully." newId⟩) ∧
    (∀ (compare : String → String → Bool) (sign : ObjectId → String → String)
        (body : LoginBody), (login compare sign body s).status = 200 →
        ∃ u ∈ s.users, login compare sign body s = ⟨200, .token (sign u._id u.username)⟩) := by
  refine ⟨?_, ?_, ?_, ?_, ?_⟩
  · intro userId hf
    simp [getMe, hf]
  · intro userId u hf
    simp [getMe, hf, User.view]
  · intro auth
    cases auth with
    | none => rfl
    | some userId =>
      simp only [getMe, erasePasswords]
      rw [findById_map s.users (fun u : User => { u with password := "" }) (fun _ => rfl)]
      cases findById s.users userId with
      | none => rfl
      | some u => rfl
  · intro now newId saltAndHash body h
    rw [(register_status_201 h).1]
  · intro compare sign body h
    exact login_status_200 h

/-- Witness of C19 on the store where carol is registered. -/
theorem replies_never_carry_the_password_witness :
    getMe (some 301) carolStore = ⟨404, .message "User not found."⟩ ∧
    getMe (some 300) carolStore =
      ⟨200, .user
        { _id := 300, username := "carol", email := "carol@example.com",
          createdAt := 3, updatedAt := 3 }⟩ ∧
    (register 3 300 "saltsaltsaltsaltsalthashhashhashhash" carolBody Store.empty).1 =
      ⟨201, .registered "User registered successfully." 300⟩ ∧
    (∃ u ∈ carolStore.users,
      login sampleCompare sampleSign ⟨some "carol", some "secret1"⟩ carolStore =
        ⟨200, .token (sampleSign u._id u.username)⟩) :=
  ⟨(replies_never_carry_the_password carolStore).1 301 (by decide),
    (replies_never_carry_the_password carolStore).2.1 300
      (newUser 3 300 "saltsaltsaltsaltsalthashhashhashhash" carolBody) (by decide),
    (replies_never_carry_the_password Store.empty).2.2.2.1 3 300
      "saltsaltsaltsaltsalthashhashhashhash" carolBody (by decide),
    (replies_never_carry_the_password carolStore).2.2.2.2 sampleCompare sampleSign
      ⟨some "carol", some "secret1"⟩ (by decide)⟩

/-! ### Reading one project or forum -/

/-- C21: `GET /:id` of projects and of forums answers 400 to an id that is not
a valid ObjectId, and that reply is the same for every store (no lookup decides
it); to a valid id it answers 404 when no document of the store has the id and
200 with the stored document otherwise.  The routes only read: they yield a
reply and no store. -/
theorem getById_400_404_or_entity (id : String) (s : Store) :
    (isValidObjectId id = false →
      (projectGetById id s).status = 400 ∧ (forumGetById id s).status = 400 ∧
      ∀ t : Store, projectGetById id t = projectGetById id s ∧
        forumGetById id t = forumGetById id s) ∧
    (isValidObjectId id = true →
      (findById s.projects (castObjectId id) = none →
        projectGetById id s = ⟨404, .message "Project not found."⟩) ∧
      (∀ p : Project, findById s.projects (castObjectId id) = some p →
        projectGetById id s = ⟨200, .project p⟩) ∧
      (findById s.forums (castObjectId id) = none →
        forumGetById id s = ⟨404, .message "Forum not found."⟩) ∧
      (∀ f : Forum, findById s.forums (castObjectId id) = some f →
        forumGetById id s = ⟨200, .forum f⟩)) := by
  refine ⟨?_, ?_⟩
  · intro hv
    have hv2 : objectIdSchema id = false := hv
    refine ⟨?_, ?_, ?_⟩
    · simp [projectGetById, hv]
    · simp [forumGetById, hv2, schemaRejected]
    · intro t
      simp [projectGetById, forumGetById, hv, hv2]
  · intro hv
    have hv2 : objectIdSchema id = true := hv
    refine ⟨?_, ?_, ?_, ?_⟩
    · intro hf
      simp [projectGetById, hv, hf]
    · intro p hf
      simp [projectGetById, hv, hf]
    · intro hf
      simp [forumGetById, hv, hv2, hf]
    · intro f hf
      simp [forumGetById, hv, hv2, hf]

/-- Witness of C21 on the sample store: a malformed id, the id of the sample
project and of the sample forum, and an id of no document. -/
theorem getById_400_404_or_entity_witness :
    ((projectGetById "xyz" sampleStore).status = 400 ∧
      (forumGetById "xyz" sampleStore).status = 400 ∧
      ∀ t : Store, projectGetById "xyz" t = projectGetById "xyz" sampleStore ∧
        forumGetById "xyz" t = forumGetById "xyz" sampleStore) ∧
    projectGetById "0000000000000000000000a1" sampleStore = ⟨200, .project sampleProject⟩ ∧
    forumGetById "0000000000000000000000b2" sampleStore = ⟨200, .forum sampleForum⟩ ∧
    projectGetById "0000000000000000000000ff" sampleStore =
      ⟨404, .message "Project not found."⟩ ∧
    forumGetById "0000000000000000000000ff" sampleStore =
      ⟨404, .message "Forum not found."⟩ :=
  ⟨(getById_400_404_or_entity "xyz" sampleStore).1 (by decide),
    ((getById_400_404_or_entity "0000000000000000000000a1" sampleStore).2 (by decide)).2.1
      sampleProject (by decide),
    ((getById_400_404_or_entity "0000000000000000000000b2" sampleStore).2 (by decide)).2.2.2
      sampleForum (by decide),
    ((getById_400_404_or_entity "0000000000000000000000ff" sampleStore).2 (by decide)).1
      (by decide),
    ((getById_400_404_or_entity "0000000000000000000000ff" sampleStore).2 (by decide)).2.2.1
      (by decide)⟩

/-! ### Validation before a document is stored -/

/-- C27: a forum creation whose body lacks the title or has one shorter than 3
characters, or lacks the description or has one shorter than 10 characters, is
answered 400 by the schema and leaves the store as it is, whoever sends it; a
project creation by an authenticated user whose body lacks the title or the
description is answered 400 with a validation error and leaves the store as it
is. -/
theorem create_validates_before_storing [JsRuntime] (now : Nat) (newId : ObjectId) (s : Store) :
    (∀ (auth : Option ObjectId) (body : ForumBody),
      ((body.title = none ∨ ∃ t, body.title = some t ∧ t.length < 3) ∨
        (body.description = none ∨ ∃ d, body.description = some d ∧ d.length < 10)) →
      forumCreate now newId auth body s = (schemaRejected, s) ∧
      schemaRejected.status = 400) ∧
    (∀ (userId : ObjectId) (body : ProjectBody),
      (body.title = none ∨ body.description = none) →
      projectCreate now newId (some userId) body s =
        (⟨400, .validationError "Validation Error"⟩, s)) := by
  refine ⟨?_, ?_⟩
  · intro auth body h
    have hs : createForumSchema body = false := by
      unfold createForumSchema
      rcases h with (h | ⟨t, h, hl⟩) | (h | ⟨d, h, hl⟩)
      · simp [h]
      · rw [h]
        cases hd : body.description with
        | none => rfl
        | some d => simp; intro h3; omega
      · cases ht : body.title with
        | none => rfl
        | some t => simp [h]
      · rw [h]
        cases ht : body.title with
        | none => rfl
        | some t => simp; intro _; omega
    refine ⟨?_, rfl⟩
    simp [forumCreate, hs]
  · intro userId body h
    have hs : validateNewProject body = false := by
      unfold validateNewProject
      rcases h with h | h
      · simp [h, requiredString]
      · simp [h, requiredString]
    simp [projectCreate, hs]

/-- Witness of C27 on the sample store: a forum body with the title `ab`, and
a project body without a title. -/
theorem create_validates_before_storing_witness :
    (forumCreate 9 200 (some alice) shortTitleForumBody sampleStore =
      (schemaRejected, sampleStore) ∧ schemaRejected.status = 400) ∧
    projectCreate 9 200 (some alice) emptyProjectBody sampleStore =
      (⟨400, .validationError "Validation Error"⟩, sampleStore) :=
  ⟨(create_validates_before_storing 9 200 sampleStore).1 (some alice) shortTitleForumBody
      (Or.inl (Or.inr ⟨"ab", rfl, by decide⟩)),
    (create_validates_before_storing 9 200 sampleStore).2 alice emptyProjectBody
      (Or.inl rfl)⟩

/-! ### The ownership helpers and the ownership policy -/

/-- C28: for every valid id, store and subject, each of the three ownership
helpers decides as the ownership policy of the specification does on the
document with that id, with `isOwner` applied to the owner of a project or
forum and to the author of a comment: not found when there is no such
document, forbidden exactly when `isOwner` is false, the document itself
otherwise. -/
theorem ownership_helpers_refine_isOwner (userId : ObjectId) (id : String) (s : Store)
    (hv : isValidObjectId id = true) :
    decisionOf (checkProjectOwnership userId id s) =
      some (ownershipPolicy (findById s.projects (castObjectId id)) (fun p => p.owner) userId) ∧
    decisionOf (checkForumOwnership userId id s) =
      some (ownershipPolicy (findById s.forums (castObjectId id)) (fun f => f.owner) userId) ∧
    decisionOf (checkCommentAuthorship userId id s) =
      some (ownershipPolicy (findById s.comments (castObjectId id)) (fun c => c.author)
        userId) := by
  refine ⟨?_, ?_, ?_⟩
  · unfold checkProjectOwnership ownershipPolicy isOwner
    cases findById s.projects (castObjectId id) with
    | none => rfl
    | some p =>
      by_cases h : (p.owner == userId) = true
      · simp [h, decisionOf]
      · simp [h, decisionOf]
  · unfold checkForumOwnership ownershipPolicy isOwner
    rw [hv]
    cases findById s.forums (castObjectId id) with
    | none => rfl
    | some f =>
      by_cases h : (f.owner == userId) = true
      · simp [h, decisionOf]
      · simp [h, decisionOf]
  · unfold checkCommentAuthorship ownershipPolicy isOwner
    cases findById s.comments (castObjectId id) with
    | none => rfl
    | some c =>
      by_cases h : (c.author == userId) = true
      · simp [h, decisionOf]
      · simp [h, decisionOf]

/-- Witness of C28 on the sample store: bob is refused on the project, the
forum and the comment of alice at their ids. -/
theorem ownership_helpers_refine_isOwner_witness :
    decisionOf (checkProjectOwnership bob "0000000000000000000000a1" sampleStore) =
      some (ownershipPolicy (findById sampleStore.projects
        (castObjectId "0000000000000000000000a1")) (fun p => p.owner) bob) ∧
    decisionOf (checkForumOwnership bob "0000000000000000000000a1" sampleStore) =
      some (ownershipPolicy (findById sampleStore.forums
        (castObjectId "0000000000000000000000a1")) (fun f => f.owner) bob) ∧
    decisionOf (checkCommentAuthorship bob "0000000000000000000000a1" sampleStore) =
      some (ownershipPolicy (findById sampleStore.comments
        (castObjectId "0000000000000000000000a1")) (fun c => c.author) bob) :=
  ownership_helpers_refine_isOwner bob "0000000000000000000000a1" sampleStore (by decide)

/-! ### Likes without duplicates -/

/-- C30: in every store reachable from the empty store by requests served one
after the other, the likes of every project and of every forum hold no user
twice, so their length is the number of distinct users in them. -/
theorem reachable_likes_have_no_duplicates [JsRuntime] (s : Store) (hr : Reachable s) :
    (∀ p ∈ s.projects, p.likes.Nodup ∧ p.likes.length = p.likes.toFinset.card) ∧
    (∀ f ∈ s.forums, f.likes.Nodup ∧ f.likes.length = f.likes.toFinset.card) := by
  have hw := reachable_wellFormed hr
  refine ⟨?_, ?_⟩
  · intro p hp
    exact ⟨hw.projectLikes p hp, (List.toFinset_card_of_nodup (hw.projectLikes p hp)).symm⟩
  · intro f hf
    exact ⟨hw.forumLikes f hf, (List.toFinset_card_of_nodup (hw.forumLikes f hf)).symm⟩

/-- Witness of C30 on the sample store after bob liked the sample project. -/
theorem reachable_likes_have_no_duplicates_witness :
    (∀ p ∈ likedStore.projects, p.likes.Nodup ∧ p.likes.length = p.likes.toFinset.card) ∧
    (∀ f ∈ likedStore.forums, f.likes.Nodup ∧ f.likes.length = f.likes.toFinset.card) :=
  reachable_likes_have_no_duplicates likedStore
    (Reachable.step 10 0 (.projectLike (some bob) "0000000000000000000000a1") sampleStore
      sampleStore_reachable)

/-! ### Requests without a verified subject -/

/-- Counterexample to C24 as worded: a forum creation without a token whose
body fails the schema is answered 400, not 401, because the schema is checked
before the authentication hook runs. -/
theorem forum_request_without_token_can_be_400 :
    forumCreate 9 200 none emptyForumBody sampleStore = (schemaRejected, sampleStore) ∧
    schemaRejected.status = 400 ∧
    (forumCreate 9 200 none emptyForumBody sampleStore).1.status ≠ 401 := by
  decide

/-- C24, amended: a create, update, delete or like request on projects, forums
or comments without a verified subject leaves the store as it is; on projects
and comments it is answered 401, on forums it is answered 401 when it passes
the schema of the route and 400 when it fails it.  Registration changes the
store without a verified subject: the store after carol registered on the
empty store is not empty. -/
theorem request_without_subject_changes_nothing [JsRuntime] (now : Nat) (newId : ObjectId)
    (id : String)
    (s : Store) :
    unauthenticated.status = 401 ∧ schemaRejected.status = 400 ∧
    (∀ body, projectCreate now newId none body s = (unauthenticated, s)) ∧
    (∀ body, projectUpdate now none id body s = (unauthenticated, s)) ∧
    projectDelete none id s = (unauthenticated, s) ∧
    projectLike now none id s = (unauthenticated, s) ∧
    (∀ body, commentCreate now newId none body s = (unauthenticated, s)) ∧
    (∀ body, commentUpdate now none id body s = (unauthenticated, s)) ∧
    commentDelete none id s = (unauthenticated, s) ∧
    (∀ body, forumCreate now newId none body s =
      (if createForumSchema body then unauthenticated else schemaRejected, s)) ∧
    (∀ body, forumUpdate now none id body s =
      (if updateForumSchema id body then unauthenticated else schemaRejected, s)) ∧
    forumDelete none id s = (if forumIdSchema id then unauthenticated else schemaRejected, s) ∧
    forumLike now none id s = (if forumIdSchema id then unauthenticated else schemaRejected, s) ∧
    carolStore ≠ Store.empty := by
  refine ⟨rfl, rfl, fun _ => rfl, fun _ => rfl, rfl, rfl, fun _ => rfl, fun _ => rfl, rfl,
    ?_, ?_, ?_, ?_, by decide⟩
  · intro body
    unfold forumCreate
    cases createForumSchema body <;> rfl
  · intro body
    unfold forumUpdate
    cases updateForumSchema id body <;> rfl
  · unfold forumDelete
    cases forumIdSchema id <;> rfl
  · unfold forumLike
    cases forumIdSchema id <;> rfl

/-- Witness of C24 on the sample store: a forum creation without a token whose
body passes the schema is answered 401 and stores nothing. -/
theorem request_without_subject_changes_nothing_witness :
    forumCreate 9 200 none generalForumBody sampleStore = (unauthenticated, sampleStore) ∧
    projectDelete none "0000000000000000000000a1" sampleStore =
      (unauthenticated, sampleStore) :=
  ⟨((request_without_subject_changes_nothing 9 200 "0000000000000000000000a1"
      sampleStore).2.2.2.2.2.2.2.2.2.1 generalForumBody).trans (by decide),
    (request_without_subject_changes_nothing 9 200 "0000000000000000000000a1"
      sampleStore).2.2.2.2.1⟩

/-! ### Comments have content -/

theorem commentsHaveContent_of_comments_eq {s t : Store} (h : CommentsHaveContent s)
    (he : t.comments = s.comments) : CommentsHaveContent t := by
  unfold CommentsHaveContent
  rw [he]
  exact h

theorem projectCreate_comments [JsRuntime] (now : Nat) (newId : ObjectId)
    (auth : Option ObjectId) (body : ProjectBody) (s : Store) :
    (projectCreate now newId auth body s).2.comments = s.comments := by
  unfold projectCreate
  repeat' split
  all_goals rfl

theorem projectUpdate_comments [JsRuntime] (now : Nat) (auth : Option ObjectId) (id : String)
    (body : ProjectBody) (s : Store) :
    (projectUpdate now auth id body s).2.comments = s.comments := by
  unfold projectUpdate
  repeat' split
  all_goals rfl

theorem projectDelete_comments (auth : Option ObjectId) (id : String) (s : Store) :
    (projectDelete auth id s).2.comments = s.comments := by
  unfold projectDelete
  repeat' split
  all_goals rfl

theorem projectLike_comments (now : Nat) (auth : Option ObjectId) (id : String) (s : Store) :
    (projectLike now auth id s).2.comments = s.comments := by
  unfold projectLike
  repeat' split
  all_goals rfl

theorem forumCreate_comments (now : Nat) (newId : ObjectId) (auth : Option ObjectId)
    (body : ForumBody) (s : Store) :
    (forumCreate now newId auth body s).2.comments = s.comments := by
  unfold forumCreate
  repeat' split
  all_goals rfl

theorem forumUpdate_comments (now : Nat) (auth : Option ObjectId) (id : String)
    (body : ForumBody) (s : Store) :
    (forumUpdate now auth id body s).2.comments = s.comments := by
  unfold forumUpdate
  repeat' split
  all_goals rfl

theorem forumDelete_comments (auth : Option ObjectId) (id : String) (s : Store) :
    (forumDelete auth id s).2.comments = s.comments := by
  unfold forumDelete
  repeat' split
  all_goals rfl

theorem forumLike_comments (now : Nat) (auth : Option ObjectId) (id : String) (s : Store) :
    (forumLike now auth id s).2.comments = s.comments := by
  unfold forumLike
  repeat' split
  all_goals rfl

theorem register_comments [JsRuntime] (now : Nat) (newId : ObjectId) (saltAndHash : String)
    (body : RegisterBody) (s : Store) :
    (register now newId saltAndHash body s).2.comments = s.comments := by
  unfold register registerSave
  repeat' split
  all_goals rfl

theorem commentCreate_commentsHaveContent (now : Nat) (newId : ObjectId)
    (auth : Option ObjectId) (body : CommentBody) (s : Store) (h : CommentsHaveContent s) :
    CommentsHaveContent (commentCreate now newId auth body s).2 := by
  unfold commentCreate
  split
  · exact h
  · split
    · exact h
    · split
      · exact h
      · split
        · exact h
        · split
          · exact h
          · split
            · exact h
            · split
              · exact h
              · rename_i hreq
                split
                · exact h
                · rename_i cs hins
                  have hall : ∀ c ∈ cs, c.content.data ≠ [] :=
                    forall_insert (fun c : Comment => c.content.data ≠ []) h
                      (by simpa [requiredString] using hreq) hins
                  split <;> exact hall

theorem commentUpdate_commentsHaveContent (now : Nat) (auth : Option ObjectId) (id : String)
    (body : CommentUpdateBody) (s : Store) (h : CommentsHaveContent s) :
    CommentsHaveContent (commentUpdate now auth id body s).2 := by
  unfold commentUpdate
  split
  · exact h
  · split
    · exact h
    · split
      · exact h
      · split
        · exact h
        · rename_i comment _
          split
          · exact h
          · split
            · split <;> exact h
            · split
              · exact h
              · rename_i hreq
                have hne : (jsTrim (body.content.getD "")).data ≠ [] := by
                  simpa [requiredString] using hreq
                have hall := forall_update (fun c : Comment => c.content.data ≠ []) s.comments
                  comment._id
                  (fun c : Comment =>
                    { c with content := jsTrim (body.content.getD ""), updatedAt := now })
                  h (fun _ _ => hne)
                split <;> exact hall

theorem commentDelete_commentsHaveContent (auth : Option ObjectId) (id : String) (s : Store)
    (h : CommentsHaveContent s) : CommentsHaveContent (commentDelete auth id s).2 := by
  unfold commentDelete
  split
  · exact h
  · split
    · exact h
    · split
      · exact h
      · exact forall_delete (fun c : Comment => c.content.data ≠ []) _ _ h

theorem handle_commentsHaveContent [JsRuntime] (now : Nat) (newId : ObjectId) (req : Request)
    (s : Store) (h : CommentsHaveContent s) :
    CommentsHaveContent (handle now newId req s).2 := by
  cases req with
  | projectCreate auth body =>
    exact commentsHaveContent_of_comments_eq h (projectCreate_comments now newId auth body s)
  | projectUpdate auth id body =>
    exact commentsHaveContent_of_comments_eq h (projectUpdate_comments now auth id body s)
  | projectDelete auth id =>
    exact commentsHaveContent_of_comments_eq h (projectDelete_comments auth id s)
  | projectLike auth id =>
    exact commentsHaveContent_of_comments_eq h (projectLike_comments now auth id s)
  | forumCreate auth body =>
    exact commentsHaveContent_of_comments_eq h (forumCreate_comments now newId auth body s)
  | forumUpdate auth id body =>
    exact commentsHaveContent_of_comments_eq h (forumUpdate_comments now auth id body s)
  | forumDelete auth id =>
    exact commentsHaveContent_of_comments_eq h (forumDelete_comments auth id s)
  | forumLike auth id =>
    exact commentsHaveContent_of_comments_eq h (forumLike_comments now auth id s)
  | commentCreate auth body => exact commentCreate_commentsHaveContent now newId auth body s h
  | commentUpdate auth id body => exact commentUpdate_commentsHaveContent now auth id body s h
  | commentDelete auth id => exact commentDelete_commentsHaveContent auth id s h
  | register saltAndHash body =>
    exact commentsHaveContent_of_comments_eq h (register_comments now newId saltAndHash body s)

theorem reachable_commentsHaveContent [JsRuntime] {s : Store} (h : Reachable s) :
    CommentsHaveContent s := by
  induction h with
  | init =>
    intro c hc
    simp [Store.empty] at hc
  | step now newId req s _ ih => exact handle_commentsHaveContent now newId req s ih

theorem commentUpdate_without_content_is_400 [JsRuntime] (now : Nat) (userId : ObjectId)
    (id : String) (s : Store) (hr : Reachable s) (hv : isValidObjectId id = true)
    (c : Comment) (content : String) (hf : findById s.comments (castObjectId id) = some c)
    (ha : c.author = userId) (hblank : (jsTrim content).data = []) :
    (commentUpdate now (some userId) id { content := some content } s).1.status = 400 ∧
    (commentUpdate now (some userId) id { content := some content } s).2 = s := by
  by_cases htr : truthy (some content) = true
  · have hw := reachable_wellFormed hr
    have hc := reachable_commentsHaveContent hr c (findById_mem hf)
    have hpre : commentPreValidate c = true :=
      (exactlyOneParent_iff c).1 (hw.commentParent c (findById_mem hf))
    have hb : (c.author == userId) = true := by simpa using ha
    have hneq : (jsTrim content == c.content) = false := by
      rw [beq_eq_false_iff_ne]
      intro heq
      apply hc
      rw [← heq]
      exact hblank
    have hreq : requiredString (some (jsTrim content)) = false := by
      simp [requiredString, hblank]
    have hupd : commentUpdate now (some userId) id { content := some content } s =
        (⟨400, .validationError "Validation Error"⟩, s) := by
      simp [commentUpdate, checkCommentAuthorship, hv, htr, hf, hb, hpre, hneq, hreq]
    rw [hupd]
    exact ⟨rfl, rfl⟩
  · have htr2 : truthy (some content) = false := by simpa using htr
    have hupd : commentUpdate now (some userId) id { content := some content } s =
        (⟨400, .message "Comment content is required for update."⟩, s) := by
      simp [commentUpdate, hv, htr2]
    rw [hupd]
    exact ⟨rfl, rfl⟩

/-! ### Updating a comment -/

/-- Counterexample to C26 as worded: the author updates the sample comment with
the content of one blank, which is not empty; the reply is 400 and the content
is not replaced. -/
theorem commentUpdate_blank_content_is_400 :
    commentUpdate 9 (some alice) "0000000000000000000000c3" blankCommentUpdateBody sampleStore =
      (⟨400, .validationError "Validation Error"⟩, sampleStore) := by
  decide

/-- C26, amended: in a reachable store, an update of a stored comment by its
author with content that is not empty after trimming answers 200 with the
comment, whose content is the trimmed content and whose id, author, parent
and creation time are as before; that comment is what the store then holds
at the id, every other id reads as before, and the other collections are as
they were.  An update with missing or empty content by any authenticated
user answers 400 and changes nothing, and so does an update of a stored
comment by its author with content that is empty after trimming, content of
white space only included. -/
theorem commentUpdate_replaces_trimmed_content [JsRuntime] (now : Nat) (userId : ObjectId)
    (id : String) (s : Store) (hr : Reachable s) (hv : isValidObjectId id = true) :
    (∀ (c : Comment) (content : String),
      findById s.comments (castObjectId id) = some c → c.author = userId →
      (jsTrim content).data ≠ [] →
      ∃ c2 : Comment,
        (commentUpdate now (some userId) id { content := some content } s).1 =
          ⟨200, .comment c2⟩ ∧
        c2.content = jsTrim content ∧ c2._id = c._id ∧ c2.author = c.author ∧
        c2.project = c.project ∧ c2.forum = c.forum ∧ c2.createdAt = c.createdAt ∧
        findById (commentUpdate now (some userId) id { content := some content } s).2.comments
          (castObjectId id) = some c2 ∧
        (∀ other, other ≠ castObjectId id →
          findById (commentUpdate now (some userId) id
              { content := some content } s).2.comments other =
            findById s.comments other) ∧
        (commentUpdate now (some userId) id { content := some content } s).2.projects =
          s.projects ∧
        (commentUpdate now (some userId) id { content := some content } s).2.forums =
          s.forums ∧
        (commentUpdate now (some userId) id { content := some content } s).2.users =
          s.users) ∧
    (∀ body : CommentUpdateBody, truthy body.content = false →
      commentUpdate now (some userId) id body s =
        (⟨400, .message "Comment content is required for update."⟩, s)) ∧
    (∀ (c : Comment) (content : String),
      findById s.comments (castObjectId id) = some c → c.author = userId →
      (jsTrim content).data = [] →
      (commentUpdate now (some userId) id { content := some content } s).1.status = 400 ∧
      (commentUpdate now (some userId) id { content := some content } s).2 = s) := by
  have hw := reachable_wellFormed hr
  refine ⟨?_, ?_, ?_⟩
  · intro c content hf ha hne
    have hid : c._id = castObjectId id := findById_oid hf
    have hpre : commentPreValidate c = true :=
      (exactlyOneParent_iff c).1 (hw.commentParent c (findById_mem hf))
    have hb : (c.author == userId) = true := by simpa using ha
    have htr : truthy (some content) = true := by
      unfold truthy
      have : content.data ≠ [] := by
        intro h0
        apply hne
        have : content = "" := String.ext h0
        subst this
        decide
      simpa using this
    have hreq : requiredString (some (jsTrim content)) = true := by
      simpa [requiredString] using hne
    by_cases heq : (jsTrim content == c.content) = true
    · have hupd : commentUpdate now (some userId) id { content := some content } s =
          (⟨200, .comment c⟩, s) := by
        simp [commentUpdate, checkCommentAuthorship, hv, htr, hf, hb, hpre, heq, hid]
      rw [hupd]
      have hc : c.content = jsTrim content := by
        have := heq
        simp at this
        exact this.symm
      exact ⟨c, rfl, hc, rfl, rfl, rfl, rfl, rfl, hf, fun _ _ => rfl, rfl, rfl, rfl⟩
    · have hfu := findById_update_same
        (fun q : Comment => { q with content := jsTrim content, updatedAt := now })
        (fun _ => rfl) hf
      have hupd : commentUpdate now (some userId) id { content := some content } s =
          (⟨200, .comment { c with content := jsTrim content, updatedAt := now }⟩,
            { s with comments := (findByIdAndUpdate s.comments (castObjectId id)
              (fun q : Comment => { q with content := jsTrim content, updatedAt := now })).2 }) := by
        simp [commentUpdate, checkCommentAuthorship, hv, htr, hf, hb, hpre, heq, hid, hreq, hfu]
      rw [hupd]
      refine ⟨{ c with content := jsTrim content, updatedAt := now }, rfl, rfl, rfl, rfl, rfl,
        rfl, rfl, hfu, ?_, rfl, rfl, rfl⟩
      intro other hne2
      exact findById_update_other _ _ _ _ (fun _ => rfl) hne2
  · intro body hb
    simp [commentUpdate, hv, hb]
  · intro c content hf ha hblank
    exact commentUpdate_without_content_is_400 now userId id s hr hv c content hf ha hblank

/-- Witness of C26 on the sample store, which is reachable: alice updates her
sample comment with content that has a blank on each side, with no content,
and with content of two blanks. -/
theorem commentUpdate_replaces_trimmed_content_witness :
    (∃ c2 : Comment,
      (commentUpdate 9 (some alice) "0000000000000000000000c3"
          { content := some " edited " } sampleStore).1 = ⟨200, .comment c2⟩ ∧
      c2.content = jsTrim " edited " ∧ c2._id = sampleComment._id ∧
      c2.author = sampleComment.author ∧ c2.project = sampleComment.project ∧
      c2.forum = sampleComment.forum ∧ c2.createdAt = sampleComment.createdAt ∧
      findById (commentUpdate 9 (some alice) "0000000000000000000000c3"
          { content := some " edited " } sampleStore).2.comments
        (castObjectId "0000000000000000000000c3") = some c2 ∧
      (∀ other, other ≠ castObjectId "0000000000000000000000c3" →
        findById (commentUpdate 9 (some alice) "0000000000000000000000c3"
            { content := some " edited " } sampleStore).2.comments other =
          findById sampleStore.comments other) ∧
      (commentUpdate 9 (some alice) "0000000000000000000000c3"
          { content := some " edited " } sampleStore).2.projects = sampleStore.projects ∧
      (commentUpdate 9 (some alice) "0000000000000000000000c3"
          { content := some " edited " } sampleStore).2.forums = sampleStore.forums ∧
      (commentUpdate 9 (some alice) "0000000000000000000000c3"
          { content := some " edited " } sampleStore).2.users = sampleStore.users) ∧
    commentUpdate 9 (some alice) "0000000000000000000000c3" { content := none } sampleStore =
      (⟨400, .message "Comment content is required for update."⟩, sampleStore) ∧
    (commentUpdate 9 (some alice) "0000000000000000000000c3"
        { content := some "  " } sampleStore).1.status = 400 ∧
    (commentUpdate 9 (some alice) "0000000000000000000000c3"
        { content := some "  " } sampleStore).2 = sampleStore :=
  ⟨(commentUpdate_replaces_trimmed_content 9 alice "0000000000000000000000c3" sampleStore
      sampleStore_reachable (by decide)).1 sampleComment " edited " (by decide) (by decide)
      (by decide),
    (commentUpdate_replaces_trimmed_content 9 alice "0000000000000000000000c3" sampleStore
      sampleStore_reachable (by decide)).2.1 { content := none } (by decide),
    (commentUpdate_replaces_trimmed_content 9 alice "0000000000000000000000c3" sampleStore
      sampleStore_reachable (by decide)).2.2 sampleComment "  " (by decide) (by decide)
      (by decide)⟩

/-! ### The input domain of the list routes -/

theorem bigStore_projects_length : bigStore.projects.length = 101 := by
  simp [bigStore]

/-- C29: the project list does not enforce the input domain.  A request with
limit 1000 on a store with 101 projects is answered 200 with all 101 projects
and limit 1000, and a request with page -1 reaches the store with a negative
skip and is answered 500; the forum list rejects both requests with 400. -/
theorem projectList_admits_out_of_range :
    (∃ data : List Project,
      projectList (some 1) (some 1000) bigStore = ⟨200, .projectPage data 1 1 101 1000⟩ ∧
      data.length = 101) ∧
    projectList (some (-1)) none sampleStore = ⟨500, .message "Error fetching projects"⟩ ∧
    forumList (some 1) (some 1000) bigStore = schemaRejected ∧
    forumList (some (-1)) none sampleStore = schemaRejected ∧
    schemaRejected.status = 400 := by
  refine ⟨⟨((sortProjectsDesc bigStore.projects).drop ((1 - 1) * 1000)).take 1000, ?_, ?_⟩,
    by decide, by decide, by decide, rfl⟩
  · have h := projectList_in_range bigStore 1 1000 (by decide) (by decide)
    rw [bigStore_projects_length] at h
    have hc : ⌈((101 : Nat) : ℚ) / ((1000 : Nat) : ℚ)⌉ = 1 := by
      rw [Int.ceil_eq_iff]
      norm_num
    rw [hc] at h
    exact h
  · rw [List.length_take, List.length_drop, (sortProjectsDesc_perm _).length_eq,
      bigStore_projects_length]
    decide

/-! ### Tags -/

theorem unitsLe_total (a b : List Nat) : unitsLe a b = true ∨ unitsLe b a = true := by
  induction a generalizing b with
  | nil => exact Or.inl rfl
  | cons x xs ih =>
    cases b with
    | nil => exact Or.inr rfl
    | cons y ys =>
      simp only [unitsLe, Bool.or_eq_true, Bool.and_eq_true, decide_eq_true_eq, beq_iff_eq]
      rcases Nat.lt_trichotomy x y with h | h | h
      · exact Or.inl (Or.inl h)
      · rcases ih ys with h2 | h2
        · exact Or.inl (Or.inr ⟨h, h2⟩)
        · exact Or.inr (Or.inr ⟨h.symm, h2⟩)
      · exact Or.inr (Or.inl h)

theorem unitsLe_trans (a b c : List Nat) (h1 : unitsLe a b = true) (h2 : unitsLe b c = true) :
    unitsLe a c = true := by
  induction a generalizing b c with
  | nil => rfl
  | cons x xs ih =>
    cases b with
    | nil => simp [unitsLe] at h1
    | cons y ys =>
      cases c with
      | nil => simp [unitsLe] at h2
      | cons z zs =>
        simp only [unitsLe, Bool.or_eq_true, Bool.and_eq_true, decide_eq_true_eq,
          beq_iff_eq] at h1 h2 ⊢
        rcases h1 with h1 | ⟨h1, h1r⟩
        · rcases h2 with h2 | ⟨h2, _⟩
          · exact Or.inl (by omega)
          · exact Or.inl (by omega)
        · rcases h2 with h2 | ⟨h2, h2r⟩
          · exact Or.inl (by omega)
          · exact Or.inr ⟨by omega, ih ys zs h1r h2r⟩

theorem jsSort_perm (xs : List String) : (jsSort xs).Perm xs :=
  List.perm_insertionSort _ xs

theorem jsSort_sorted (xs : List String) :
    (jsSort xs).Sorted (fun a b => jsStringLe a b = true) := by
  have htotal : IsTotal String (fun a b => jsStringLe a b = true) :=
    ⟨fun a b => unitsLe_total (codeUnits a) (codeUnits b)⟩
  have htrans : IsTrans String (fun a b => jsStringLe a b = true) :=
    ⟨fun a b c h1 h2 => unitsLe_trans (codeUnits a) (codeUnits b) (codeUnits c) h1 h2⟩
  exact List.sorted_insertionSort _ xs

theorem castTags_lowerCase [JsRuntime] (hl : LowerCaseLaws) (ts : List String) :
    ∀ t ∈ castTags ts, jsToLowerCase t = t := by
  intro t ht
  unfold castTags at ht
  obtain ⟨x, _, hx⟩ := List.mem_map.1 ht
  rw [← hx]
  exact hl.2 x

theorem tagsLowerCase_of_projects_eq [JsRuntime] {s t : Store} (h : TagsLowerCase s)
    (he : t.projects = s.projects) : TagsLowerCase t := by
  unfold TagsLowerCase
  rw [he]
  exact h

theorem forumCreate_projects (now : Nat) (newId : ObjectId) (auth : Option ObjectId)
    (body : ForumBody) (s : Store) :
    (forumCreate now newId auth body s).2.projects = s.projects := by
  unfold forumCreate
  repeat' split
  all_goals rfl

theorem forumUpdate_projects (now : Nat) (auth : Option ObjectId) (id : String)
    (body : ForumBody) (s : Store) :
    (forumUpdate now auth id body s).2.projects = s.projects := by
  unfold forumUpdate
  repeat' split
  all_goals rfl

theorem forumDelete_projects (auth : Option ObjectId) (id : String) (s : Store) :
    (forumDelete auth id s).2.projects = s.projects := by
  unfold forumDelete
  repeat' split
  all_goals rfl

theorem forumLike_projects (now : Nat) (auth : Option ObjectId) (id : String) (s : Store) :
    (forumLike now auth id s).2.projects = s.projects := by
  unfold forumLike
  repeat' split
  all_goals rfl

theorem commentCreate_projects (now : Nat) (newId : ObjectId) (auth : Option ObjectId)
    (body : CommentBody) (s : Store) :
    (commentCreate now newId auth body s).2.projects = s.projects := by
  unfold commentCreate
  repeat' split
  all_goals rfl

theorem commentUpdate_projects (now : Nat) (auth : Option ObjectId) (id : String)
    (body : CommentUpdateBody) (s : Store) :
    (commentUpdate now auth id body s).2.projects = s.projects := by
  unfold commentUpdate
  repeat' split
  all_goals rfl

theorem commentDelete_projects (auth : Option ObjectId) (id : String) (s : Store) :
    (commentDelete auth id s).2.projects = s.projects := by
  unfold commentDelete
  repeat' split
  all_goals rfl

theorem register_projects [JsRuntime] (now : Nat) (newId : ObjectId) (saltAndHash : String)
    (body : RegisterBody) (s : Store) :
    (register now newId saltAndHash body s).2.projects = s.projects := by
  unfold register registerSave
  repeat' split
  all_goals rfl

theorem projectCreate_tagsLowerCase [JsRuntime] (hl : LowerCaseLaws) (now : Nat)
    (newId : ObjectId) (auth : Option ObjectId) (body : ProjectBody) (s : Store)
    (h : TagsLowerCase s) :
    TagsLowerCase (projectCreate now newId auth body s).2 := by
  unfold projectCreate
  split
  · exact h
  · split
    · exact h
    · split
      · exact h
      · rename_i ps hins
        have hall : ∀ y ∈ ps, ∀ t ∈ y.tags, jsToLowerCase t = t :=
          forall_insert (fun p : Project => ∀ t ∈ p.tags, jsToLowerCase t = t) h
            (castTags_lowerCase hl _) hins
        split <;> exact hall

theorem projectUpdate_tagsLowerCase [JsRuntime] (hl : LowerCaseLaws) (now : Nat)
    (auth : Option ObjectId) (id : String) (body : ProjectBody) (s : Store)
    (h : TagsLowerCase s) :
    TagsLowerCase (projectUpdate now auth id body s).2 := by
  have hall : ∀ y ∈ (findByIdAndUpdate s.projects (castObjectId id)
      (applyProjectUpdates now body)).2, ∀ t ∈ y.tags, jsToLowerCase t = t := by
    apply forall_update (fun p : Project => ∀ t ∈ p.tags, jsToLowerCase t = t) _ _ _ h
    intro x hx
    unfold applyProjectUpdates
    cases body.tags with
    | none => exact hx
    | some ts => exact castTags_lowerCase hl ts
  unfold projectUpdate
  split
  · exact h
  · split
    · exact h
    · split
      · exact h
      · split
        · exact h
        · split
          · rename_i heq
            have h2 := congrArg Prod.snd heq
            simp only at h2
            intro y hy
            exact hall y (by rw [h2]; exact hy)
          · rename_i heq
            have h2 := congrArg Prod.snd heq
            simp only at h2
            intro y hy
            exact hall y (by rw [h2]; exact hy)

theorem projectDelete_tagsLowerCase [JsRuntime] (auth : Option ObjectId) (id : String) (s : Store)
    (h : TagsLowerCase s) : TagsLowerCase (projectDelete auth id s).2 := by
  unfold projectDelete
  split
  · exact h
  · split
    · exact h
    · split
      · exact h
      · exact forall_delete (fun p : Project => ∀ t ∈ p.tags, jsToLowerCase t = t) _ _ h

theorem projectLike_tagsLowerCase [JsRuntime] (now : Nat) (auth : Option ObjectId) (id : String)
    (s : Store) (h : TagsLowerCase s) : TagsLowerCase (projectLike now auth id s).2 := by
  have hpull : ∀ userId, ∀ y ∈ (findByIdAndUpdate s.projects (castObjectId id)
      (fun p : Project => { p with likes := pull p.likes userId, updatedAt := now })).2,
      ∀ t ∈ y.tags, jsToLowerCase t = t := fun userId =>
    forall_update (fun p : Project => ∀ t ∈ p.tags, jsToLowerCase t = t) _ _ _ h
      (fun _ hx => hx)
  have hadd : ∀ userId, ∀ y ∈ (findByIdAndUpdate s.projects (castObjectId id)
      (fun p : Project => { p with likes := addToSet p.likes userId, updatedAt := now })).2,
      ∀ t ∈ y.tags, jsToLowerCase t = t := fun userId =>
    forall_update (fun p : Project => ∀ t ∈ p.tags, jsToLowerCase t = t) _ _ _ h
      (fun _ hx => hx)
  unfold projectLike
  split
  · exact h
  · rename_i userId
    split
    · exact h
    · split
      · exact h
      · split
        · split
          all_goals
            rename_i heq
            have h2 := congrArg Prod.snd heq
            simp only at h2
            intro y hy
            exact hpull userId y (by rw [h2]; exact hy)
        · split
          all_goals
            rename_i heq
            have h2 := congrArg Prod.snd heq
            simp only at h2
            intro y hy
            exact hadd userId y (by rw [h2]; exact hy)

theorem handle_tagsLowerCase [JsRuntime] (hl : LowerCaseLaws) (now : Nat) (newId : ObjectId)
    (req : Request) (s : Store) (h : TagsLowerCase s) :
    TagsLowerCase (handle now newId req s).2 := by
  cases req with
  | projectCreate auth body => exact projectCreate_tagsLowerCase hl now newId auth body s h
  | projectUpdate auth id body => exact projectUpdate_tagsLowerCase hl now auth id body s h
  | projectDelete auth id => exact projectDelete_tagsLowerCase auth id s h
  | projectLike auth id => exact projectLike_tagsLowerCase now auth id s h
  | forumCreate auth body =>
    exact tagsLowerCase_of_projects_eq h (forumCreate_projects now newId auth body s)
  | forumUpdate auth id body =>
    exact tagsLowerCase_of_projects_eq h (forumUpdate_projects now auth id body s)
  | forumDelete auth id => exact tagsLowerCase_of_projects_eq h (forumDelete_projects auth id s)
  | forumLike auth id => exact tagsLowerCase_of_projects_eq h (forumLike_projects now auth id s)
  | commentCreate auth body =>
    exact tagsLowerCase_of_projects_eq h (commentCreate_projects now newId auth body s)
  | commentUpdate auth id body =>
    exact tagsLowerCase_of_projects_eq h (commentUpdate_projects now auth id body s)
  | commentDelete auth id =>
    exact tagsLowerCase_of_projects_eq h (commentDelete_projects auth id s)
  | register saltAndHash body =>
    exact tagsLowerCase_of_projects_eq h (register_projects now newId saltAndHash body s)

theorem reachable_tagsLowerCase [JsRuntime] (hl : LowerCaseLaws) {s : Store}
    (h : Reachable s) : TagsLowerCase s := by
  induction h with
  | init =>
    intro p hp
    simp [Store.empty] at hp
  | step now newId req s _ ih => exact handle_tagsLowerCase hl now newId req s ih

/-- C22: `GET /tags` answers 200 with a list that is sorted in the order of
`sort()`, holds no tag twice and holds exactly the tags of the stored
projects; in a reachable store every tag of the list is in lower case, that
is, `toLowerCase` of the runtime leaves it as it is (given that `toLowerCase`
yields lower-case strings). -/
theorem listTags_sorted_distinct_lowercase_union [JsRuntime] (s : Store) :
    ∃ ts : List String, listTags s = ⟨200, .tags ts⟩ ∧
      ts.Sorted (fun a b => jsStringLe a b = true) ∧ ts.Nodup ∧
      (∀ t, t ∈ ts ↔ ∃ p ∈ s.projects, t ∈ p.tags) ∧
      (LowerCaseLaws → Reachable s → ∀ t ∈ ts, jsToLowerCase t = t) := by
  have hmem : ∀ t, t ∈ jsSort (distinctTags s.projects) ↔ ∃ p ∈ s.projects, t ∈ p.tags := by
    intro t
    rw [(jsSort_perm _).mem_iff]
    unfold distinctTags
    rw [List.mem_dedup, List.mem_flatMap]
  refine ⟨jsSort (distinctTags s.projects), rfl, jsSort_sorted _, ?_, hmem, ?_⟩
  · rw [(jsSort_perm _).nodup_iff]
    exact List.nodup_dedup _
  · intro hl hr t ht
    obtain ⟨p, hp, htp⟩ := (hmem t).1 ht
    exact reachable_tagsLowerCase hl hr p hp t htp

/-- Witness of C22 on the store of the two tagged projects, which is reachable:
the tags ` Web `, `API`, `api` and `CLI` of the requests are listed as `api`,
`cli`, `web`. -/
theorem listTags_sorted_distinct_lowercase_union_witness :
    listTags taggedStore = ⟨200, .tags ["api", "cli", "web"]⟩ ∧
    ∃ ts : List String, listTags taggedStore = ⟨200, .tags ts⟩ ∧
      ts.Sorted (fun a b => jsStringLe a b = true) ∧ ts.Nodup ∧
      (∀ t, t ∈ ts ↔ ∃ p ∈ taggedStore.projects, t ∈ p.tags) ∧
      ∀ t ∈ ts, jsToLowerCase t = t :=
  ⟨by decide,
    (listTags_sorted_distinct_lowercase_union taggedStore).imp (fun _ h =>
      ⟨h.1, h.2.1, h.2.2.1, h.2.2.2.1,
        h.2.2.2.2 sampleRuntime_lowerCaseLaws
          (Reachable.step 9 163 (.projectCreate (some bob) secondTaggedProjectBody) _
            (Reachable.step 8 162 (.projectCreate (some alice) taggedProjectBody) Store.empty
              Reachable.init))⟩)⟩

/-! ### Search -/

/-- C23: `GET /search` with a missing or empty query answers 400, whatever the
store holds.  With a query that is not empty, page `page ≥ 1` and limit
`limit ≥ 1` it answers 200 with, for projects and for forums separately, the
documents that match the query ranked by their own score, highest first, cut
to `limit` documents after skipping `(page - 1) * limit`, and the number of
all matching documents of the type; `totalApproximateResults` is the sum of
the two numbers.  A missing page is page 1, a missing limit is limit 10. -/
theorem search_ranks_and_cuts_each_type (projectMatch : String → Project → Bool)
    (projectScore : String → Project → Nat) (forumMatch : String → Forum → Bool)
    (forumScore : String → Forum → Nat) (s : Store) :
    (∀ (query : Option String) (page limit : Option Int), truthy query = false →
      ∀ t : Store, search projectMatch projectScore forumMatch forumScore query page limit t =
        ⟨400, .message "Search query parameter is required."⟩) ∧
    (∀ (q : String) (page limit : Nat), q.data ≠ [] → 1 ≤ page → 1 ≤ limit →
      ∃ (rankedProjects : List Project) (rankedForums : List Forum),
        rankedProjects.Perm (s.projects.filter (fun p => projectMatch q p)) ∧
        rankedProjects.Sorted (fun a b => projectScore q b ≤ projectScore q a) ∧
        rankedForums.Perm (s.forums.filter (fun f => forumMatch q f)) ∧
        rankedForums.Sorted (fun a b => forumScore q b ≤ forumScore q a) ∧
        search projectMatch projectScore forumMatch forumScore (some q) (some (page : Int))
            (some (limit : Int)) s =
          ⟨200, .search q
            ((rankedProjects.drop ((page - 1) * limit)).take limit)
            (s.projects.filter (fun p => projectMatch q p)).length
            ((rankedForums.drop ((page - 1) * limit)).take limit)
            (s.forums.filter (fun f => forumMatch q f)).length
            page limit
            ((s.projects.filter (fun p => projectMatch q p)).length +
              (s.forums.filter (fun f => forumMatch q f)).length)⟩) ∧
    (∀ q : String, search projectMatch projectScore forumMatch forumScore (some q) none none s =
      search projectMatch projectScore forumMatch forumScore (some q) (some 1) (some 10) s) := by
  refine ⟨?_, ?_, ?_⟩
  · intro query page limit hq t
    simp [search, hq]
  · intro q page limit hq hp hl
    have htr : truthy (some q) = true := by
      unfold truthy
      simpa using hq
    have htotalP : IsTotal Project (fun a b => projectScore q b ≤ projectScore q a) :=
      ⟨fun a b => Nat.le_total _ _⟩
    have htransP : IsTrans Project (fun a b => projectScore q b ≤ projectScore q a) :=
      ⟨fun _ _ _ h1 h2 => Nat.le_trans h2 h1⟩
    have htotalF : IsTotal Forum (fun a b => forumScore q b ≤ forumScore q a) :=
      ⟨fun a b => Nat.le_total _ _⟩
    have htransF : IsTrans Forum (fun a b => forumScore q b ≤ forumScore q a) :=
      ⟨fun _ _ _ h1 h2 => Nat.le_trans h2 h1⟩
    refine ⟨(s.projects.filter (fun p => projectMatch q p)).insertionSort
        (fun a b => projectScore q b ≤ projectScore q a),
      (s.forums.filter (fun f => forumMatch q f)).insertionSort
        (fun a b => forumScore q b ≤ forumScore q a),
      List.perm_insertionSort _ _, List.sorted_insertionSort _ _,
      List.perm_insertionSort _ _, List.sorted_insertionSort _ _, ?_⟩
    unfold search
    rw [orDefault_pos page hp, orDefault_pos limit hl, skip_toNat page limit hp]
    simp [htr, skip_nonneg page limit hp]
  · intro q
    rfl

/-- Witness of C23 with the stand-ins for the text index: a request without a
query, and the second page of ten of the 25 projects titled `Project`. -/
theorem search_ranks_and_cuts_each_type_witness :
    search sampleProjectMatch sampleProjectScore sampleForumMatch sampleForumScore none none none
        sampleStore = ⟨400, .message "Search query parameter is required."⟩ ∧
    ∃ (rankedProjects : List Project) (rankedForums : List Forum),
      rankedProjects.Perm (manyProjectsStore.projects.filter
        (fun p => sampleProjectMatch "Project" p)) ∧
      rankedProjects.Sorted
        (fun a b => sampleProjectScore "Project" b ≤ sampleProjectScore "Project" a) ∧
      rankedForums.Perm (manyProjectsStore.forums.filter
        (fun f => sampleForumMatch "Project" f)) ∧
      rankedForums.Sorted
        (fun a b => sampleForumScore "Project" b ≤ sampleForumScore "Project" a) ∧
      search sampleProjectMatch sampleProjectScore sampleForumMatch sampleForumScore
          (some "Project") (some ((2 : Nat) : Int)) (some ((10 : Nat) : Int))
          manyProjectsStore =
        ⟨200, .search "Project"
          ((rankedProjects.drop ((2 - 1) * 10)).take 10)
          (manyProjectsStore.projects.filter (fun p => sampleProjectMatch "Project" p)).length
          ((rankedForums.drop ((2 - 1) * 10)).take 10)
          (manyProjectsStore.forums.filter (fun f => sampleForumMatch "Project" f)).length
          ((2 : Nat) : Int) ((10 : Nat) : Int)
          ((manyProjectsStore.projects.filter
              (fun p => sampleProjectMatch "Project" p)).length +
            (manyProjectsStore.forums.filter
              (fun f => sampleForumMatch "Project" f)).length)⟩ :=
  ⟨(search_ranks_and_cuts_each_type sampleProjectMatch sampleProjectScore sampleForumMatch
      sampleForumScore sampleStore).1 none none none (by decide) sampleStore,
    (search_ranks_and_cuts_each_type sampleProjectMatch sampleProjectScore sampleForumMatch
      sampleForumScore manyProjectsStore).2.1 "Project" 2 10 (by decide) (by decide)
      (by decide)⟩

/-! ### Like requests served concurrently -/

theorem lookup_filter_self (pending : List (ObjectId × Bool)) (v : ObjectId) :
    (pending.filter (fun e => !(e.1 == v))).lookup v = none := by
  induction pending with
  | nil => rfl
  | cons e rest ih =>
    obtain ⟨k, d⟩ := e
    by_cases hk : k = v
    · subst hk
      simpa [List.filter_cons] using ih
    · have hb : (k == v) = false := by simpa using hk
      have hb2 : (v == k) = false := by simpa using fun h : v = k => hk h.symm
      simp only [List.filter_cons, hb, Bool.not_false, if_true, List.lookup_cons, hb2]
      exact ih

theorem lookup_filter_other (pending : List (ObjectId × Bool)) (u v : ObjectId) (h : u ≠ v) :
    (pending.filter (fun e => !(e.1 == v))).lookup u = pending.lookup u := by
  induction pending with
  | nil => rfl
  | cons e rest ih =>
    obtain ⟨k, d⟩ := e
    by_cases hk : k = v
    · subst hk
      have hb2 : (u == k) = false := by simpa using h
      simp only [List.filter_cons, beq_self_eq_true, Bool.not_true, Bool.false_eq_true, if_false,
        List.lookup_cons, hb2]
      exact ih
    · have hb : (k == v) = false := by simpa using hk
      simp only [List.filter_cons, hb, Bool.not_false, if_true, List.lookup_cons]
      cases (u == k)
      · exact ih
      · rfl

theorem operationsOf_cons_same (e : LikeEvent) (events : List LikeEvent) :
    operationsOf e.userId (e :: events) = e.isWrite :: operationsOf e.userId events := by
  simp [operationsOf, List.filter_cons]

theorem operationsOf_cons_other (u : ObjectId) (e : LikeEvent) (events : List LikeEvent)
    (h : e.userId ≠ u) : operationsOf u (e :: events) = operationsOf u events := by
  have hb : (e.userId == u) = false := by simpa using h
  simp [operationsOf, List.filter_cons, hb]

theorem interleaving_invariant {R : Type} (step : R → LikeEvent → R)
    (Rel : R → List ObjectId → List (ObjectId × Bool) → Prop)
    (hread : ∀ r L P u, Rel r L P →
      Rel (step r (.read u)) L ((u, L.any (fun like => like == u)) :: P))
    (hwrite : ∀ r L P now u d, Rel r L P → P.lookup u = some d →
      Rel (step r (.write now u)) (if d then pull L u else addToSet L u)
        (P.filter (fun e => !(e.1 == u))))
    (events : List LikeEvent) :
    ∀ r L P, Rel r L P → L.Nodup →
      (∀ u, (P.lookup u = none ∧
            (operationsOf u events = [] ∨ operationsOf u events = [false, true])) ∨
          (P.lookup u = some (L.any (fun like => like == u)) ∧
            operationsOf u events = [true])) →
      ∃ Lf Pf, Rel (events.foldl step r) Lf Pf ∧ Lf.Nodup ∧
        ∀ u, u ∈ Lf ↔ (u ∈ L ↔ operationsOf u events = []) := by
  induction events with
  | nil =>
    intro r L P hrel hnd _
    exact ⟨L, P, hrel, hnd, fun u => by simp [operationsOf]⟩
  | cons e events ih =>
    intro r L P hrel hnd hgood
    cases e with
    | read v =>
      have hops : operationsOf v (LikeEvent.read v :: events) =
          false :: operationsOf v events := operationsOf_cons_same (.read v) events
      have hv : P.lookup v = none ∧ operationsOf v events = [true] := by
        rcases hgood v with ⟨hl, h | h⟩ | ⟨_, h⟩
        · rw [hops] at h
          simp at h
        · rw [hops] at h
          simp at h
          exact ⟨hl, h⟩
        · rw [hops] at h
          simp at h
      obtain ⟨Lf, Pf, hrelf, hndf, hmem⟩ := ih (step r (.read v)) L
        ((v, L.any (fun like => like == v)) :: P) (hread r L P v hrel) hnd (by
          intro u
          by_cases hu : u = v
          · subst hu
            right
            exact ⟨by simp [List.lookup_cons], hv.2⟩
          · have hne : (LikeEvent.read v).userId ≠ u := fun h => hu h.symm
            have hb : (u == v) = false := by simpa using hu
            have hg := hgood u
            rw [operationsOf_cons_other u _ events hne] at hg
            simpa [List.lookup_cons, hb] using hg)
      refine ⟨Lf, Pf, hrelf, hndf, ?_⟩
      intro u
      rw [hmem u]
      by_cases hu : u = v
      · subst hu
        rw [hops, hv.2]
        simp
      · have hne : (LikeEvent.read v).userId ≠ u := fun h => hu h.symm
        rw [operationsOf_cons_other u _ events hne]
    | write now v =>
      have hops : operationsOf v (LikeEvent.write now v :: events) =
          true :: operationsOf v events := operationsOf_cons_same (.write now v) events
      have hv : P.lookup v = some (L.any (fun like => like == v)) ∧
          operationsOf v events = [] := by
        rcases hgood v with ⟨_, h | h⟩ | ⟨hl, h⟩
        · rw [hops] at h
          simp at h
        · rw [hops] at h
          simp at h
        · rw [hops] at h
          simp at h
          exact ⟨hl, h⟩
      have hother : ∀ u, u ≠ v →
          (u ∈ (if L.any (fun like => like == v) = true then pull L v else addToSet L v) ↔
            u ∈ L) := by
        intro u hu
        split
        · rw [mem_pull]
          exact ⟨fun h => h.1, fun h => ⟨h, hu⟩⟩
        · rw [mem_addToSet]
          exact ⟨fun h => h.resolve_right hu, Or.inl⟩
      have hself : v ∈ (if L.any (fun like => like == v) = true then pull L v
          else addToSet L v) ↔ ¬ v ∈ L := by
        split
        · rename_i h
          rw [mem_pull]
          have := (any_eq_true_iff_mem L v).1 h
          simp [this]
        · rename_i h
          have hn : ¬ v ∈ L := fun hm => h ((any_eq_true_iff_mem L v).2 hm)
          simp [hn, mem_addToSet_self]
      have hnd2 : (if L.any (fun like => like == v) = true then pull L v
          else addToSet L v).Nodup := by
        split
        · exact pull_nodup v hnd
        · exact addToSet_nodup v hnd
      obtain ⟨Lf, Pf, hrelf, hndf, hmem⟩ := ih (step r (.write now v)) _ _
        (hwrite r L P now v _ hrel hv.1) hnd2 (by
          intro u
          by_cases hu : u = v
          · subst hu
            left
            exact ⟨lookup_filter_self P u, Or.inl hv.2⟩
          · have hne : (LikeEvent.write now v).userId ≠ u := fun h => hu h.symm
            have hg := hgood u
            rw [operationsOf_cons_other u _ events hne] at hg
            rw [lookup_filter_other P u v hu]
            have hany : (if L.any (fun like => like == v) = true then pull L v
                else addToSet L v).any (fun like => like == u) =
                L.any (fun like => like == u) := by
              rw [Bool.eq_iff_iff]
              exact ((any_eq_true_iff_mem _ u).trans (hother u hu)).trans
                (any_eq_true_iff_mem L u).symm
            rw [hany]
            exact hg)
      refine ⟨Lf, Pf, hrelf, hndf, ?_⟩
      intro u
      rw [hmem u]
      by_cases hu : u = v
      · subst hu
        rw [hops, hv.2, hself]
        simp
      · have hne : (LikeEvent.write now v).userId ≠ u := fun h => hu h.symm
        rw [operationsOf_cons_other u _ events hne, hother u hu]

theorem operationsOf_of_isInterleaving {users : List ObjectId} {events : List LikeEvent}
    (h : isInterleaving users events = true) (u : ObjectId) :
    (u ∈ users → operationsOf u events = [false, true]) ∧
    (u ∉ users → operationsOf u events = []) := by
  unfold isInterleaving at h
  simp only [Bool.and_eq_true, decide_eq_true_eq, List.all_eq_true, beq_iff_eq] at h
  obtain ⟨⟨_, hall⟩, hev⟩ := h
  refine ⟨fun hu => hall u hu, ?_⟩
  intro hu
  unfold operationsOf
  rw [List.map_eq_nil_iff, List.filter_eq_nil_iff]
  intro e he heq
  have h1 := hev e he
  have h2 : e.userId = u := by simpa using heq
  rw [h2] at h1
  exact hu (by simpa using h1)

theorem projectLike_eq_read_write (now : Nat) (userId : ObjectId) (id : String) (s : Store) :
    projectLike now (some userId) id s =
      match projectLikeRead (some userId) id s with
      | .error reply => (reply, s)
      | .ok isLiked => projectLikeWrite now userId id isLiked s := by
  unfold projectLike projectLikeRead projectLikeWrite
  by_cases hv : isValidObjectId id = true
  · cases hf : findById s.projects (castObjectId id) with
    | none => simp [hv]
    | some p =>
      by_cases hl : p.likes.any (fun like => like == userId) = true
      · simp [hv, hl]
      · simp [hv, hl]
  · simp [hv]

theorem forumLike_eq_read_write (now : Nat) (userId : ObjectId) (id : String) (s : Store) :
    forumLike now (some userId) id s =
      match forumLikeRead (some userId) id s with
      | .error reply => (reply, s)
      | .ok isLiked => forumLikeWrite now userId id isLiked s := by
  unfold forumLike forumLikeRead forumLikeWrite
  by_cases hs : forumIdSchema id = true
  · by_cases hv : isValidObjectId id = true
    · cases hf : findById s.forums (castObjectId id) with
      | none => simp [hs, hv]
      | some f =>
        by_cases hl : f.likes.any (fun like => like == userId) = true
        · simp [hs, hv, hl]
        · simp [hs, hv, hl]
    · simp [hs, hv]
  · simp [hs]

theorem projectLikeStep_read {id : String} (hv : isValidObjectId id = true) (r : LikeRun)
    (L : List ObjectId) (P : List (ObjectId × Bool)) (u : ObjectId)
    (h : ∃ p : Project, findById r.store.projects (castObjectId id) = some p ∧ p.likes = L ∧
      r.pending = P) :
    ∃ p : Project, findById (projectLikeStep id r (.read u)).store.projects (castObjectId id) =
        some p ∧ p.likes = L ∧
      (projectLikeStep id r (.read u)).pending = (u, L.any (fun like => like == u)) :: P := by
  obtain ⟨p, hf, hl, hp⟩ := h
  have hstep : projectLikeStep id r (.read u) =
      { r with pending := (u, p.likes.any (fun like => like == u)) :: r.pending } := by
    simp [projectLikeStep, projectLikeRead, hv, hf]
  rw [hstep]
  exact ⟨p, hf, hl, by rw [hl, hp]⟩

theorem projectLikeStep_write {id : String} (r : LikeRun)
    (L : List ObjectId) (P : List (ObjectId × Bool)) (now : Nat) (u : ObjectId) (d : Bool)
    (h : ∃ p : Project, findById r.store.projects (castObjectId id) = some p ∧ p.likes = L ∧
      r.pending = P) (hd : P.lookup u = some d) :
    ∃ p : Project, findById (projectLikeStep id r (.write now u)).store.projects
        (castObjectId id) = some p ∧
      p.likes = (if d then pull L u else addToSet L u) ∧
      (projectLikeStep id r (.write now u)).pending = P.filter (fun e => !(e.1 == u)) := by
  obtain ⟨p, hf, hl, hp⟩ := h
  subst hp
  have hd2 : r.pending.lookup u = some d := hd
  cases d with
  | true =>
    have hfu := findById_update_same
      (fun q : Project => { q with likes := pull q.likes u, updatedAt := now })
      (fun _ => rfl) hf
    have hfst := findByIdAndUpdate_fst
      (fun q : Project => { q with likes := pull q.likes u, updatedAt := now }) hf
    rcases hupd : findByIdAndUpdate r.store.projects (castObjectId id)
      (fun q : Project => { q with likes := pull q.likes u, updatedAt := now }) with ⟨a, b⟩
    rw [hupd] at hfu hfst
    simp only at hfu hfst
    subst hfst
    refine ⟨{ p with likes := pull p.likes u, updatedAt := now }, ?_, ?_, ?_⟩
    · simp [projectLikeStep, projectLikeWrite, hd2, hupd, hfu]
    · simp [hl]
    · simp [projectLikeStep, hd2]
  | false =>
    have hfu := findById_update_same
      (fun q : Project => { q with likes := addToSet q.likes u, updatedAt := now })
      (fun _ => rfl) hf
    have hfst := findByIdAndUpdate_fst
      (fun q : Project => { q with likes := addToSet q.likes u, updatedAt := now }) hf
    rcases hupd : findByIdAndUpdate r.store.projects (castObjectId id)
      (fun q : Project => { q with likes := addToSet q.likes u, updatedAt := now }) with ⟨a, b⟩
    rw [hupd] at hfu hfst
    simp only at hfu hfst
    subst hfst
    refine ⟨{ p with likes := addToSet p.likes u, updatedAt := now }, ?_, ?_, ?_⟩
    · simp [projectLikeStep, projectLikeWrite, hd2, hupd, hfu]
    · simp [hl]
    · simp [projectLikeStep, hd2]

theorem forumLikeStep_read {id : String} (hv : isValidObjectId id = true) (r : LikeRun)
    (L : List ObjectId) (P : List (ObjectId × Bool)) (u : ObjectId)
    (h : ∃ f : Forum, findById r.store.forums (castObjectId id) = some f ∧ f.likes = L ∧
      r.pending = P) :
    ∃ f : Forum, findById (forumLikeStep id r (.read u)).store.forums (castObjectId id) =
        some f ∧ f.likes = L ∧
      (forumLikeStep id r (.read u)).pending = (u, L.any (fun like => like == u)) :: P := by
  obtain ⟨f, hf, hl, hp⟩ := h
  have hv2 : objectIdSchema id = true := hv
  have hstep : forumLikeStep id r (.read u) =
      { r with pending := (u, f.likes.any (fun like => like == u)) :: r.pending } := by
    simp [forumLikeStep, forumLikeRead, forumIdSchema, hv, hv2, hf]
  rw [hstep]
  exact ⟨f, hf, hl, by rw [hl, hp]⟩

theorem forumLikeStep_write {id : String} (r : LikeRun)
    (L : List ObjectId) (P : List (ObjectId × Bool)) (now : Nat) (u : ObjectId) (d : Bool)
    (h : ∃ f : Forum, findById r.store.forums (castObjectId id) = some f ∧ f.likes = L ∧
      r.pending = P) (hd : P.lookup u = some d) :
    ∃ f : Forum, findById (forumLikeStep id r (.write now u)).store.forums
        (castObjectId id) = some f ∧
      f.likes = (if d then pull L u else addToSet L u) ∧
      (forumLikeStep id r (.write now u)).pending = P.filter (fun e => !(e.1 == u)) := by
  obtain ⟨f, hf, hl, hp⟩ := h
  subst hp
  have hd2 : r.pending.lookup u = some d := hd
  cases d with
  | true =>
    have hfu := findById_update_same
      (fun q : Forum => { q with likes := pull q.likes u, updatedAt := now })
      (fun _ => rfl) hf
    have hfst := findByIdAndUpdate_fst
      (fun q : Forum => { q with likes := pull q.likes u, updatedAt := now }) hf
    rcases hupd : findByIdAndUpdate r.store.forums (castObjectId id)
      (fun q : Forum => { q with likes := pull q.likes u, updatedAt := now }) with ⟨a, b⟩
    rw [hupd] at hfu hfst
    simp only at hfu hfst
    subst hfst
    refine ⟨{ f with likes := pull f.likes u, updatedAt := now }, ?_, ?_, ?_⟩
    · simp [forumLikeStep, forumLikeWrite, hd2, hupd, hfu]
    · simp [hl]
    · simp [forumLikeStep, hd2]
  | false =>
    have hfu := findById_update_same
      (fun q : Forum => { q with likes := addToSet q.likes u, updatedAt := now })
      (fun _ => rfl) hf
    have hfst := findByIdAndUpdate_fst
      (fun q : Forum => { q with likes := addToSet q.likes u, updatedAt := now }) hf
    rcases hupd : findByIdAndUpdate r.store.forums (castObjectId id)
      (fun q : Forum => { q with likes := addToSet q.likes u, updatedAt := now }) with ⟨a, b⟩
    rw [hupd] at hfu hfst
    simp only at hfu hfst
    subst hfst
    refine ⟨{ f with likes := addToSet f.likes u, updatedAt := now }, ?_, ?_, ?_⟩
    · simp [forumLikeStep, forumLikeWrite, hd2, hupd, hfu]
    · simp [hl]
    · simp [forumLikeStep, hd2]

/-- C25: with the like route split into its two store operations, a read and a
write (served back to back they are the route), take any interleaving of the
operations of one like request by each of any number of distinct users on a
stored project or forum of a reachable store.  At the end the document is
still stored, a user is in its likes exactly when the user was in them before
and sent no request or was not in them and sent one, and the length of the
likes is the number of distinct users in them. -/
theorem concurrent_likes_count_distinct_users [JsRuntime] (id : String) (s : Store)
    (users : List ObjectId) (events : List LikeEvent) (hv : isValidObjectId id = true)
    (hr : Reachable s) (hi : isInterleaving users events = true) :
    (∀ (now : Nat) (userId : ObjectId),
      projectLike now (some userId) id s =
        (match projectLikeRead (some userId) id s with
          | .error reply => (reply, s)
          | .ok isLiked => projectLikeWrite now userId id isLiked s) ∧
      forumLike now (some userId) id s =
        (match forumLikeRead (some userId) id s with
          | .error reply => (reply, s)
          | .ok isLiked => forumLikeWrite now userId id isLiked s)) ∧
    (∀ p : Project, findById s.projects (castObjectId id) = some p →
      ∃ q : Project,
        findById (events.foldl (projectLikeStep id) ⟨s, []⟩).store.projects (castObjectId id) =
          some q ∧
        (∀ u, u ∈ q.likes ↔ (u ∈ p.likes ↔ u ∉ users)) ∧
        q.likes.length = q.likes.toFinset.card) ∧
    (∀ f : Forum, findById s.forums (castObjectId id) = some f →
      ∃ g : Forum,
        findById (events.foldl (forumLikeStep id) ⟨s, []⟩).store.forums (castObjectId id) =
          some g ∧
        (∀ u, u ∈ g.likes ↔ (u ∈ f.likes ↔ u ∉ users)) ∧
        g.likes.length = g.likes.toFinset.card) := by
  have hw := reachable_wellFormed hr
  have hgood : ∀ L : List ObjectId, ∀ u,
      (([] : List (ObjectId × Bool)).lookup u = none ∧
          (operationsOf u events = [] ∨ operationsOf u events = [false, true])) ∨
        (([] : List (ObjectId × Bool)).lookup u = some (L.any (fun like => like == u)) ∧
          operationsOf u events = [true]) := by
    intro L u
    left
    refine ⟨rfl, ?_⟩
    by_cases hu : u ∈ users
    · exact Or.inr ((operationsOf_of_isInterleaving hi u).1 hu)
    · exact Or.inl ((operationsOf_of_isInterleaving hi u).2 hu)
  have hops : ∀ u, operationsOf u events = [] ↔ u ∉ users := by
    intro u
    constructor
    · intro h hu
      rw [(operationsOf_of_isInterleaving hi u).1 hu] at h
      simp at h
    · exact (operationsOf_of_isInterleaving hi u).2
  refine ⟨fun now userId =>
    ⟨projectLike_eq_read_write now userId id s, forumLike_eq_read_write now userId id s⟩,
    ?_, ?_⟩
  · intro p hf
    obtain ⟨Lf, Pf, ⟨q, hq, hql, _⟩, hnd, hmem⟩ := interleaving_invariant (projectLikeStep id)
      (fun r L P => ∃ p : Project, findById r.store.projects (castObjectId id) = some p ∧
        p.likes = L ∧ r.pending = P)
      (fun r L P u h => projectLikeStep_read hv r L P u h)
      (fun r L P now u d h hd => projectLikeStep_write r L P now u d h hd)
      events ⟨s, []⟩ p.likes [] ⟨p, hf, rfl, rfl⟩ (hw.projectLikes p (findById_mem hf))
      (hgood p.likes)
    refine ⟨q, hq, ?_, ?_⟩
    · intro u
      rw [hql, hmem u, hops u]
    · rw [hql]
      exact (List.toFinset_card_of_nodup hnd).symm
  · intro f hf
    obtain ⟨Lf, Pf, ⟨g, hg, hgl, _⟩, hnd, hmem⟩ := interleaving_invariant (forumLikeStep id)
      (fun r L P => ∃ f : Forum, findById r.store.forums (castObjectId id) = some f ∧
        f.likes = L ∧ r.pending = P)
      (fun r L P u h => forumLikeStep_read hv r L P u h)
      (fun r L P now u d h hd => forumLikeStep_write r L P now u d h hd)
      events ⟨s, []⟩ f.likes [] ⟨f, hf, rfl, rfl⟩ (hw.forumLikes f (findById_mem hf))
      (hgood f.likes)
    refine ⟨g, hg, ?_, ?_⟩
    · intro u
      rw [hgl, hmem u, hops u]
    · rw [hgl]
      exact (List.toFinset_card_of_nodup hnd).symm

/-- Witness of C25 on the sample store, which is reachable: alice and bob both
read the sample project, which nobody likes, before either writes; at the end
both like it and its likes hold two users. -/
theorem concurrent_likes_count_distinct_users_witness :
    (sampleInterleaving.foldl (projectLikeStep "0000000000000000000000a1")
        ⟨sampleStore, []⟩).store.projects.map (fun p => p.likes) = [[bob, alice]] ∧
    ∃ q : Project,
      findById (sampleInterleaving.foldl (projectLikeStep "0000000000000000000000a1")
        ⟨sampleStore, []⟩).store.projects (castObjectId "0000000000000000000000a1") = some q ∧
      (∀ u, u ∈ q.likes ↔ (u ∈ sampleProject.likes ↔ u ∉ [alice, bob])) ∧
      q.likes.length = q.likes.toFinset.card :=
  ⟨by decide,
    (concurrent_likes_count_distinct_users "0000000000000000000000a1" sampleStore [alice, bob]
      sampleInterleaving (by decide) sampleStore_reachable (by decide)).2.1 sampleProject
      (by decide)⟩

end BlogApi
